import Mathlib

/-!
# cloud-whitelist-manager: a shallow embedding and its verified properties

The development follows the Go packages of the repository:

* `internal/config` : the configuration records,
* `internal/ip`     : `GetPublicIP` and the three kinds of IP source,
* `internal/aliyun` : the per-kind whitelist updates and `updateIPList`,
* `cmd/cloud-whitelist-manager` : the driver `updateIP`.

Everything outside the repository (the Aliyun SDK, the network, the operating
system) is a parameter: a record `Sys σ` of deterministic responses over an
arbitrary external state `σ`.  The embedded functions thread a `World σ`: the
external state together with a trace of the calls that were made.  Go strings
are Lean strings, read as lists of characters; a Go `error` is its message,
`none` standing for `nil`.  Logging is not modelled.
-/

namespace CloudWhitelistManager

/-! ## Go string library -/

/-- Go `unicode.IsSpace`: the Unicode White_Space code points. -/
def isSpace (c : Char) : Bool :=
  c = ' ' || c = '\t' || c = '\n' || c = '\r' || c.toNat = 0x0B || c.toNat = 0x0C
  || c.toNat = 0x85 || c.toNat = 0xA0 || c.toNat = 0x1680
  || (0x2000 ≤ c.toNat && c.toNat ≤ 0x200A)
  || c.toNat = 0x2028 || c.toNat = 0x2029 || c.toNat = 0x202F || c.toNat = 0x205F
  || c.toNat = 0x3000

/-- Leading and trailing white space removed, on character lists. -/
def trimChars (l : List Char) : List Char :=
  ((l.dropWhile isSpace).reverse.dropWhile isSpace).reverse

/-- Go `strings.TrimSpace`. -/
def TrimSpace (s : String) : String := ⟨trimChars s.data⟩

/-- The pieces of a character list between the occurrences of `sep`. -/
def splitChars (sep : Char) : List Char → List (List Char)
  | [] => [[]]
  | c :: cs =>
    if c = sep then [] :: splitChars sep cs
    else match splitChars sep cs with
      | [] => [[c]]
      | p :: ps => (c :: p) :: ps

/-- Go `strings.Split(s, ",")`. -/
def SplitComma (s : String) : List String := (splitChars ',' s.data).map String.mk

/-- Go `strings.Join(l, ",")`. -/
def JoinComma (l : List String) : String := ⟨[','].intercalate (l.map String.data)⟩

/-- Go `strings.Contains`. -/
def Contains (s substr : String) : Bool :=
  s.data.tails.any (fun t => substr.data.isPrefixOf t)

/-- Go `strings.TrimSuffix`. -/
def TrimSuffix (s suffix : String) : String :=
  if suffix.data.isSuffixOf s.data then ⟨s.data.take (s.data.length - suffix.data.length)⟩
  else s

/-- Go `fmt.Sprintf("%d", n)`. -/
def fmtInt (n : Int) : String := toString n

/-! ## internal/config: the configuration records -/

/-- Go `config.IPSource`. -/
structure IPSource where
  Type_ : String
  URL : String
  Timeout : Int
  Headers : List (String × String)
  Cmd : String
  Interface : String
  IPv6 : Bool
  deriving DecidableEq

/-- Go `config.SecurityGroup`. -/
structure SecurityGroup where
  SecurityGroupID : String
  Port : String
  Priority : Int
  deriving DecidableEq

/-- Go `config.ECS`. -/
structure ECS where
  Enabled : Bool
  SecurityGroupIDs : List SecurityGroup
  deriving DecidableEq

/-- Go `config.InstanceWhitelist`. -/
structure InstanceWhitelist where
  InstanceID : String
  WhitelistName : String
  deriving DecidableEq

/-- Go `config.RDS`. -/
structure RDS where
  Enabled : Bool
  InstanceWhitelists : List InstanceWhitelist
  deriving DecidableEq

/-- Go `config.Redis`. -/
structure Redis where
  Enabled : Bool
  InstanceWhitelists : List InstanceWhitelist
  deriving DecidableEq

/-- Go `config.LoadBalancerWhitelist`. -/
structure LoadBalancerWhitelist where
  AclID : String
  deriving DecidableEq

/-- Go `config.CLB`. -/
structure CLB where
  Enabled : Bool
  LoadBalancerWhitelists : List LoadBalancerWhitelist
  deriving DecidableEq

/-- Go `config.Aliyun`. -/
structure Aliyun where
  AccessKeyID : String
  AccessKeySecret : String
  RegionID : String
  ECS : ECS
  RDS : RDS
  Redis : Redis
  CLB : CLB
  deriving DecidableEq

/-- Go `config.Account`. -/
structure Account where
  Name : String
  AccessKeyID : String
  AccessKeySecret : String
  RegionID : String
  ECS : ECS
  RDS : RDS
  Redis : Redis
  CLB : CLB
  deriving DecidableEq

/-- Go `config.Config`. -/
structure Config where
  Interval : Int
  IPSource : IPSource
  Accounts : List Account
  Aliyun : Aliyun
  deriving DecidableEq

/-! ## internal/config: validation -/

/-- The `switch` of `Validate` on the type of the IP source. -/
def validateIPSource (source : IPSource) : Option String :=
  if source.Type_ = "http" then
    if source.URL = "" then some "IP source (http): URL is required" else none
  else if source.Type_ = "command" then
    if source.Cmd = "" then some "IP source (command): command is required" else none
  else if source.Type_ = "interface" then
    if source.Interface = "" then some "IP source (interface): interface is required" else none
  else if source.Type_ = "" then some "IP source type is required"
  else some ("unknown IP source type '" ++ source.Type_ ++ "'")

/-- The loop of `Validate` over the security groups of account `i`, from index `j`. -/
def accountSecurityGroups (i : Nat) : Nat → List SecurityGroup → Option String
  | _, [] => none
  | j, sg :: rest =>
    if sg.SecurityGroupID = "" then
      some ("account " ++ fmtInt i ++ ": ECS security group " ++ fmtInt j
        ++ " security_group_id is required")
    else if sg.Port = "" then
      some ("account " ++ fmtInt i ++ ": ECS security group " ++ fmtInt j ++ " port is required")
    else if sg.Priority ≤ 0 then
      some ("account " ++ fmtInt i ++ ": ECS security group " ++ fmtInt j
        ++ " priority must be greater than 0")
    else accountSecurityGroups i (j + 1) rest

/-- The loop of `Validate` over the RDS instance whitelists of account `i`. -/
def accountRDSWhitelists (i : Nat) : Nat → List InstanceWhitelist → Option String
  | _, [] => none
  | j, iw :: rest =>
    if iw.InstanceID = "" then
      some ("account " ++ fmtInt i ++ ": RDS instance whitelist " ++ fmtInt j
        ++ " instance_id is required")
    else if iw.WhitelistName = "" then
      some ("account " ++ fmtInt i ++ ": RDS instance whitelist " ++ fmtInt j
        ++ " whitelist_name is required")
    else accountRDSWhitelists i (j + 1) rest

/-- The loop of `Validate` over the Redis instance whitelists of account `i`. -/
def accountRedisWhitelists (i : Nat) : Nat → List InstanceWhitelist → Option String
  | _, [] => none
  | j, iw :: rest =>
    if iw.InstanceID = "" then
      some ("account " ++ fmtInt i ++ ": Redis instance whitelist " ++ fmtInt j
        ++ " instance_id is required")
    else if iw.WhitelistName = "" then
      some ("account " ++ fmtInt i ++ ": Redis instance whitelist " ++ fmtInt j
        ++ " whitelist_name is required")
    else accountRedisWhitelists i (j + 1) rest

/-- The loop of `Validate` over the CLB whitelists of account `i`. -/
def accountCLBWhitelists (i : Nat) : Nat → List LoadBalancerWhitelist → Option String
  | _, [] => none
  | j, lbw :: rest =>
    if lbw.AclID = "" then
      some ("account " ++ fmtInt i ++ ": CLB whitelist " ++ fmtInt j ++ " acl_id is required")
    else accountCLBWhitelists i (j + 1) rest

/-- The body of the loop of `Validate` over the accounts, for account `i`. -/
def validateAccount (i : Nat) (account : Account) : Option String :=
  if account.Name = "" then some ("account " ++ fmtInt i ++ ": name is required")
  else if account.AccessKeyID = "" then
    some ("account " ++ fmtInt i ++ ": access_key_id is required")
  else if account.AccessKeySecret = "" then
    some ("account " ++ fmtInt i ++ ": access_key_secret is required")
  else if account.RegionID = "" then some ("account " ++ fmtInt i ++ ": region_id is required")
  else
    match (if account.ECS.Enabled then
        if account.ECS.SecurityGroupIDs.length = 0 then
          some ("account " ++ fmtInt i
            ++ ": At least one ECS security group must be configured when ECS is enabled")
        else accountSecurityGroups i 0 account.ECS.SecurityGroupIDs
      else none) with
    | some err => some err
    | none =>
    match (if account.RDS.Enabled then
        if account.RDS.InstanceWhitelists.length = 0 then
          some ("account " ++ fmtInt i
            ++ ": At least one RDS instance whitelist must be configured when RDS is enabled")
        else accountRDSWhitelists i 0 account.RDS.InstanceWhitelists
      else none) with
    | some err => some err
    | none =>
    match (if account.Redis.Enabled then
        if account.Redis.InstanceWhitelists.length = 0 then
          some ("account " ++ fmtInt i
            ++ ": At least one Redis instance whitelist must be configured when Redis is enabled")
        else accountRedisWhitelists i 0 account.Redis.InstanceWhitelists
      else none) with
    | some err => some err
    | none =>
      if account.CLB.Enabled then
        if account.CLB.LoadBalancerWhitelists.length = 0 then
          some ("account " ++ fmtInt i
            ++ ": At least one CLB whitelist must be configured when CLB is enabled")
        else accountCLBWhitelists i 0 account.CLB.LoadBalancerWhitelists
      else none

/-- The loop of `Validate` over the accounts, from index `i`. -/
def validateAccounts : Nat → List Account → Option String
  | _, [] => none
  | i, account :: rest =>
    match validateAccount i account with
    | some err => some err
    | none => validateAccounts (i + 1) rest

/-- The loop of `Validate` over the security groups of the legacy block. -/
def aliyunSecurityGroups : Nat → List SecurityGroup → Option String
  | _, [] => none
  | i, sg :: rest =>
    if sg.SecurityGroupID = "" then
      some ("aliyun: ECS security group " ++ fmtInt i ++ " security_group_id is required")
    else if sg.Port = "" then
      some ("aliyun: ECS security group " ++ fmtInt i ++ " port is required")
    else if sg.Priority ≤ 0 then
      some ("aliyun: ECS security group " ++ fmtInt i ++ " priority must be greater than 0")
    else aliyunSecurityGroups (i + 1) rest

/-- The loop of `Validate` over the RDS instance whitelists of the legacy block. -/
def aliyunRDSWhitelists : Nat → List InstanceWhitelist → Option String
  | _, [] => none
  | i, iw :: rest =>
    if iw.InstanceID = "" then
      some ("aliyun: RDS instance whitelist " ++ fmtInt i ++ " instance_id is required")
    else if iw.WhitelistName = "" then
      some ("aliyun: RDS instance whitelist " ++ fmtInt i ++ " whitelist_name is required")
    else aliyunRDSWhitelists (i + 1) rest

/-- The loop of `Validate` over the Redis instance whitelists of the legacy block. -/
def aliyunRedisWhitelists : Nat → List InstanceWhitelist → Option String
  | _, [] => none
  | i, iw :: rest =>
    if iw.InstanceID = "" then
      some ("aliyun: Redis instance whitelist " ++ fmtInt i ++ " instance_id is required")
    else if iw.WhitelistName = "" then
      some ("aliyun: Redis instance whitelist " ++ fmtInt i ++ " whitelist_name is required")
    else aliyunRedisWhitelists (i + 1) rest

/-- The loop of `Validate` over the CLB whitelists of the legacy block. -/
def aliyunCLBWhitelists : Nat → List LoadBalancerWhitelist → Option String
  | _, [] => none
  | i, lbw :: rest =>
    if lbw.AclID = "" then some ("aliyun: CLB whitelist " ++ fmtInt i ++ " acl_id is required")
    else aliyunCLBWhitelists (i + 1) rest

/-- The `else` branch of `Validate`: the single legacy account. -/
def validateAliyun (aliyun : Aliyun) : Option String :=
  if aliyun.AccessKeyID = "" then some "aliyun.access_key_id is required"
  else if aliyun.AccessKeySecret = "" then some "aliyun.access_key_secret is required"
  else if aliyun.RegionID = "" then some "aliyun.region_id is required"
  else
    match (if aliyun.ECS.Enabled then
        if aliyun.ECS.SecurityGroupIDs.length = 0 then
          some "aliyun: At least one ECS security group must be configured when ECS is enabled"
        else aliyunSecurityGroups 0 aliyun.ECS.SecurityGroupIDs
      else none) with
    | some err => some err
    | none =>
    match (if aliyun.RDS.Enabled then
        if aliyun.RDS.InstanceWhitelists.length = 0 then
          some
            "aliyun: At least one RDS instance whitelist must be configured when RDS is enabled"
        else aliyunRDSWhitelists 0 aliyun.RDS.InstanceWhitelists
      else none) with
    | some err => some err
    | none =>
    match (if aliyun.Redis.Enabled then
        if aliyun.Redis.InstanceWhitelists.length = 0 then
          some ("aliyun: At least one Redis instance whitelist must be configured "
            ++ "when Redis is enabled")
        else aliyunRedisWhitelists 0 aliyun.Redis.InstanceWhitelists
      else none) with
    | some err => some err
    | none =>
      if aliyun.CLB.Enabled then
        if aliyun.CLB.LoadBalancerWhitelists.length = 0 then
          some "aliyun: At least one CLB whitelist must be configured when CLB is enabled"
        else aliyunCLBWhitelists 0 aliyun.CLB.LoadBalancerWhitelists
      else none

/-- Go `Config.Validate`: the error it returns, `none` for `nil`. -/
def Config.Validate (c : Config) : Option String :=
  if c.Interval ≤ 0 then some "interval must be greater than 0"
  else
    match validateIPSource c.IPSource with
    | some err => some err
    | none =>
      if c.Accounts.length > 0 then validateAccounts 0 c.Accounts
      else validateAliyun c.Aliyun

/-- Go `Account.GetAliyun`. -/
def Account.GetAliyun (a : Account) : Aliyun :=
  { AccessKeyID := a.AccessKeyID
    AccessKeySecret := a.AccessKeySecret
    RegionID := a.RegionID
    ECS := a.ECS
    RDS := a.RDS
    Redis := a.Redis
    CLB := a.CLB }

/-! ## The outside world -/

/-- Go `aliyun.Client`: the SDK clients are bound to the credentials and region
of `config`, so the configuration identifies the client. -/
structure Client where
  config : Aliyun
  deriving DecidableEq

/-- The fields that `removeIPFromECSSecurityGroup` sets on the SDK revoke request. -/
structure RevokeSecurityGroupRequest where
  Scheme : String
  SecurityGroupId : String
  IpProtocol : String
  PortRange : String
  SourceCidrIp : String
  Priority : String
  deriving DecidableEq

/-- The fields that `addIPToECSSecurityGroup` sets on the SDK authorize request. -/
structure AuthorizeSecurityGroupRequest where
  Scheme : String
  SecurityGroupId : String
  IpProtocol : String
  PortRange : String
  SourceCidrIp : String
  Priority : String
  Description : String
  deriving DecidableEq

/-- One whitelist group of an RDS describe response. -/
structure DBInstanceIPArray where
  DBInstanceIPArrayName : String
  SecurityIPList : String
  deriving DecidableEq

/-- The fields that `setRDSWhitelist` sets on the SDK modify request. -/
structure RDSModifySecurityIpsRequest where
  Scheme : String
  DBInstanceId : String
  SecurityIps : String
  WhitelistNetworkType : String
  DBInstanceIPArrayName : String
  deriving DecidableEq

/-- One whitelist group of a Redis describe response. -/
structure SecurityIpGroup where
  SecurityIpGroupName : String
  SecurityIpList : String
  deriving DecidableEq

/-- The fields that `setRedisWhitelist` sets on the SDK modify request. -/
structure RedisModifySecurityIpsRequest where
  Scheme : String
  InstanceId : String
  SecurityIps : String
  SecurityIpGroupName : String
  deriving DecidableEq

/-- One entry of a CLB access-control list, as the describe call returns it. -/
structure AclEntry where
  AclEntryIP : String
  AclEntryComment : String
  deriving DecidableEq

/-- One `map[string]string{"entry": .., "comment": ..}` of a CLB add or remove
request; the request carries the JSON serialisation of a list of them. -/
structure EntryMap where
  entry : String
  comment : String
  deriving DecidableEq

/-- What the HTTP exchange of `getIPFromHTTP` can come to. -/
inductive HTTPOutcome where
  /-- The call of `http.NewRequest` returned an error. -/
  | requestError (msg : String)
  /-- The call of `client.Do` returned an error. -/
  | doError (msg : String)
  /-- A response with its status code, the bytes `buf[:n]` of the single
  `Body.Read` and the error of that read. -/
  | response (status : Int) (body : String) (readErr : Option String)
  deriving DecidableEq

/-- One address of a network interface: what `getIPFromInterface` asks of it. -/
structure Addr where
  isLoopback : Bool
  isV4 : Bool
  text : String
  deriving DecidableEq

/-- One entry of `net.Interfaces()` with the result of its `Addrs()`. -/
structure NetInterface where
  Name : String
  Addrs : Except String (List Addr)

/-- The resource kinds of an account, in the order `updateIP` visits them. -/
inductive Kind where
  | ecs | rds | redis | clb
  deriving DecidableEq

/-- The calls recorded in the trace of a run. -/
inductive Event where
  /-- The call of `getIPFromSource` on a source by `GetPublicIP`. -/
  | getIPFromSource (source : IPSource)
  /-- The call of the update of a resource kind on a client by `updateIP`. -/
  | update (kind : Kind) (client : Client) (oldIP newIP : String)
  | revokeSecurityGroup (client : Client) (req : RevokeSecurityGroupRequest)
  | authorizeSecurityGroup (client : Client) (req : AuthorizeSecurityGroupRequest)
  | describeDBInstanceIPArrayList (client : Client) (instanceId : String)
  | rdsModifySecurityIps (client : Client) (req : RDSModifySecurityIpsRequest)
  | describeSecurityIps (client : Client) (instanceId : String)
  | redisModifySecurityIps (client : Client) (req : RedisModifySecurityIpsRequest)
  | describeAccessControlListAttribute (client : Client) (aclId : String)
  | removeAccessControlListEntry (client : Client) (aclId : String) (entries : List EntryMap)
  | addAccessControlListEntry (client : Client) (aclId : String) (entries : List EntryMap)
  deriving DecidableEq

/-- An iteration order of Go maps: `range` over a map yields every key exactly
once, in an order the language leaves open. -/
structure MapOrder where
  keys : List String → List String
  perm : ∀ l, (keys l).Perm l

/-- The environment of the program: the Go library, the operating system and
the Aliyun SDK, as deterministic responses over an external state `σ`. -/
structure Sys (σ : Type) where
  /-- Whether `net.ParseIP` accepts the text (returns non-nil). -/
  parseIP : String → Bool
  /-- The order in which the Go runtime ranges over the keys of a map. -/
  mapOrder : σ → MapOrder
  httpGet : IPSource → σ → HTTPOutcome × σ
  /-- The result of `cmd.Output()` for `sh -c source.Cmd`. -/
  runCommand : IPSource → σ → Except String String × σ
  netInterfaces : σ → Except String (List NetInterface) × σ
  revokeSecurityGroup : Client → RevokeSecurityGroupRequest → σ → Option String × σ
  authorizeSecurityGroup : Client → AuthorizeSecurityGroupRequest → σ → Option String × σ
  describeDBInstanceIPArrayList :
    Client → String → σ → Except String (List DBInstanceIPArray) × σ
  rdsModifySecurityIps : Client → RDSModifySecurityIpsRequest → σ → Option String × σ
  describeSecurityIps : Client → String → σ → Except String (List SecurityIpGroup) × σ
  redisModifySecurityIps : Client → RedisModifySecurityIpsRequest → σ → Option String × σ
  describeAccessControlListAttribute :
    Client → String → σ → Except String (List AclEntry) × σ
  removeAccessControlListEntry : Client → String → List EntryMap → σ → Option String × σ
  addAccessControlListEntry : Client → String → List EntryMap → σ → Option String × σ

/-- The external state and the calls made so far. -/
structure World (σ : Type) where
  env : σ
  trace : List Event

/-- Record an event and move to a new external state. -/
def World.step {σ : Type} (w : World σ) (e : Event) (s : σ) : World σ :=
  ⟨s, w.trace ++ [e]⟩

/-! ## internal/ip -/

section ip
variable {σ : Type}

/-- Go `getIPFromHTTP`. -/
def getIPFromHTTP (S : Sys σ) (source : IPSource) (env : σ) : (String × Option String) × σ :=
  match S.httpGet source env with
  | (.requestError err, env1) => (("", some ("failed to create HTTP request: " ++ err)), env1)
  | (.doError err, env1) => (("", some ("failed to make HTTP request: " ++ err)), env1)
  | (.response status body readErr, env1) =>
    if status ≠ 200 then
      (("", some ("HTTP request failed with status: " ++ fmtInt status)), env1)
    else
      match readErr with
      | some err =>
        if body.data.length = 0 then
          (("", some ("failed to read response body: " ++ err)), env1)
        else
          let ip := TrimSpace body
          if S.parseIP ip = false then (("", some ("invalid IP address: " ++ ip)), env1)
          else ((ip, none), env1)
      | none =>
        let ip := TrimSpace body
        if S.parseIP ip = false then (("", some ("invalid IP address: " ++ ip)), env1)
        else ((ip, none), env1)

/-- Go `getIPFromCommand`. -/
def getIPFromCommand (S : Sys σ) (source : IPSource) (env : σ) :
    (String × Option String) × σ :=
  match S.runCommand source env with
  | (.error err, env1) => (("", some ("command execution failed: " ++ err)), env1)
  | (.ok output, env1) =>
    let ip := TrimSpace output
    if S.parseIP ip = false then (("", some ("invalid IP address: " ++ ip)), env1)
    else ((ip, none), env1)

/-- The inner loop of `getIPFromInterface` over the addresses of one interface:
the text of the first address that is returned, if any. -/
def firstMatchingAddr (source : IPSource) : List Addr → Option String
  | [] => none
  | addr :: rest =>
    if addr.isLoopback then firstMatchingAddr source rest
    else if source.IPv6 && !addr.isV4 then some addr.text
    else if !source.IPv6 && addr.isV4 then some addr.text
    else firstMatchingAddr source rest

/-- The outer loop of `getIPFromInterface` over the interfaces. -/
def scanInterfaces (source : IPSource) : List NetInterface → String × Option String
  | [] => ("", some ("interface " ++ source.Interface ++ " not found or has no valid IP"))
  | iface :: rest =>
    if iface.Name = source.Interface then
      match iface.Addrs with
      | .error err =>
        ("", some ("failed to get addresses for interface " ++ source.Interface ++ ": " ++ err))
      | .ok addrs =>
        match firstMatchingAddr source addrs with
        | some ip => (ip, none)
        | none => scanInterfaces source rest
    else scanInterfaces source rest

/-- Go `getIPFromInterface`. -/
def getIPFromInterface (S : Sys σ) (source : IPSource) (env : σ) :
    (String × Option String) × σ :=
  match S.netInterfaces env with
  | (.error err, env1) => (("", some ("failed to get network interfaces: " ++ err)), env1)
  | (.ok interfaces, env1) => (scanInterfaces source interfaces, env1)

/-- Go `getIPFromSource`; the call is recorded in the trace. -/
def getIPFromSource (S : Sys σ) (source : IPSource) (w : World σ) :
    (String × Option String) × World σ :=
  let r :=
    if source.Type_ = "http" then getIPFromHTTP S source w.env
    else if source.Type_ = "command" then getIPFromCommand S source w.env
    else if source.Type_ = "interface" then getIPFromInterface S source w.env
    else (("", some ("unknown IP source type: " ++ source.Type_)), w.env)
  (r.1, w.step (.getIPFromSource source) r.2)

/-- Go `GetPublicIP`. -/
def GetPublicIP (S : Sys σ) : List IPSource → World σ → (String × Option String) × World σ
  | [], w => (("", some "failed to get IP from all configured sources"), w)
  | source :: rest, w =>
    match getIPFromSource S source w with
    | ((ip, err), w1) =>
      if err = none ∧ ip ≠ "" then ((ip, none), w1)
      else GetPublicIP S rest w1

end ip

/-! ## internal/aliyun -/

/-- The keys of a Go `map[string]bool` after `m[k] = true`; a map is kept as
the duplicate-free list of its keys. -/
def mapSet (m : List String) (k : String) : List String :=
  if k ∈ m then m else m ++ [k]

/-- The keys of a Go map after `delete(m, k)`. -/
def mapDelete (m : List String) (k : String) : List String :=
  m.filter (fun x => x ≠ k)

/-- Go `updateIPList`. -/
def updateIPList (order : MapOrder) (currentList oldIP newIP : String) : String :=
  let ips := SplitComma currentList
  let ipMap := ips.foldl
    (fun m ip => let ip := TrimSpace ip; if ip ≠ "" then mapSet m ip else m) []
  let ipMap := if oldIP ≠ "" then mapDelete ipMap oldIP else ipMap
  let ipMap := if newIP ≠ "" then mapSet ipMap newIP else ipMap
  JoinComma (order.keys ipMap)

/-- The request that `removeIPFromECSSecurityGroup` builds.  The source first
sets `ipProtocol` to `tcp` and then assigns it again in every branch. -/
def revokeRequest (ip : String) (sg : SecurityGroup) : RevokeSecurityGroupRequest :=
  let portRange := sg.Port
  let (ipProtocol, portRange) :=
    if portRange = "-1/-1" then ("all", "-1/-1")
    else if Contains portRange "/" then ("tcp", portRange)
    else ("tcp", sg.Port ++ "/" ++ sg.Port)
  { Scheme := "https"
    SecurityGroupId := sg.SecurityGroupID
    IpProtocol := ipProtocol
    PortRange := portRange
    SourceCidrIp := ip ++ "/32"
    Priority := fmtInt sg.Priority }

/-- The request that `addIPToECSSecurityGroup` builds.  The source first sets
`ipProtocol` to `tcp` and then assigns it again in every branch. -/
def authorizeRequest (ip : String) (sg : SecurityGroup) : AuthorizeSecurityGroupRequest :=
  let portRange := sg.Port
  let (ipProtocol, portRange) :=
    if portRange = "-1/-1" then ("all", "-1/-1")
    else if Contains portRange "/" then ("tcp", portRange)
    else ("tcp", sg.Port ++ "/" ++ sg.Port)
  { Scheme := "https"
    SecurityGroupId := sg.SecurityGroupID
    IpProtocol := ipProtocol
    PortRange := portRange
    SourceCidrIp := ip ++ "/32"
    Priority := fmtInt sg.Priority
    Description := "Auto added by cloud-whitelist-manager" }

section aliyun
variable {σ : Type}

/-- The Go loop `for _, x := range xs { if err := body(x); err != nil { return err } }`
followed by `return nil`. -/
def forEachTarget {α : Type} (body : α → World σ → Option String × World σ) :
    List α → World σ → Option String × World σ
  | [], w => (none, w)
  | x :: xs, w =>
    match body x w with
    | (some err, w1) => (some err, w1)
    | (none, w1) => forEachTarget body xs w1

/-- Go `Client.removeIPFromECSSecurityGroup`. -/
def removeIPFromECSSecurityGroup (S : Sys σ) (c : Client) (ip : String) (sg : SecurityGroup)
    (w : World σ) : Option String × World σ :=
  let request := revokeRequest ip sg
  match S.revokeSecurityGroup c request w.env with
  | (some err, env1) =>
    if Contains err "InvalidParam.SourceCidrIp" then
      (none, w.step (.revokeSecurityGroup c request) env1)
    else (some err, w.step (.revokeSecurityGroup c request) env1)
  | (none, env1) => (none, w.step (.revokeSecurityGroup c request) env1)

/-- Go `Client.addIPToECSSecurityGroup`. -/
def addIPToECSSecurityGroup (S : Sys σ) (c : Client) (ip : String) (sg : SecurityGroup)
    (w : World σ) : Option String × World σ :=
  let request := authorizeRequest ip sg
  match S.authorizeSecurityGroup c request w.env with
  | (err, env1) => (err, w.step (.authorizeSecurityGroup c request) env1)

/-- The body of the first loop of `UpdateECSWhitelist`. -/
def removeOldIP (S : Sys σ) (c : Client) (oldIP : String) (sg : SecurityGroup)
    (w : World σ) : Option String × World σ :=
  match removeIPFromECSSecurityGroup S c oldIP sg w with
  | (some err, w1) =>
    (some ("failed to remove old IP from ECS security group " ++ sg.SecurityGroupID
      ++ ": " ++ err), w1)
  | (none, w1) => (none, w1)

/-- The body of the second loop of `UpdateECSWhitelist`. -/
def addNewIP (S : Sys σ) (c : Client) (newIP : String) (sg : SecurityGroup)
    (w : World σ) : Option String × World σ :=
  match addIPToECSSecurityGroup S c newIP sg w with
  | (some err, w1) =>
    (some ("failed to add new IP to ECS security group " ++ sg.SecurityGroupID
      ++ ": " ++ err), w1)
  | (none, w1) => (none, w1)

/-- Go `Client.UpdateECSWhitelist`. -/
def UpdateECSWhitelist (S : Sys σ) (c : Client) (oldIP newIP : String) (w : World σ) :
    Option String × World σ :=
  if c.config.ECS.Enabled = false then (none, w)
  else
    match (if oldIP ≠ "" then forEachTarget (removeOldIP S c oldIP) c.config.ECS.SecurityGroupIDs w
           else (none, w)) with
    | (some err, w1) => (some err, w1)
    | (none, w1) =>
      if newIP ≠ "" then forEachTarget (addNewIP S c newIP) c.config.ECS.SecurityGroupIDs w1
      else (none, w1)

/-- The search loop of `getRDSWhitelist` over the groups of the response. -/
def findRDSGroup (iw : InstanceWhitelist) : List DBInstanceIPArray → String × Option String
  | [] => ("", some ("whitelist group " ++ iw.WhitelistName ++ " not found for RDS instance "
      ++ iw.InstanceID))
  | ipArray :: rest =>
    if ipArray.DBInstanceIPArrayName = iw.WhitelistName then (ipArray.SecurityIPList, none)
    else findRDSGroup iw rest

/-- Go `Client.getRDSWhitelist`. -/
def getRDSWhitelist (S : Sys σ) (c : Client) (iw : InstanceWhitelist) (w : World σ) :
    (String × Option String) × World σ :=
  match S.describeDBInstanceIPArrayList c iw.InstanceID w.env with
  | (.error err, env1) =>
    (("", some err), w.step (.describeDBInstanceIPArrayList c iw.InstanceID) env1)
  | (.ok items, env1) =>
    (findRDSGroup iw items, w.step (.describeDBInstanceIPArrayList c iw.InstanceID) env1)

/-- Go `Client.setRDSWhitelist`. -/
def setRDSWhitelist (S : Sys σ) (c : Client) (whitelist : String) (iw : InstanceWhitelist)
    (w : World σ) : Option String × World σ :=
  let request : RDSModifySecurityIpsRequest :=
    { Scheme := "https"
      DBInstanceId := iw.InstanceID
      SecurityIps := whitelist
      WhitelistNetworkType := "MIX"
      DBInstanceIPArrayName := iw.WhitelistName }
  match S.rdsModifySecurityIps c request w.env with
  | (err, env1) => (err, w.step (.rdsModifySecurityIps c request) env1)

/-- The body of the loop of `UpdateRDSWhitelist`. -/
def updateRDSInstance (S : Sys σ) (c : Client) (oldIP newIP : String) (iw : InstanceWhitelist)
    (w : World σ) : Option String × World σ :=
  match getRDSWhitelist S c iw w with
  | ((_, some err), w1) =>
    (some ("failed to get RDS whitelist for instance " ++ iw.InstanceID ++ ": " ++ err), w1)
  | ((currentWhitelist, none), w1) =>
    let newWhitelist := updateIPList (S.mapOrder w1.env) currentWhitelist oldIP newIP
    match setRDSWhitelist S c newWhitelist iw w1 with
    | (some err, w2) =>
      (some ("failed to update RDS whitelist for instance " ++ iw.InstanceID ++ ": " ++ err), w2)
    | (none, w2) => (none, w2)

/-- Go `Client.UpdateRDSWhitelist`. -/
def UpdateRDSWhitelist (S : Sys σ) (c : Client) (oldIP newIP : String) (w : World σ) :
    Option String × World σ :=
  if c.config.RDS.Enabled = false then (none, w)
  else forEachTarget (updateRDSInstance S c oldIP newIP) c.config.RDS.InstanceWhitelists w

/-- The search loop of `getRedisWhitelist` over the groups of the response. -/
def findRedisGroup (iw : InstanceWhitelist) : List SecurityIpGroup → String × Option String
  | [] => ("", some ("whitelist group " ++ iw.WhitelistName ++ " not found for Redis instance "
      ++ iw.InstanceID))
  | securityIPGroup :: rest =>
    if securityIPGroup.SecurityIpGroupName = iw.WhitelistName then
      (securityIPGroup.SecurityIpList, none)
    else findRedisGroup iw rest

/-- Go `Client.getRedisWhitelist`. -/
def getRedisWhitelist (S : Sys σ) (c : Client) (iw : InstanceWhitelist) (w : World σ) :
    (String × Option String) × World σ :=
  match S.describeSecurityIps c iw.InstanceID w.env with
  | (.error err, env1) => (("", some err), w.step (.describeSecurityIps c iw.InstanceID) env1)
  | (.ok groups, env1) =>
    (findRedisGroup iw groups, w.step (.describeSecurityIps c iw.InstanceID) env1)

/-- Go `Client.setRedisWhitelist`. -/
def setRedisWhitelist (S : Sys σ) (c : Client) (whitelist : String) (iw : InstanceWhitelist)
    (w : World σ) : Option String × World σ :=
  let request : RedisModifySecurityIpsRequest :=
    { Scheme := "https"
      InstanceId := iw.InstanceID
      SecurityIps := whitelist
      SecurityIpGroupName := iw.WhitelistName }
  match S.redisModifySecurityIps c request w.env with
  | (err, env1) => (err, w.step (.redisModifySecurityIps c request) env1)

/-- The body of the loop of `UpdateRedisWhitelist`. -/
def updateRedisInstance (S : Sys σ) (c : Client) (oldIP newIP : String)
    (iw : InstanceWhitelist) (w : World σ) : Option String × World σ :=
  match getRedisWhitelist S c iw w with
  | ((_, some err), w1) =>
    (some ("failed to get Redis whitelist for instance " ++ iw.InstanceID ++ ": " ++ err), w1)
  | ((currentWhitelist, none), w1) =>
    let newWhitelist := updateIPList (S.mapOrder w1.env) currentWhitelist oldIP newIP
    match setRedisWhitelist S c newWhitelist iw w1 with
    | (some err, w2) =>
      (some ("failed to update Redis whitelist for instance " ++ iw.InstanceID ++ ": " ++ err),
        w2)
    | (none, w2) => (none, w2)

/-- Go `Client.UpdateRedisWhitelist`. -/
def UpdateRedisWhitelist (S : Sys σ) (c : Client) (oldIP newIP : String) (w : World σ) :
    Option String × World σ :=
  if c.config.Redis.Enabled = false then (none, w)
  else forEachTarget (updateRedisInstance S c oldIP newIP) c.config.Redis.InstanceWhitelists w

/-- Go `Client.getCLBWhitelist`. -/
def getCLBWhitelist (S : Sys σ) (c : Client) (lbw : LoadBalancerWhitelist) (w : World σ) :
    (String × Option String) × World σ :=
  match S.describeAccessControlListAttribute c lbw.AclID w.env with
  | (.error err, env1) =>
    (("", some err), w.step (.describeAccessControlListAttribute c lbw.AclID) env1)
  | (.ok aclEntry, env1) =>
    let ips := aclEntry.map (fun entry => TrimSuffix entry.AclEntryIP "/32")
    ((JoinComma ips, none), w.step (.describeAccessControlListAttribute c lbw.AclID) env1)

/-- The entries that `setCLBWhitelist` prepares for the add request. -/
def entriesToAdd (whitelist : String) : List EntryMap :=
  (SplitComma whitelist).foldl
    (fun acc ip =>
      let ip := TrimSpace ip
      if ip ≠ "" then
        acc ++ [{ entry := ip ++ "/32", comment := "Auto added by cloud-whitelist-manager" }]
      else acc) []

/-- The second half of `setCLBWhitelist`: add the new entries. -/
def addCLBEntries (S : Sys σ) (c : Client) (whitelist : String) (lbw : LoadBalancerWhitelist)
    (w : World σ) : Option String × World σ :=
  if whitelist ≠ "" then
    if (entriesToAdd whitelist).length > 0 then
      match S.addAccessControlListEntry c lbw.AclID (entriesToAdd whitelist) w.env with
      | (some err, env1) =>
        (some err, w.step (.addAccessControlListEntry c lbw.AclID (entriesToAdd whitelist)) env1)
      | (none, env1) =>
        (none, w.step (.addAccessControlListEntry c lbw.AclID (entriesToAdd whitelist)) env1)
    else (none, w)
  else (none, w)

/-- Go `Client.setCLBWhitelist`. -/
def setCLBWhitelist (S : Sys σ) (c : Client) (whitelist : String) (lbw : LoadBalancerWhitelist)
    (w : World σ) : Option String × World σ :=
  match S.describeAccessControlListAttribute c lbw.AclID w.env with
  | (.error err, env1) =>
    (some err, w.step (.describeAccessControlListAttribute c lbw.AclID) env1)
  | (.ok aclEntry, env1) =>
    let w1 := w.step (.describeAccessControlListAttribute c lbw.AclID) env1
    if aclEntry.length > 0 then
      let entriesToRemove : List EntryMap :=
        aclEntry.map (fun entry => { entry := entry.AclEntryIP, comment := entry.AclEntryComment })
      match S.removeAccessControlListEntry c lbw.AclID entriesToRemove w1.env with
      | (some err, env2) =>
        (some err, w1.step (.removeAccessControlListEntry c lbw.AclID entriesToRemove) env2)
      | (none, env2) =>
        addCLBEntries S c whitelist lbw
          (w1.step (.removeAccessControlListEntry c lbw.AclID entriesToRemove) env2)
    else addCLBEntries S c whitelist lbw w1

/-- The body of the loop of `UpdateCLBWhitelist`. -/
def updateCLBAcl (S : Sys σ) (c : Client) (oldIP newIP : String) (lbw : LoadBalancerWhitelist)
    (w : World σ) : Option String × World σ :=
  match getCLBWhitelist S c lbw w with
  | ((_, some err), w1) =>
    (some ("failed to get CLB whitelist for ACL " ++ lbw.AclID ++ ": " ++ err), w1)
  | ((currentWhitelist, none), w1) =>
    let newWhitelist := updateIPList (S.mapOrder w1.env) currentWhitelist oldIP newIP
    match setCLBWhitelist S c newWhitelist lbw w1 with
    | (some err, w2) =>
      (some ("failed to update CLB whitelist for ACL " ++ lbw.AclID ++ ": " ++ err), w2)
    | (none, w2) => (none, w2)

/-- Go `Client.UpdateCLBWhitelist`. -/
def UpdateCLBWhitelist (S : Sys σ) (c : Client) (oldIP newIP : String) (w : World σ) :
    Option String × World σ :=
  if c.config.CLB.Enabled = false then (none, w)
  else forEachTarget (updateCLBAcl S c oldIP newIP) c.config.CLB.LoadBalancerWhitelists w

end aliyun

/-! ## cmd/cloud-whitelist-manager -/

/-- The driver state `currentState` of `main`. -/
structure State where
  LastIP : String
  CurrentIP : String
  deriving DecidableEq

section driver
variable {σ : Type}

/-- Record that `updateIP` calls the update of a kind on a client. -/
def World.invoke (w : World σ) (kind : Kind) (client : Client) (state : State) : World σ :=
  ⟨w.env, w.trace ++ [.update kind client state.LastIP state.CurrentIP]⟩

/-- The body of the loop of `updateIP` over the clients: the four updates of
one account, the error of each only logged. -/
def updateAccount (S : Sys σ) (state : State) (client : Client) (w : World σ) : World σ :=
  let w1 :=
    if client.config.ECS.Enabled then
      (UpdateECSWhitelist S client state.LastIP state.CurrentIP (w.invoke .ecs client state)).2
    else w
  let w2 :=
    if client.config.RDS.Enabled then
      (UpdateRDSWhitelist S client state.LastIP state.CurrentIP (w1.invoke .rds client state)).2
    else w1
  let w3 :=
    if client.config.Redis.Enabled then
      (UpdateRedisWhitelist S client state.LastIP state.CurrentIP
        (w2.invoke .redis client state)).2
    else w2
  if client.config.CLB.Enabled then
    (UpdateCLBWhitelist S client state.LastIP state.CurrentIP (w3.invoke .clb client state)).2
  else w3

/-- The loop of `updateIP` over the clients. -/
def updateAccounts (S : Sys σ) (state : State) : List Client → World σ → World σ
  | [], w => w
  | client :: rest, w => updateAccounts S state rest (updateAccount S state client w)

/-- Go `updateIP`: the returned error, the driver state and the world afterwards. -/
def updateIP (S : Sys σ) (cfg : Config) (aliyunClients : List Client) (state : State)
    (w : World σ) : Option String × State × World σ :=
  match GetPublicIP S [cfg.IPSource] w with
  | ((_, some err), w1) => (some ("failed to get public IP: " ++ err), state, w1)
  | ((currentIP, none), w1) =>
    if currentIP = state.CurrentIP then (none, state, w1)
    else
      let state1 : State := { LastIP := state.CurrentIP, CurrentIP := currentIP }
      (none, state1, updateAccounts S state1 aliyunClients w1)

/-- The clients that `main` creates before the first trigger: one for every
account, or one for the legacy block when no account is configured.  The SDK
constructors of `NewClient` are taken to succeed; `main` exits otherwise. -/
def newClients (cfg : Config) : List Client :=
  if cfg.Accounts.length > 0 then cfg.Accounts.map (fun account => ⟨account.GetAliyun⟩)
  else [⟨cfg.Aliyun⟩]

end driver

/-! ## Definitions used to state the properties -/

/-- The entries of a comma-separated list: its pieces with surrounding white
space trimmed, the empty ones dropped.  This is how `updateIPList` and
`setCLBWhitelist` read a list. -/
def entries (s : String) : List String :=
  ((SplitComma s).map TrimSpace).filter (fun ip => ip ≠ "")

/-- The keys of the map of `updateIPList` after its first loop. -/
def initialKeys (currentList : String) : List String :=
  (SplitComma currentList).foldl
    (fun m ip => let ip := TrimSpace ip; if ip ≠ "" then mapSet m ip else m) []

/-- The keys of the map of `updateIPList` just before the result is built. -/
def finalKeys (currentList oldIP newIP : String) : List String :=
  let ipMap := initialKeys currentList
  let ipMap := if oldIP ≠ "" then mapDelete ipMap oldIP else ipMap
  if newIP ≠ "" then mapSet ipMap newIP else ipMap

/-- What the properties ask of an IP text: it is not empty, holds no comma and
no surrounding white space.  Every text that `net.ParseIP` accepts is so. -/
abbrev WellFormedIP (s : String) : Prop :=
  s ≠ "" ∧ ',' ∉ s.data ∧ TrimSpace s = s

/-- The iteration order that yields the keys in insertion order. -/
def insertionOrder : MapOrder := ⟨fun l => l, fun l => List.Perm.refl l⟩

/-- The iteration order that yields the keys in reverse insertion order. -/
def reverseOrder : MapOrder := ⟨fun l => l.reverse, fun l => List.reverse_perm l⟩

section specification
variable {σ : Type}

/-- The world after `getIPFromSource` was tried on every source of the list in
order, provided that every one of them failed: returned an error or an empty
IP.  It is `none` as soon as one source succeeds. -/
def allFail (S : Sys σ) : List IPSource → World σ → Option (World σ)
  | [], w => some w
  | source :: rest, w =>
    if (getIPFromSource S source w).1.2 = none ∧ (getIPFromSource S source w).1.1 ≠ "" then none
    else allFail S rest (getIPFromSource S source w).2

/-- The updates of resource kinds that a trace records, with their arguments. -/
def invocations : List Event → List (Kind × Client × String × String)
  | [] => []
  | .update kind client oldIP newIP :: rest => (kind, client, oldIP, newIP) :: invocations rest
  | _ :: rest => invocations rest

/-- Whether an event is a call of the provider SDK. -/
def Event.isSDKCall : Event → Bool
  | .getIPFromSource _ => false
  | .update _ _ _ _ => false
  | _ => true

/-- Whether an event is a revoke call on a security group. -/
def Event.isRevoke : Event → Bool
  | .revokeSecurityGroup _ _ => true
  | _ => false

/-- The enabled resource kinds of a client, in the order ECS, RDS, Redis, CLB. -/
def enabledKinds (client : Client) : List Kind :=
  (if client.config.ECS.Enabled then [Kind.ecs] else [])
  ++ (if client.config.RDS.Enabled then [Kind.rds] else [])
  ++ (if client.config.Redis.Enabled then [Kind.redis] else [])
  ++ (if client.config.CLB.Enabled then [Kind.clb] else [])

/-- One update of every enabled kind of every client, in configured order, all
with the same pair of IPs. -/
def allUpdates (clients : List Client) (oldIP newIP : String) :
    List (Kind × Client × String × String) :=
  clients.flatMap (fun client => (enabledKinds client).map (fun kind => (kind, client, oldIP, newIP)))

/-- The second world has the trace of the first followed by events that all
satisfy `p`. -/
def Extends (p : Event → Prop) (w w1 : World σ) : Prop :=
  ∃ evs, w1.trace = w.trace ++ evs ∧ ∀ e ∈ evs, p e

/-- The update function of a resource kind: `UpdateECSWhitelist`,
`UpdateRDSWhitelist`, `UpdateRedisWhitelist` or `UpdateCLBWhitelist`. -/
def updateOfKind (S : Sys σ) :
    Kind → Client → String → String → World σ → Option String × World σ
  | .ecs => UpdateECSWhitelist S
  | .rds => UpdateRDSWhitelist S
  | .redis => UpdateRedisWhitelist S
  | .clb => UpdateCLBWhitelist S

/-- The world after the listed updates have been called one after the other:
each call is recorded, the update function of its kind is run on its client
with its two IPs, and the next call starts in the world that this one leaves,
whether it returned an error or not. -/
def callUpdates (S : Sys σ) : List (Kind × Client × String × String) → World σ → World σ
  | [], w => w
  | (kind, client, oldIP, newIP) :: rest, w =>
    callUpdates S rest
      (updateOfKind S kind client oldIP newIP (w.invoke kind client ⟨oldIP, newIP⟩)).2

/-- What the update of a resource kind may add to the trace: calls of the
provider SDK, and no revoke call when the old IP is absent. -/
def updateEvent (oldIP : String) (e : Event) : Prop :=
  e.isSDKCall = true ∧ (oldIP = "" → e.isRevoke = false)

end specification

/-! ## A small concrete environment, for examples -/

/-- An IP check for the example environment: digits and dots only, not empty. -/
def digitsAndDots (s : String) : Bool :=
  !s.data.isEmpty && s.data.all (fun c => c.isDigit || c = '.')

/-- An example environment.  Its state is the queue of the bodies that the HTTP
endpoint will answer.  The URL `http://down` refuses connections; a command
`echo x` prints `x` and any other command fails; there is no network interface.
Provider calls on the identifiers `sg-bad`, `rm-bad`, `r-bad` and `acl-bad`
fail, all others succeed; every instance has the whitelist group `default`
with the entry `10.0.0.1`, and every ACL the entry `10.0.0.1/32`. -/
def exampleSys : Sys (List String) where
  parseIP := digitsAndDots
  mapOrder := fun _ => insertionOrder
  httpGet := fun source queue =>
    if source.URL = "http://down" then (.doError "connection refused", queue)
    else match queue with
      | [] => (.response 500 "" none, [])
      | body :: rest => (.response 200 body none, rest)
  runCommand := fun source queue =>
    if "echo ".data.isPrefixOf source.Cmd.data then
      (.ok ⟨source.Cmd.data.drop 5 ++ ['\n']⟩, queue)
    else (.error "exit status 127", queue)
  netInterfaces := fun queue => (.ok [], queue)
  revokeSecurityGroup := fun _ req queue =>
    if req.SecurityGroupId = "sg-bad" then (some "InvalidSecurityGroupId.NotFound", queue)
    else (none, queue)
  authorizeSecurityGroup := fun _ req queue =>
    if req.SecurityGroupId = "sg-bad" then (some "InvalidSecurityGroupId.NotFound", queue)
    else (none, queue)
  describeDBInstanceIPArrayList := fun _ instanceId queue =>
    if instanceId = "rm-bad" then (.error "InvalidDBInstanceId.NotFound", queue)
    else (.ok [{ DBInstanceIPArrayName := "default", SecurityIPList := "10.0.0.1" }], queue)
  rdsModifySecurityIps := fun _ _ queue => (none, queue)
  describeSecurityIps := fun _ instanceId queue =>
    if instanceId = "r-bad" then (.error "InvalidInstanceId.NotFound", queue)
    else (.ok [{ SecurityIpGroupName := "default", SecurityIpList := "10.0.0.1" }], queue)
  redisModifySecurityIps := fun _ _ queue => (none, queue)
  describeAccessControlListAttribute := fun _ aclId queue =>
    if aclId = "acl-bad" then (.error "InvalidAclId.NotFound", queue)
    else (.ok [{ AclEntryIP := "10.0.0.1/32", AclEntryComment := "office" }], queue)
  removeAccessControlListEntry := fun _ _ _ queue => (none, queue)
  addAccessControlListEntry := fun _ _ _ queue => (none, queue)

/-- An HTTP source of the example environment. -/
def exampleHTTPSource : IPSource :=
  { Type_ := "http", URL := "http://ip.example", Timeout := 10, Headers := [],
    Cmd := "", Interface := "", IPv6 := false }

/-- A command source of the example environment. -/
def exampleCommandSource (cmd : String) : IPSource :=
  { Type_ := "command", URL := "", Timeout := 10, Headers := [],
    Cmd := cmd, Interface := "", IPv6 := false }

/-- The sources `[fail, fail, succeed(203.0.113.5), s4]`: an endpoint that is
down, a command that fails, a command that prints the IP and a fourth source. -/
def exampleSources : List IPSource :=
  [ { exampleHTTPSource with URL := "http://down" },
    exampleCommandSource "false",
    exampleCommandSource "echo 203.0.113.5",
    exampleHTTPSource ]

/-- An account of the example environment whose targets all answer: two
security groups, two RDS instances, one Redis instance and one ACL. -/
def goodClient : Client :=
  { config :=
    { AccessKeyID := "key-a", AccessKeySecret := "secret-a", RegionID := "cn-hangzhou",
      ECS := { Enabled := true,
               SecurityGroupIDs := [⟨"sg-1", "22", 1⟩, ⟨"sg-2", "-1/-1", 1⟩] },
      RDS := { Enabled := true, InstanceWhitelists := [⟨"rm-1", "default"⟩, ⟨"rm-2", "default"⟩] },
      Redis := { Enabled := true, InstanceWhitelists := [⟨"r-1", "default"⟩] },
      CLB := { Enabled := true, LoadBalancerWhitelists := [⟨"acl-1"⟩] } } }

/-- An account of the example environment in which the first target of every
kind fails and the second would answer. -/
def badClient : Client :=
  { config :=
    { AccessKeyID := "key-b", AccessKeySecret := "secret-b", RegionID := "cn-beijing",
      ECS := { Enabled := true,
               SecurityGroupIDs := [⟨"sg-bad", "22", 1⟩, ⟨"sg-1", "22", 1⟩] },
      RDS := { Enabled := true,
               InstanceWhitelists := [⟨"rm-bad", "default"⟩, ⟨"rm-1", "default"⟩] },
      Redis := { Enabled := true,
                 InstanceWhitelists := [⟨"r-bad", "default"⟩, ⟨"r-1", "default"⟩] },
      CLB := { Enabled := true, LoadBalancerWhitelists := [⟨"acl-bad"⟩, ⟨"acl-1"⟩] } } }

/-- A configuration of the example environment; `updateIP` reads its IP source. -/
def exampleConfig : Config :=
  { Interval := 300, IPSource := exampleHTTPSource, Accounts := [],
    Aliyun := goodClient.config }

/-- A world of the example environment with an empty trace. -/
def exampleWorld (queue : List String) : World (List String) := ⟨queue, []⟩

/-! ## Definitions used to state the properties of validation -/

/-- The targets of every enabled kind of an account are in order: an enabled
kind has at least one target, a security group has an identifier, a port and a
positive priority, an RDS or Redis target an instance and a whitelist name, and
a CLB target an ACL identifier. -/
def EnabledTargetsValid (a : Aliyun) : Prop :=
  (a.ECS.Enabled = true →
      a.ECS.SecurityGroupIDs ≠ [] ∧
      ∀ sg ∈ a.ECS.SecurityGroupIDs, sg.SecurityGroupID ≠ "" ∧ sg.Port ≠ "" ∧ 0 < sg.Priority)
  ∧ (a.RDS.Enabled = true →
      a.RDS.InstanceWhitelists ≠ [] ∧
      ∀ iw ∈ a.RDS.InstanceWhitelists, iw.InstanceID ≠ "" ∧ iw.WhitelistName ≠ "")
  ∧ (a.Redis.Enabled = true →
      a.Redis.InstanceWhitelists ≠ [] ∧
      ∀ iw ∈ a.Redis.InstanceWhitelists, iw.InstanceID ≠ "" ∧ iw.WhitelistName ≠ "")
  ∧ (a.CLB.Enabled = true →
      a.CLB.LoadBalancerWhitelists ≠ [] ∧
      ∀ lbw ∈ a.CLB.LoadBalancerWhitelists, lbw.AclID ≠ "")

/-- The same with the fields of every configured target in order, whether its
kind is enabled or not. -/
def AllTargetsValid (a : Aliyun) : Prop :=
  (a.ECS.Enabled = true → a.ECS.SecurityGroupIDs ≠ [])
  ∧ (a.RDS.Enabled = true → a.RDS.InstanceWhitelists ≠ [])
  ∧ (a.Redis.Enabled = true → a.Redis.InstanceWhitelists ≠ [])
  ∧ (a.CLB.Enabled = true → a.CLB.LoadBalancerWhitelists ≠ [])
  ∧ (∀ sg ∈ a.ECS.SecurityGroupIDs, sg.SecurityGroupID ≠ "" ∧ sg.Port ≠ "" ∧ 0 < sg.Priority)
  ∧ (∀ iw ∈ a.RDS.InstanceWhitelists, iw.InstanceID ≠ "" ∧ iw.WhitelistName ≠ "")
  ∧ (∀ iw ∈ a.Redis.InstanceWhitelists, iw.InstanceID ≠ "" ∧ iw.WhitelistName ≠ "")
  ∧ (∀ lbw ∈ a.CLB.LoadBalancerWhitelists, lbw.AclID ≠ "")

/-- The valid configuration of `TestConfigValidation`. -/
def testConfig : Config :=
  { Interval := 300,
    IPSource := { Type_ := "http", URL := "http://ipinfo.io/ip", Timeout := 10, Headers := [],
                  Cmd := "", Interface := "", IPv6 := false },
    Accounts :=
      [ { Name := "test_account", AccessKeyID := "test_key", AccessKeySecret := "test_secret",
          RegionID := "cn-hangzhou",
          ECS := { Enabled := true, SecurityGroupIDs := [⟨"sg-test", "22", 100⟩] },
          RDS := { Enabled := true, InstanceWhitelists := [⟨"rm-test", "default"⟩] },
          Redis := { Enabled := true, InstanceWhitelists := [⟨"r-test", "default"⟩] },
          CLB := { Enabled := true, LoadBalancerWhitelists := [⟨"acl-test"⟩] } } ],
    Aliyun :=
      { AccessKeyID := "", AccessKeySecret := "", RegionID := "",
        ECS := { Enabled := false, SecurityGroupIDs := [] },
        RDS := { Enabled := false, InstanceWhitelists := [] },
        Redis := { Enabled := false, InstanceWhitelists := [] },
        CLB := { Enabled := false, LoadBalancerWhitelists := [] } } }

/-- A configuration with one account whose ECS block is disabled and lists a
security group with no identifier, no port and priority zero. -/
def disabledECSConfig : Config :=
  { testConfig with
    Accounts :=
      [ { Name := "test_account", AccessKeyID := "test_key", AccessKeySecret := "test_secret",
          RegionID := "cn-hangzhou",
          ECS := { Enabled := false, SecurityGroupIDs := [⟨"", "", 0⟩] },
          RDS := { Enabled := true, InstanceWhitelists := [⟨"rm-test", "default"⟩] },
          Redis := { Enabled := false, InstanceWhitelists := [] },
          CLB := { Enabled := false, LoadBalancerWhitelists := [] } } ] }

/-! ## Definitions used to state the properties of the driver over time -/

section triggers
variable {σ : Type}

/-- The driver state after a sequence of triggers from the initial state of
`main`, the world found at each trigger being arbitrary. -/
def runTriggers (S : Sys σ) (cfg : Config) (clients : List Client) (worlds : List (World σ)) :
    State :=
  worlds.foldl (fun state w => (updateIP S cfg clients state w).2.1) ⟨"", ""⟩

end triggers

/-! ## A reference model of the access-control lists of the provider -/

/-- An environment in which nothing answers: every call fails and leaves the
external state as it is. -/
def idleSys (σ : Type) : Sys σ where
  parseIP := fun _ => false
  mapOrder := fun _ => insertionOrder
  httpGet := fun _ env => (.doError "unreachable", env)
  runCommand := fun _ env => (.error "unavailable", env)
  netInterfaces := fun env => (.error "unavailable", env)
  revokeSecurityGroup := fun _ _ env => (some "ServiceUnavailable", env)
  authorizeSecurityGroup := fun _ _ env => (some "ServiceUnavailable", env)
  describeDBInstanceIPArrayList := fun _ _ env => (.error "ServiceUnavailable", env)
  rdsModifySecurityIps := fun _ _ env => (some "ServiceUnavailable", env)
  describeSecurityIps := fun _ _ env => (.error "ServiceUnavailable", env)
  redisModifySecurityIps := fun _ _ env => (some "ServiceUnavailable", env)
  describeAccessControlListAttribute := fun _ _ env => (.error "ServiceUnavailable", env)
  removeAccessControlListEntry := fun _ _ _ env => (some "ServiceUnavailable", env)
  addAccessControlListEntry := fun _ _ _ env => (some "ServiceUnavailable", env)

/-- The entry that the provider stores for one map of an add request. -/
def EntryMap.toAclEntry (m : EntryMap) : AclEntry :=
  { AclEntryIP := m.entry, AclEntryComment := m.comment }

/-- An environment whose state is the content of every access-control list, by
ACL identifier.  The describe call returns the entries of the list, the remove
call deletes the entries whose address the request names, the add call appends
the entries of the request; all three succeed, whatever the entries are. -/
def aclSys : Sys (String → List AclEntry) :=
  { idleSys (String → List AclEntry) with
    describeAccessControlListAttribute := fun _ aclId acl => (.ok (acl aclId), acl)
    removeAccessControlListEntry := fun _ aclId entries acl =>
      (none, fun id =>
        if id = aclId then
          (acl id).filter (fun e => e.AclEntryIP ∉ entries.map (fun m => m.entry))
        else acl id)
    addAccessControlListEntry := fun _ aclId entries acl =>
      (none, fun id =>
        if id = aclId then acl id ++ entries.map EntryMap.toAclEntry else acl id) }

/-- The comment that `setCLBWhitelist` gives to the entries it adds. -/
def autoComment : String := "Auto added by cloud-whitelist-manager"

/-- An account with one access-control list, for the reference model. -/
def aclClient : Client :=
  { config :=
    { AccessKeyID := "key-a", AccessKeySecret := "secret-a", RegionID := "cn-hangzhou",
      ECS := { Enabled := false, SecurityGroupIDs := [] },
      RDS := { Enabled := false, InstanceWhitelists := [] },
      Redis := { Enabled := false, InstanceWhitelists := [] },
      CLB := { Enabled := true, LoadBalancerWhitelists := [⟨"acl-1"⟩] } } }

/-- An ACL state of the reference model: the list `acl-1` holds the host entry
`1.1.1.1/32` and the network entry `10.0.0.0/8`. -/
def officeAcl : String → List AclEntry := fun id =>
  if id = "acl-1" then [⟨"1.1.1.1/32", "home"⟩, ⟨"10.0.0.0/8", "office"⟩] else []

/-! ## Lemmas on the string library -/

theorem splitChars_ne_nil (sep : Char) (l : List Char) : splitChars sep l ≠ [] := by
  induction l with
  | nil => simp [splitChars]
  | cons c cs ih =>
    unfold splitChars
    split
    · simp
    · split <;> simp

theorem splitChars_append_sep (sep : Char) (a b : List Char) :
    splitChars sep (a ++ sep :: b) = splitChars sep a ++ splitChars sep b := by
  induction a with
  | nil => simp [splitChars]
  | cons c cs ih =>
    by_cases hc : c = sep
    · simp [splitChars, hc, ih]
    · have h1 : splitChars sep cs ≠ [] := splitChars_ne_nil sep cs
      rcases hs : splitChars sep cs with _ | ⟨p, ps⟩
      · exact absurd hs h1
      · simp [splitChars, hc, ih, hs]

theorem splitChars_intercalate (sep : Char) (ls : List (List Char)) (h : ls ≠ []) :
    splitChars sep ([sep].intercalate ls) = ls.flatMap (splitChars sep) := by
  induction ls with
  | nil => exact absurd rfl h
  | cons a rest ih =>
    cases rest with
    | nil => simp [List.intercalate]
    | cons b rest =>
      have e : [sep].intercalate (a :: b :: rest) = a ++ sep :: [sep].intercalate (b :: rest) := by
        simp [List.intercalate]
      rw [e, splitChars_append_sep, ih (by simp)]
      simp

theorem splitChars_no_sep (sep : Char) (l : List Char) (h : sep ∉ l) :
    splitChars sep l = [l] := by
  induction l with
  | nil => simp [splitChars]
  | cons c cs ih =>
    simp only [List.mem_cons, not_or] at h
    have hc : ¬ c = sep := fun e => h.1 e.symm
    simp [splitChars, hc, ih h.2]

theorem sep_not_mem_of_mem_splitChars (sep : Char) (l p : List Char)
    (h : p ∈ splitChars sep l) : sep ∉ p := by
  induction l generalizing p with
  | nil => simp [splitChars] at h; simp [h]
  | cons c cs ih =>
    by_cases hc : c = sep
    · simp [splitChars, hc] at h
      rcases h with h | h
      · simp [h]
      · exact ih p h
    · rcases hs : splitChars sep cs with _ | ⟨q, qs⟩
      · exact absurd hs (splitChars_ne_nil sep cs)
      · simp [splitChars, hc, hs] at h
        rcases h with h | h
        · subst h
          have := ih q (by simp [hs])
          simp [this, Ne.symm hc]
        · exact ih p (by simp [hs, h])

theorem trimChars_eq_rdropWhile (l : List Char) :
    trimChars l = (l.dropWhile isSpace).rdropWhile isSpace := rfl


theorem dropWhile_head_not (p : Char → Bool) (l : List Char) :
    l.dropWhile p = [] ∨ ∃ h t, l.dropWhile p = h :: t ∧ p h = false := by
  induction l with
  | nil => simp
  | cons c cs ih =>
    by_cases hc : p c = true
    · simpa [List.dropWhile, hc] using ih
    · right
      exact ⟨c, cs, by simp [List.dropWhile, hc], by simpa using hc⟩

theorem rdropWhile_cons_of_not (p : Char → Bool) (h : Char) (t : List Char) (hh : p h = false) :
    ∃ t1, (h :: t).rdropWhile p = h :: t1 := by
  have hpre : (h :: t).rdropWhile p <+: h :: t := List.rdropWhile_prefix p (h :: t)
  rcases List.prefix_cons_iff.mp hpre with hnil | ⟨t1, ht1, _⟩
  · rw [List.rdropWhile_eq_nil_iff] at hnil
    have := hnil h (by simp)
    simp [hh] at this
  · exact ⟨t1, ht1⟩

theorem trimChars_idem (l : List Char) : trimChars (trimChars l) = trimChars l := by
  rw [trimChars_eq_rdropWhile l]
  rcases dropWhile_head_not isSpace l with h0 | ⟨h, t, ht, hh⟩
  · rw [h0]; simp [trimChars]
  · rw [ht]
    obtain ⟨t1, ht1⟩ := rdropWhile_cons_of_not isSpace h t hh
    have hidem := List.rdropWhile_idempotent isSpace (h :: t)
    rw [ht1] at hidem ⊢
    rw [trimChars_eq_rdropWhile]
    simp [List.dropWhile, hh, hidem]

theorem trimChars_subset (l : List Char) (c : Char) (h : c ∈ trimChars l) : c ∈ l := by
  rw [trimChars_eq_rdropWhile] at h
  exact (List.dropWhile_suffix isSpace).subset ((List.rdropWhile_prefix isSpace _).subset h)

theorem TrimSpace_idem (s : String) : TrimSpace (TrimSpace s) = TrimSpace s := by
  simp [TrimSpace, trimChars_idem]

theorem entries_nil : entries "" = [] := by decide

theorem mem_entries_iff (s x : String) :
    x ∈ entries s ↔ (∃ p ∈ splitChars ',' s.data, x = ⟨trimChars p⟩) ∧ x ≠ "" := by
  simp only [entries, SplitComma, List.mem_filter, List.mem_map, decide_eq_true_eq]
  constructor
  · rintro ⟨⟨a, ⟨p, hp, rfl⟩, rfl⟩, hx⟩
    exact ⟨⟨p, hp, rfl⟩, hx⟩
  · rintro ⟨⟨p, hp, rfl⟩, hx⟩
    exact ⟨⟨⟨p⟩, ⟨p, hp, rfl⟩, rfl⟩, hx⟩

/-- An entry of a list is non-empty, free of commas and trimmed. -/
theorem entry_wellformed (s x : String) (h : x ∈ entries s) :
    x ≠ "" ∧ ',' ∉ x.data ∧ TrimSpace x = x := by
  rw [mem_entries_iff] at h
  obtain ⟨⟨p, hp, rfl⟩, hx⟩ := h
  refine ⟨hx, ?_, ?_⟩
  · intro hc
    exact sep_not_mem_of_mem_splitChars ',' _ p hp (trimChars_subset p ',' hc)
  · simp [TrimSpace, trimChars_idem]

/-- A non-empty, comma-free, trimmed string is the only entry of itself. -/
theorem entries_single (k : String) (h0 : k ≠ "") (hc : ',' ∉ k.data)
    (ht : TrimSpace k = k) : entries k = [k] := by
  simp [entries, SplitComma, splitChars_no_sep ',' k.data hc, ht, h0]

theorem entries_append_comma (a b : String) :
    entries ⟨a.data ++ ',' :: b.data⟩ = entries a ++ entries b := by
  simp [entries, SplitComma, splitChars_append_sep]

theorem JoinComma_cons_cons (a b : String) (rest : List String) :
    JoinComma (a :: b :: rest) = ⟨a.data ++ ',' :: (JoinComma (b :: rest)).data⟩ := by
  simp [JoinComma, List.intercalate]

/-- Reading a joined list gives the entries of its members, in order. -/
theorem entries_JoinComma (ks : List String) :
    entries (JoinComma ks) = ks.flatMap entries := by
  induction ks with
  | nil => decide
  | cons a rest ih =>
    cases rest with
    | nil => simp [JoinComma, List.intercalate]
    | cons b rest =>
      rw [JoinComma_cons_cons, entries_append_comma, ih]
      simp

theorem SplitComma_JoinComma (ks : List String) (hne : ks ≠ [])
    (h : ∀ k ∈ ks, ',' ∉ k.data) : SplitComma (JoinComma ks) = ks := by
  have hne1 : ks.map String.data ≠ [] := by simpa using hne
  simp only [SplitComma, JoinComma]
  rw [splitChars_intercalate ',' _ hne1]
  clear hne hne1
  induction ks with
  | nil => rfl
  | cons a rest ih =>
    have ha : ',' ∉ a.data := h a (by simp)
    have hr : ∀ k ∈ rest, ',' ∉ k.data := fun k hk => h k (by simp [hk])
    have ih1 := ih hr
    simp only [List.map_cons, List.flatMap_cons, List.map_append, splitChars_no_sep ',' _ ha]
    rw [ih1]
    rfl

/-! ## Lemmas on `updateIPList` -/

theorem mem_mapSet (m : List String) (k x : String) : x ∈ mapSet m k ↔ x ∈ m ∨ x = k := by
  unfold mapSet
  split
  · constructor
    · exact Or.inl
    · rintro (h | rfl)
      · exact h
      · assumption
  · simp

theorem mem_mapDelete (m : List String) (k x : String) :
    x ∈ mapDelete m k ↔ x ∈ m ∧ x ≠ k := by
  simp [mapDelete]

theorem mem_buildMap (ips : List String) (m : List String) (x : String) :
    x ∈ ips.foldl (fun m ip => let ip := TrimSpace ip; if ip ≠ "" then mapSet m ip else m) m
      ↔ x ∈ m ∨ x ∈ (ips.map TrimSpace).filter (fun ip => ip ≠ "") := by
  induction ips generalizing m with
  | nil => simp
  | cons a rest ih =>
    simp only [List.foldl_cons, List.map_cons]
    rw [ih]
    by_cases ha : TrimSpace a = ""
    · simp [ha]
    · simp only [ne_eq, ha, not_false_eq_true, if_true, mem_mapSet, List.filter_cons,
        decide_True, List.mem_cons]
      tauto

theorem updateIPList_eq (order : MapOrder) (currentList oldIP newIP : String) :
    updateIPList order currentList oldIP newIP
      = JoinComma (order.keys (finalKeys currentList oldIP newIP)) := rfl

theorem mem_initialKeys (currentList x : String) :
    x ∈ initialKeys currentList ↔ x ∈ entries currentList := by
  unfold initialKeys
  rw [mem_buildMap]
  simp [entries]

theorem mem_finalKeys (currentList oldIP newIP x : String) :
    x ∈ finalKeys currentList oldIP newIP ↔
      (x ∈ entries currentList ∧ (oldIP ≠ "" → x ≠ oldIP)) ∨ (newIP ≠ "" ∧ x = newIP) := by
  unfold finalKeys
  by_cases ho : oldIP = "" <;> by_cases hn : newIP = "" <;>
    simp [ho, hn, mem_mapSet, mem_mapDelete, mem_initialKeys]

/-- The entries of the result of `updateIPList`, whatever the arguments. -/
theorem mem_entries_updateIPList (order : MapOrder) (currentList oldIP newIP x : String) :
    x ∈ entries (updateIPList order currentList oldIP newIP) ↔
      (x ∈ entries currentList ∧ (oldIP ≠ "" → x ≠ oldIP))
        ∨ (newIP ≠ "" ∧ x ∈ entries newIP) := by
  rw [updateIPList_eq, entries_JoinComma, List.mem_flatMap]
  constructor
  · rintro ⟨k, hk, hx⟩
    rw [(order.perm _).mem_iff, mem_finalKeys] at hk
    rcases hk with ⟨hk, hko⟩ | ⟨hn, rfl⟩
    · obtain ⟨h0, hc, ht⟩ := entry_wellformed _ _ hk
      rw [entries_single k h0 hc ht] at hx
      simp only [List.mem_singleton] at hx
      subst hx
      exact Or.inl ⟨hk, hko⟩
    · exact Or.inr ⟨hn, hx⟩
  · rintro (⟨hx, hxo⟩ | ⟨hn, hx⟩)
    · refine ⟨x, ?_, ?_⟩
      · rw [(order.perm _).mem_iff, mem_finalKeys]
        exact Or.inl ⟨hx, hxo⟩
      · obtain ⟨h0, hc, ht⟩ := entry_wellformed _ _ hx
        simp [entries_single x h0 hc ht]
    · refine ⟨newIP, ?_, hx⟩
      rw [(order.perm _).mem_iff, mem_finalKeys]
      exact Or.inr ⟨hn, rfl⟩

theorem finalKeys_no_comma (currentList oldIP newIP : String) (hcomma : ',' ∉ newIP.data) :
    ∀ k ∈ finalKeys currentList oldIP newIP, k ≠ "" ∧ ',' ∉ k.data := by
  intro k hk
  rw [mem_finalKeys] at hk
  rcases hk with ⟨hk, _⟩ | ⟨hn, rfl⟩
  · exact ⟨(entry_wellformed _ _ hk).1, (entry_wellformed _ _ hk).2.1⟩
  · exact ⟨hn, hcomma⟩

/-- The comma-separated pieces of the result of `updateIPList`, the empty piece
of the empty result apart, are the final keys of its map. -/
theorem mem_SplitComma_updateIPList (order : MapOrder) (currentList oldIP newIP x : String)
    (hcomma : ',' ∉ newIP.data) :
    (x ∈ SplitComma (updateIPList order currentList oldIP newIP) ∧ x ≠ "") ↔
      x ∈ finalKeys currentList oldIP newIP := by
  rw [updateIPList_eq]
  have hperm := order.perm (finalKeys currentList oldIP newIP)
  have hwf := finalKeys_no_comma currentList oldIP newIP hcomma
  by_cases hnil : order.keys (finalKeys currentList oldIP newIP) = []
  · have hnil2 : finalKeys currentList oldIP newIP = [] := by
      rw [hnil] at hperm
      exact List.Perm.eq_nil hperm.symm
    rw [hnil, hnil2]
    have : SplitComma (JoinComma []) = [""] := by decide
    rw [this]
    simp only [List.mem_singleton, List.not_mem_nil, iff_false, not_and, not_not]
    exact fun h => h
  · rw [SplitComma_JoinComma _ hnil (fun k hk => (hwf k (hperm.mem_iff.mp hk)).2), hperm.mem_iff]
    constructor
    · exact fun h => h.1
    · exact fun h => ⟨h, (hwf x h).1⟩

/-- The entries of the result of `updateIPList` for a new IP free of commas and
of surrounding white space. -/
theorem mem_entries_updateIPList_trimmed (order : MapOrder)
    (currentList oldIP newIP x : String)
    (hcomma : ',' ∉ newIP.data) (htrim : TrimSpace newIP = newIP) :
    x ∈ entries (updateIPList order currentList oldIP newIP) ↔
      (x ∈ entries currentList ∧ (oldIP ≠ "" → x ≠ oldIP)) ∨ (newIP ≠ "" ∧ x = newIP) := by
  rw [mem_entries_updateIPList]
  by_cases hn : newIP = ""
  · simp [hn]
  · rw [entries_single newIP hn hcomma htrim]
    simp

/-! ## The whitelist entry synchronizer -/

/-- C5: for every comma-separated list `currentList`, every `oldIP` and every
`newIP` that holds no comma and no surrounding white space (the empty string
standing for an absent IP), the entries of `updateIPList currentList oldIP newIP`
are the entries of `currentList`, minus `oldIP` when it is present, plus `newIP`
when it is present; this holds both for the trimmed non-empty entries of the
result and for its raw comma-separated pieces.  With both absent the entry set
is that of `currentList`; with `oldIP = newIP = ip` it is that set plus `ip`. -/
theorem updateIPList_entry_set (order : MapOrder) (currentList oldIP newIP : String)
    (hcomma : ',' ∉ newIP.data) (htrim : TrimSpace newIP = newIP) :
    (∀ x, x ∈ entries (updateIPList order currentList oldIP newIP) ↔
        (x ∈ entries currentList ∧ (oldIP ≠ "" → x ≠ oldIP)) ∨ (newIP ≠ "" ∧ x = newIP))
    ∧ (∀ x, (x ∈ SplitComma (updateIPList order currentList oldIP newIP) ∧ x ≠ "") ↔
        (x ∈ entries currentList ∧ (oldIP ≠ "" → x ≠ oldIP)) ∨ (newIP ≠ "" ∧ x = newIP))
    ∧ (oldIP = "" → newIP = "" →
        ∀ x, x ∈ entries (updateIPList order currentList oldIP newIP) ↔ x ∈ entries currentList)
    ∧ (oldIP = newIP → newIP ≠ "" →
        ∀ x, x ∈ entries (updateIPList order currentList oldIP newIP) ↔
          x ∈ entries currentList ∨ x = newIP) := by
  have main : ∀ x, x ∈ entries (updateIPList order currentList oldIP newIP) ↔
      (x ∈ entries currentList ∧ (oldIP ≠ "" → x ≠ oldIP)) ∨ (newIP ≠ "" ∧ x = newIP) :=
    fun x => mem_entries_updateIPList_trimmed order currentList oldIP newIP x hcomma htrim
  refine ⟨main, ?_, ?_, ?_⟩
  · intro x
    rw [mem_SplitComma_updateIPList order currentList oldIP newIP x hcomma, mem_finalKeys]
  · intro ho hn x
    rw [main x]
    simp [ho, hn]
  · intro hon hn x
    rw [main x]
    subst hon
    constructor
    · rintro (⟨h, _⟩ | ⟨_, h⟩)
      · exact Or.inl h
      · exact Or.inr h
    · rintro (h | h)
      · by_cases hx : x = oldIP
        · exact Or.inr ⟨hn, hx⟩
        · exact Or.inl ⟨h, fun _ => hx⟩
      · exact Or.inr ⟨hn, h⟩

/-- Witness of C5: in the list `"1.1.1.1, 2.2.2.2"` with `1.1.1.1` replaced by
`3.3.3.3`, the new IP is an entry of the result and `2.2.2.2` still is. -/
theorem updateIPList_entry_set_witness :
    "3.3.3.3" ∈ entries (updateIPList reverseOrder "1.1.1.1, 2.2.2.2" "1.1.1.1" "3.3.3.3")
    ∧ "2.2.2.2" ∈ entries (updateIPList reverseOrder "1.1.1.1, 2.2.2.2" "1.1.1.1" "3.3.3.3") :=
  ⟨((updateIPList_entry_set reverseOrder "1.1.1.1, 2.2.2.2" "1.1.1.1" "3.3.3.3"
      (by decide) (by decide)).1 "3.3.3.3").mpr (Or.inr ⟨by decide, rfl⟩),
   ((updateIPList_entry_set reverseOrder "1.1.1.1, 2.2.2.2" "1.1.1.1" "3.3.3.3"
      (by decide) (by decide)).1 "2.2.2.2").mpr (Or.inl ⟨by decide, by decide⟩)⟩

/-- C6 as stated fails: reversing the pair `(1.1.1.1, 2.2.2.2)` on the list
`"10.0.0.1"`, which does not hold the old IP, leaves `1.1.1.1` in the list. -/
theorem updateIPList_reverse_counterexample :
    WellFormedIP "1.1.1.1" ∧ WellFormedIP "2.2.2.2" ∧ "1.1.1.1" ≠ "2.2.2.2" ∧
    ¬ (∀ x, x ∈ entries (updateIPList insertionOrder
              (updateIPList insertionOrder "10.0.0.1" "1.1.1.1" "2.2.2.2") "2.2.2.2" "1.1.1.1")
          ↔ x ∈ entries "10.0.0.1") := by
  refine ⟨by decide, by decide, by decide, ?_⟩
  intro h
  have h1 := (h "1.1.1.1").mp (by decide)
  revert h1
  decide

/-- C6, amended: for every list `M` and every two well-formed IPs `old ≠ new`,
applying the pair and then the reversed pair gives back the entry set of `M`
exactly when `old` is an entry of `M` and `new` is not. -/
theorem updateIPList_reverse (order1 order2 : MapOrder) (M old new : String)
    (ho : WellFormedIP old) (hn : WellFormedIP new) (hne : old ≠ new) :
    (∀ x, x ∈ entries (updateIPList order2 (updateIPList order1 M old new) new old)
        ↔ x ∈ entries M)
      ↔ (old ∈ entries M ∧ new ∉ entries M) := by
  have step1 := fun x => mem_entries_updateIPList_trimmed order1 M old new x hn.2.1 hn.2.2
  have step2 := fun x => mem_entries_updateIPList_trimmed order2
    (updateIPList order1 M old new) new old x ho.2.1 ho.2.2
  have hchar : ∀ x, x ∈ entries (updateIPList order2 (updateIPList order1 M old new) new old)
      ↔ (x ∈ entries M ∧ x ≠ old ∧ x ≠ new) ∨ x = old := by
    intro x
    rw [step2 x, step1 x]
    have h1 := ho.1
    have h2 := hn.1
    constructor
    · rintro (⟨⟨hx, hxo⟩ | ⟨_, hx⟩, hxn⟩ | ⟨_, hx⟩)
      · exact Or.inl ⟨hx, hxo h1, hxn h2⟩
      · exact absurd hx (hxn h2)
      · exact Or.inr hx
    · rintro (⟨hx, hxo, hxn⟩ | hx)
      · exact Or.inl ⟨Or.inl ⟨hx, fun _ => hxo⟩, fun _ => hxn⟩
      · exact Or.inr ⟨h1, hx⟩
  constructor
  · intro h
    refine ⟨(h old).mp ((hchar old).mpr (Or.inr rfl)), ?_⟩
    intro hnew
    have := (hchar new).mp ((h new).mpr hnew)
    rcases this with ⟨_, _, h3⟩ | h3
    · exact h3 rfl
    · exact hne h3.symm
  · rintro ⟨hold, hnew⟩ x
    rw [hchar x]
    constructor
    · rintro (⟨hx, _, _⟩ | rfl)
      · exact hx
      · exact hold
    · intro hx
      by_cases hxo : x = old
      · exact Or.inr hxo
      · refine Or.inl ⟨hx, hxo, ?_⟩
        rintro rfl
        exact hnew hx

/-- Witness of the amended C6: the list `"1.1.1.1,9.9.9.9"` holds the old IP
`1.1.1.1` and not the new IP `2.2.2.2`; after the round trip `1.1.1.1` and
`2.2.2.2` are entries exactly as they were before. -/
theorem updateIPList_reverse_witness :
    ("1.1.1.1" ∈ entries (updateIPList reverseOrder
            (updateIPList insertionOrder "1.1.1.1,9.9.9.9" "1.1.1.1" "2.2.2.2")
            "2.2.2.2" "1.1.1.1")
        ↔ "1.1.1.1" ∈ entries "1.1.1.1,9.9.9.9")
    ∧ ("2.2.2.2" ∈ entries (updateIPList reverseOrder
            (updateIPList insertionOrder "1.1.1.1,9.9.9.9" "1.1.1.1" "2.2.2.2")
            "2.2.2.2" "1.1.1.1")
        ↔ "2.2.2.2" ∈ entries "1.1.1.1,9.9.9.9") :=
  have h := (updateIPList_reverse insertionOrder reverseOrder "1.1.1.1,9.9.9.9" "1.1.1.1"
    "2.2.2.2" (by decide) (by decide) (by decide)).mpr ⟨by decide, by decide⟩
  ⟨h "1.1.1.1", h "2.2.2.2"⟩

/-! ## The IP resolver -/

section resolver
variable {σ : Type}

theorem getIPFromSource_trace (S : Sys σ) (source : IPSource) (w : World σ) :
    (getIPFromSource S source w).2.trace = w.trace ++ [Event.getIPFromSource source] := rfl

theorem GetPublicIP_cons (S : Sys σ) (source : IPSource) (rest : List IPSource) (w : World σ) :
    GetPublicIP S (source :: rest) w =
      if (getIPFromSource S source w).1.2 = none ∧ (getIPFromSource S source w).1.1 ≠ "" then
        (((getIPFromSource S source w).1.1, none), (getIPFromSource S source w).2)
      else GetPublicIP S rest (getIPFromSource S source w).2 := by
  rw [GetPublicIP]

/-- When every source fails, `GetPublicIP` fails after trying all of them. -/
theorem GetPublicIP_of_allFail (S : Sys σ) (sources : List IPSource) (w w1 : World σ)
    (h : allFail S sources w = some w1) :
    GetPublicIP S sources w = (("", some "failed to get IP from all configured sources"), w1)
      ∧ w1.trace = w.trace ++ sources.map Event.getIPFromSource := by
  induction sources generalizing w with
  | nil =>
    simp only [allFail, Option.some.injEq] at h
    subst h
    simp [GetPublicIP]
  | cons source rest ih =>
    rw [allFail] at h
    split at h
    · exact absurd h (by simp)
    · rename_i hfail
      obtain ⟨h1, h2⟩ := ih _ h
      rw [GetPublicIP_cons, if_neg hfail]
      refine ⟨h1, ?_⟩
      rw [h2, getIPFromSource_trace]
      simp

/-- When the sources of `pre` all fail and `source` then succeeds, `GetPublicIP`
returns its IP and tries nothing after it. -/
theorem GetPublicIP_of_prefix (S : Sys σ) (pre : List IPSource) (source : IPSource)
    (post : List IPSource) (w w1 : World σ) (h : allFail S pre w = some w1)
    (hok : (getIPFromSource S source w1).1.2 = none ∧ (getIPFromSource S source w1).1.1 ≠ "") :
    GetPublicIP S (pre ++ source :: post) w =
        (((getIPFromSource S source w1).1.1, none), (getIPFromSource S source w1).2)
      ∧ (getIPFromSource S source w1).2.trace
          = w.trace ++ (pre ++ [source]).map Event.getIPFromSource := by
  induction pre generalizing w with
  | nil =>
    simp only [allFail, Option.some.injEq] at h
    subst h
    rw [List.nil_append, GetPublicIP_cons, if_pos hok]
    exact ⟨rfl, by simp [getIPFromSource_trace]⟩
  | cons a rest ih =>
    rw [allFail] at h
    split at h
    · exact absurd h (by simp)
    · rename_i hfail
      obtain ⟨h1, h2⟩ := ih _ h
      rw [List.cons_append, GetPublicIP_cons, if_neg hfail]
      refine ⟨h1, ?_⟩
      rw [h2, getIPFromSource_trace]
      simp

/-- Either every source fails, or the list splits at its first success. -/
theorem allFail_or_first_success (S : Sys σ) (sources : List IPSource) (w : World σ) :
    (∃ w1, allFail S sources w = some w1) ∨
    (∃ pre source post w1, sources = pre ++ source :: post ∧ allFail S pre w = some w1 ∧
      (getIPFromSource S source w1).1.2 = none ∧ (getIPFromSource S source w1).1.1 ≠ "") := by
  induction sources generalizing w with
  | nil => exact Or.inl ⟨w, rfl⟩
  | cons a rest ih =>
    by_cases hok : (getIPFromSource S a w).1.2 = none ∧ (getIPFromSource S a w).1.1 ≠ ""
    · exact Or.inr ⟨[], a, rest, w, rfl, rfl, hok⟩
    · rcases ih (getIPFromSource S a w).2 with ⟨w1, h1⟩ | ⟨pre, source, post, w1, h1, h2, h3⟩
      · left
        exact ⟨w1, by rw [allFail, if_neg hok]; exact h1⟩
      · right
        refine ⟨a :: pre, source, post, w1, by rw [h1]; rfl, ?_, h3⟩
        rw [allFail, if_neg hok]
        exact h2

/-- C7: for every list of sources, `GetPublicIP` either returns the IP of the
earliest source that succeeds with a non-empty IP, all sources before it having
been tried in order and failed and no source after it being tried, or, when no
source succeeds (the empty list included), returns an error with an empty IP
after trying every source in order.  It returns an error exactly when no
source succeeds. -/
theorem GetPublicIP_first_success (S : Sys σ) (sources : List IPSource) (w : World σ) :
    ((∃ pre source post w1, sources = pre ++ source :: post ∧ allFail S pre w = some w1 ∧
        (getIPFromSource S source w1).1.2 = none ∧ (getIPFromSource S source w1).1.1 ≠ "" ∧
        GetPublicIP S sources w =
          (((getIPFromSource S source w1).1.1, none), (getIPFromSource S source w1).2) ∧
        (GetPublicIP S sources w).2.trace
          = w.trace ++ (pre ++ [source]).map Event.getIPFromSource)
      ∨ (∃ w1, allFail S sources w = some w1 ∧
        GetPublicIP S sources w
          = (("", some "failed to get IP from all configured sources"), w1) ∧
        (GetPublicIP S sources w).2.trace = w.trace ++ sources.map Event.getIPFromSource))
    ∧ ((GetPublicIP S sources w).1.2 ≠ none ↔ (allFail S sources w).isSome = true)
    ∧ ((GetPublicIP S sources w).1.2 ≠ none → (GetPublicIP S sources w).1.1 = "")
    ∧ (GetPublicIP S [] w).1.2 ≠ none := by
  have hdisj : (∃ pre source post w1, sources = pre ++ source :: post ∧
        allFail S pre w = some w1 ∧
        (getIPFromSource S source w1).1.2 = none ∧ (getIPFromSource S source w1).1.1 ≠ "" ∧
        GetPublicIP S sources w =
          (((getIPFromSource S source w1).1.1, none), (getIPFromSource S source w1).2) ∧
        (GetPublicIP S sources w).2.trace
          = w.trace ++ (pre ++ [source]).map Event.getIPFromSource)
      ∨ (∃ w1, allFail S sources w = some w1 ∧
        GetPublicIP S sources w
          = (("", some "failed to get IP from all configured sources"), w1) ∧
        (GetPublicIP S sources w).2.trace = w.trace ++ sources.map Event.getIPFromSource) := by
    rcases allFail_or_first_success S sources w with ⟨w1, h1⟩ | ⟨pre, source, post, w1, h1, h2, h3⟩
    · right
      obtain ⟨e1, e2⟩ := GetPublicIP_of_allFail S sources w w1 h1
      exact ⟨w1, h1, e1, by rw [e1]; exact e2⟩
    · left
      obtain ⟨e1, e2⟩ := GetPublicIP_of_prefix S pre source post w w1 h2 h3
      subst h1
      exact ⟨pre, source, post, w1, rfl, h2, h3.1, h3.2, e1, by rw [e1]; exact e2⟩
  refine ⟨hdisj, ?_, ?_, by simp [GetPublicIP]⟩
  · rcases hdisj with ⟨pre, source, post, w1, h1, h2, h3, h4, h5, _⟩ | ⟨w1, h1, h2, _⟩
    · rw [h5]
      constructor
      · intro h
        exact absurd rfl h
      · intro hs
        rcases hall : allFail S sources w with _ | w2
        · rw [hall] at hs
          simp at hs
        · have := (GetPublicIP_of_allFail S sources w w2 hall).1
          rw [h5] at this
          simp at this
    · rw [h2, h1]
      simp
  · rcases hdisj with ⟨pre, source, post, w1, h1, h2, h3, h4, h5, _⟩ | ⟨w1, h1, h2, _⟩
    · rw [h5]; simp
    · rw [h2]; simp

/-- The example of C7: of the sources `[fail, fail, succeed(203.0.113.5), s4]`
the third gives the result, and the fourth is never tried. -/
theorem GetPublicIP_example :
    (GetPublicIP exampleSys exampleSources ⟨["198.51.100.7"], []⟩).1 = ("203.0.113.5", none)
    ∧ (GetPublicIP exampleSys exampleSources ⟨["198.51.100.7"], []⟩).2.trace
        = (exampleSources.take 3).map Event.getIPFromSource
    ∧ (GetPublicIP exampleSys exampleSources ⟨["198.51.100.7"], []⟩).2.env = ["198.51.100.7"] := by
  decide

end resolver

/-! ## Lemmas on traces -/

section traces
variable {σ : Type}

theorem Extends.refl (p : Event → Prop) (w : World σ) : Extends p w w :=
  ⟨[], by simp, by simp⟩

theorem Extends.trans {p : Event → Prop} {w w1 w2 : World σ} (h1 : Extends p w w1)
    (h2 : Extends p w1 w2) : Extends p w w2 := by
  obtain ⟨e1, ht1, hp1⟩ := h1
  obtain ⟨e2, ht2, hp2⟩ := h2
  refine ⟨e1 ++ e2, by rw [ht2, ht1, List.append_assoc], ?_⟩
  intro e he
  rcases List.mem_append.mp he with h | h
  · exact hp1 e h
  · exact hp2 e h

theorem Extends.mono {p q : Event → Prop} {w w1 : World σ} (h : Extends p w w1)
    (hpq : ∀ e, p e → q e) : Extends q w w1 := by
  obtain ⟨evs, ht, hp⟩ := h
  exact ⟨evs, ht, fun e he => hpq e (hp e he)⟩

theorem Extends.step (p : Event → Prop) (w : World σ) (e : Event) (s : σ) (h : p e) :
    Extends p w (w.step e s) :=
  ⟨[e], rfl, by simpa using h⟩

theorem invocations_append (a b : List Event) :
    invocations (a ++ b) = invocations a ++ invocations b := by
  induction a with
  | nil => rfl
  | cons e rest ih => cases e <;> simp [invocations, ih]

theorem invocations_of_sdk (evs : List Event) (h : ∀ e ∈ evs, e.isSDKCall = true) :
    invocations evs = [] := by
  induction evs with
  | nil => rfl
  | cons e rest ih =>
    have he := h e (by simp)
    have hr := ih (fun x hx => h x (by simp [hx]))
    cases e <;> simp_all [invocations, Event.isSDKCall]

theorem Extends.invocations_eq {oldIP : String} {w w1 : World σ}
    (h : Extends (updateEvent oldIP) w w1) : invocations w1.trace = invocations w.trace := by
  obtain ⟨evs, ht, hp⟩ := h
  rw [ht, invocations_append, invocations_of_sdk evs (fun e he => (hp e he).1)]
  simp

theorem forEachTarget_extends {α : Type} (p : Event → Prop)
    (body : α → World σ → Option String × World σ)
    (hbody : ∀ x w, Extends p w (body x w).2) (xs : List α) (w : World σ) :
    Extends p w (forEachTarget body xs w).2 := by
  induction xs generalizing w with
  | nil => exact Extends.refl p w
  | cons x rest ih =>
    rw [forEachTarget]
    have hx := hbody x w
    rcases hb : body x w with ⟨_ | err, w1⟩
    · rw [hb] at hx
      exact hx.trans (ih w1)
    · rw [hb] at hx
      exact hx

/-- A loop over targets stops at the first target whose body fails. -/
theorem forEachTarget_cons_fail {α : Type} (body : α → World σ → Option String × World σ)
    (x : α) (rest : List α) (w w1 : World σ) (err : String) (h : body x w = (some err, w1)) :
    forEachTarget body (x :: rest) w = (some err, w1) := by
  rw [forEachTarget, h]

theorem removeIPFromECSSecurityGroup_trace (S : Sys σ) (c : Client) (ip : String)
    (sg : SecurityGroup) (w : World σ) :
    (removeIPFromECSSecurityGroup S c ip sg w).2.trace
      = w.trace ++ [Event.revokeSecurityGroup c (revokeRequest ip sg)] := by
  unfold removeIPFromECSSecurityGroup
  dsimp only
  split
  · split <;> rfl
  · rfl

theorem addIPToECSSecurityGroup_trace (S : Sys σ) (c : Client) (ip : String)
    (sg : SecurityGroup) (w : World σ) :
    (addIPToECSSecurityGroup S c ip sg w).2.trace
      = w.trace ++ [Event.authorizeSecurityGroup c (authorizeRequest ip sg)] := rfl

theorem removeOldIP_extends (S : Sys σ) (c : Client) (oldIP : String) (h : oldIP ≠ "")
    (sg : SecurityGroup) (w : World σ) :
    Extends (updateEvent oldIP) w (removeOldIP S c oldIP sg w).2 := by
  have ht := removeIPFromECSSecurityGroup_trace S c oldIP sg w
  have hw : (removeOldIP S c oldIP sg w).2 = (removeIPFromECSSecurityGroup S c oldIP sg w).2 := by
    unfold removeOldIP
    rcases removeIPFromECSSecurityGroup S c oldIP sg w with ⟨_ | err, w1⟩ <;> rfl
  rw [hw]
  exact ⟨_, ht, by simp [updateEvent, Event.isSDKCall, h]⟩

theorem addNewIP_extends (S : Sys σ) (c : Client) (oldIP newIP : String)
    (sg : SecurityGroup) (w : World σ) :
    Extends (updateEvent oldIP) w (addNewIP S c newIP sg w).2 := by
  have ht := addIPToECSSecurityGroup_trace S c newIP sg w
  have hw : (addNewIP S c newIP sg w).2 = (addIPToECSSecurityGroup S c newIP sg w).2 := by
    unfold addNewIP
    rcases addIPToECSSecurityGroup S c newIP sg w with ⟨_ | err, w1⟩ <;> rfl
  rw [hw]
  exact ⟨_, ht, by simp [updateEvent, Event.isSDKCall, Event.isRevoke]⟩

theorem UpdateECSWhitelist_extends (S : Sys σ) (c : Client) (oldIP newIP : String)
    (w : World σ) : Extends (updateEvent oldIP) w (UpdateECSWhitelist S c oldIP newIP w).2 := by
  unfold UpdateECSWhitelist
  by_cases hen : c.config.ECS.Enabled = false
  · rw [if_pos hen]
    exact Extends.refl _ w
  · rw [if_neg hen]
    have h1 : Extends (updateEvent oldIP) w
        (if oldIP ≠ "" then
          forEachTarget (removeOldIP S c oldIP) c.config.ECS.SecurityGroupIDs w
         else (none, w)).2 := by
      by_cases ho : oldIP = ""
      · simp only [ho, ne_eq, not_true_eq_false, if_false]
        exact Extends.refl _ w
      · rw [if_pos ho]
        exact forEachTarget_extends _ _ (removeOldIP_extends S c oldIP ho) _ w
    rcases hr : (if oldIP ≠ "" then
          forEachTarget (removeOldIP S c oldIP) c.config.ECS.SecurityGroupIDs w
         else (none, w)) with ⟨_ | err, w1⟩
    · rw [hr] at h1
      by_cases hn : newIP = ""
      · simp only [hn, ne_eq, not_true_eq_false, if_false]
        exact h1
      · simp only [ne_eq, hn, not_false_eq_true, if_true]
        exact h1.trans (forEachTarget_extends _ _ (addNewIP_extends S c oldIP newIP) _ w1)
    · rw [hr] at h1
      exact h1

theorem sdk_step (oldIP : String) (w : World σ) (e : Event) (s : σ)
    (h1 : e.isSDKCall = true) (h2 : e.isRevoke = false) :
    Extends (updateEvent oldIP) w (w.step e s) :=
  Extends.step _ w e s ⟨h1, fun _ => h2⟩

theorem getRDSWhitelist_extends (S : Sys σ) (c : Client) (oldIP : String)
    (iw : InstanceWhitelist) (w : World σ) :
    Extends (updateEvent oldIP) w (getRDSWhitelist S c iw w).2 := by
  unfold getRDSWhitelist
  split <;> exact sdk_step oldIP w _ _ rfl rfl

theorem setRDSWhitelist_extends (S : Sys σ) (c : Client) (oldIP whitelist : String)
    (iw : InstanceWhitelist) (w : World σ) :
    Extends (updateEvent oldIP) w (setRDSWhitelist S c whitelist iw w).2 :=
  sdk_step oldIP w _ _ rfl rfl

theorem updateRDSInstance_extends (S : Sys σ) (c : Client) (oldIP newIP : String)
    (iw : InstanceWhitelist) (w : World σ) :
    Extends (updateEvent oldIP) w (updateRDSInstance S c oldIP newIP iw w).2 := by
  have hget := getRDSWhitelist_extends S c oldIP iw w
  unfold updateRDSInstance
  rcases hg : getRDSWhitelist S c iw w with ⟨⟨cur, _ | err⟩, w1⟩
  · rw [hg] at hget
    dsimp only at hget ⊢
    have hset := setRDSWhitelist_extends S c oldIP
      (updateIPList (S.mapOrder w1.env) cur oldIP newIP) iw w1
    rcases hs : setRDSWhitelist S c (updateIPList (S.mapOrder w1.env) cur oldIP newIP) iw w1
      with ⟨_ | err, w2⟩
    · rw [hs] at hset
      exact hget.trans hset
    · rw [hs] at hset
      exact hget.trans hset
  · rw [hg] at hget
    exact hget

theorem UpdateRDSWhitelist_extends (S : Sys σ) (c : Client) (oldIP newIP : String)
    (w : World σ) : Extends (updateEvent oldIP) w (UpdateRDSWhitelist S c oldIP newIP w).2 := by
  unfold UpdateRDSWhitelist
  split
  · exact Extends.refl _ w
  · exact forEachTarget_extends _ _ (updateRDSInstance_extends S c oldIP newIP) _ w

theorem getRedisWhitelist_extends (S : Sys σ) (c : Client) (oldIP : String)
    (iw : InstanceWhitelist) (w : World σ) :
    Extends (updateEvent oldIP) w (getRedisWhitelist S c iw w).2 := by
  unfold getRedisWhitelist
  split <;> exact sdk_step oldIP w _ _ rfl rfl

theorem setRedisWhitelist_extends (S : Sys σ) (c : Client) (oldIP whitelist : String)
    (iw : InstanceWhitelist) (w : World σ) :
    Extends (updateEvent oldIP) w (setRedisWhitelist S c whitelist iw w).2 :=
  sdk_step oldIP w _ _ rfl rfl

theorem updateRedisInstance_extends (S : Sys σ) (c : Client) (oldIP newIP : String)
    (iw : InstanceWhitelist) (w : World σ) :
    Extends (updateEvent oldIP) w (updateRedisInstance S c oldIP newIP iw w).2 := by
  have hget := getRedisWhitelist_extends S c oldIP iw w
  unfold updateRedisInstance
  rcases hg : getRedisWhitelist S c iw w with ⟨⟨cur, _ | err⟩, w1⟩
  · rw [hg] at hget
    dsimp only at hget ⊢
    have hset := setRedisWhitelist_extends S c oldIP
      (updateIPList (S.mapOrder w1.env) cur oldIP newIP) iw w1
    rcases hs : setRedisWhitelist S c (updateIPList (S.mapOrder w1.env) cur oldIP newIP) iw w1
      with ⟨_ | err, w2⟩
    · rw [hs] at hset
      exact hget.trans hset
    · rw [hs] at hset
      exact hget.trans hset
  · rw [hg] at hget
    exact hget

theorem UpdateRedisWhitelist_extends (S : Sys σ) (c : Client) (oldIP newIP : String)
    (w : World σ) : Extends (updateEvent oldIP) w (UpdateRedisWhitelist S c oldIP newIP w).2 := by
  unfold UpdateRedisWhitelist
  split
  · exact Extends.refl _ w
  · exact forEachTarget_extends _ _ (updateRedisInstance_extends S c oldIP newIP) _ w

theorem getCLBWhitelist_extends (S : Sys σ) (c : Client) (oldIP : String)
    (lbw : LoadBalancerWhitelist) (w : World σ) :
    Extends (updateEvent oldIP) w (getCLBWhitelist S c lbw w).2 := by
  unfold getCLBWhitelist
  split <;> exact sdk_step oldIP w _ _ rfl rfl

theorem addCLBEntries_extends (S : Sys σ) (c : Client) (oldIP whitelist : String)
    (lbw : LoadBalancerWhitelist) (w : World σ) :
    Extends (updateEvent oldIP) w (addCLBEntries S c whitelist lbw w).2 := by
  unfold addCLBEntries
  split
  · split
    · split <;> exact sdk_step oldIP w _ _ rfl rfl
    · exact Extends.refl _ w
  · exact Extends.refl _ w

theorem setCLBWhitelist_extends (S : Sys σ) (c : Client) (oldIP whitelist : String)
    (lbw : LoadBalancerWhitelist) (w : World σ) :
    Extends (updateEvent oldIP) w (setCLBWhitelist S c whitelist lbw w).2 := by
  unfold setCLBWhitelist
  split
  · exact sdk_step oldIP w _ _ rfl rfl
  · dsimp only
    have h1 : Extends (updateEvent oldIP) w
        (w.step (Event.describeAccessControlListAttribute c lbw.AclID) ‹σ›) :=
      sdk_step oldIP w _ _ rfl rfl
    split
    · split
      · refine h1.trans ?_
        exact sdk_step oldIP _ _ _ rfl rfl
      · refine h1.trans (Extends.trans ?_ (addCLBEntries_extends S c oldIP whitelist lbw _))
        exact sdk_step oldIP _ _ _ rfl rfl
    · exact h1.trans (addCLBEntries_extends S c oldIP whitelist lbw _)

theorem updateCLBAcl_extends (S : Sys σ) (c : Client) (oldIP newIP : String)
    (lbw : LoadBalancerWhitelist) (w : World σ) :
    Extends (updateEvent oldIP) w (updateCLBAcl S c oldIP newIP lbw w).2 := by
  have hget := getCLBWhitelist_extends S c oldIP lbw w
  unfold updateCLBAcl
  rcases hg : getCLBWhitelist S c lbw w with ⟨⟨cur, _ | err⟩, w1⟩
  · rw [hg] at hget
    dsimp only at hget ⊢
    have hset := setCLBWhitelist_extends S c oldIP
      (updateIPList (S.mapOrder w1.env) cur oldIP newIP) lbw w1
    rcases hs : setCLBWhitelist S c (updateIPList (S.mapOrder w1.env) cur oldIP newIP) lbw w1
      with ⟨_ | err, w2⟩
    · rw [hs] at hset
      exact hget.trans hset
    · rw [hs] at hset
      exact hget.trans hset
  · rw [hg] at hget
    exact hget

theorem UpdateCLBWhitelist_extends (S : Sys σ) (c : Client) (oldIP newIP : String)
    (w : World σ) : Extends (updateEvent oldIP) w (UpdateCLBWhitelist S c oldIP newIP w).2 := by
  unfold UpdateCLBWhitelist
  split
  · exact Extends.refl _ w
  · exact forEachTarget_extends _ _ (updateCLBAcl_extends S c oldIP newIP) _ w

end traces

/-! ## Lemmas on the driver -/

section driverLemmas
variable {σ : Type}

theorem GetPublicIP_single_trace (S : Sys σ) (source : IPSource) (w : World σ) :
    (GetPublicIP S [source] w).2.trace = w.trace ++ [Event.getIPFromSource source] := by
  rw [GetPublicIP_cons]
  split
  · rfl
  · rfl

theorem GetPublicIP_ok_ne_empty (S : Sys σ) (sources : List IPSource) (w : World σ)
    (h : (GetPublicIP S sources w).1.2 = none) : (GetPublicIP S sources w).1.1 ≠ "" := by
  induction sources generalizing w with
  | nil => simp [GetPublicIP] at h
  | cons a rest ih =>
    rw [GetPublicIP_cons] at h ⊢
    split
    · rename_i hok
      exact hok.2
    · rename_i hfail
      rw [if_neg hfail] at h
      exact ih _ h

theorem invocations_invoke (w : World σ) (kind : Kind) (client : Client) (state : State) :
    invocations (w.invoke kind client state).trace
      = invocations w.trace ++ [(kind, client, state.LastIP, state.CurrentIP)] := by
  simp [World.invoke, invocations_append, invocations]

theorem invoke_extends (w : World σ) (kind : Kind) (client : Client) (state : State) :
    Extends (fun e => state.LastIP = "" → e.isRevoke = false) w (w.invoke kind client state) :=
  ⟨[Event.update kind client state.LastIP state.CurrentIP], rfl, by simp [Event.isRevoke]⟩

/-- One step of `updateAccount`: the update of a kind, when it is enabled, is
recorded once, and adds no revoke call when the old IP is absent. -/
theorem kind_step (state : State) (kind : Kind) (client : Client) (enabled : Bool)
    (f : World σ → Option String × World σ)
    (hf : ∀ v, Extends (updateEvent state.LastIP) v (f v).2) (w : World σ) :
    invocations (if enabled = true then (f (w.invoke kind client state)).2 else w).trace
        = invocations w.trace
          ++ (if enabled = true then [(kind, client, state.LastIP, state.CurrentIP)] else [])
    ∧ Extends (fun e => state.LastIP = "" → e.isRevoke = false) w
        (if enabled = true then (f (w.invoke kind client state)).2 else w) := by
  cases enabled with
  | false => exact ⟨by simp, Extends.refl _ w⟩
  | true =>
    simp only [if_true]
    refine ⟨?_, ?_⟩
    · rw [(hf (w.invoke kind client state)).invocations_eq, invocations_invoke]
    · exact (invoke_extends w kind client state).trans
        ((hf (w.invoke kind client state)).mono (fun e he => he.2))

theorem updateAccount_spec (S : Sys σ) (state : State) (client : Client) (w : World σ) :
    invocations (updateAccount S state client w).trace
        = invocations w.trace
          ++ (enabledKinds client).map (fun kind => (kind, client, state.LastIP, state.CurrentIP))
    ∧ Extends (fun e => state.LastIP = "" → e.isRevoke = false) w
        (updateAccount S state client w) := by
  have h1 := kind_step state Kind.ecs client client.config.ECS.Enabled
    (UpdateECSWhitelist S client state.LastIP state.CurrentIP)
    (UpdateECSWhitelist_extends S client state.LastIP state.CurrentIP) w
  have h2 := kind_step state Kind.rds client client.config.RDS.Enabled
    (UpdateRDSWhitelist S client state.LastIP state.CurrentIP)
    (UpdateRDSWhitelist_extends S client state.LastIP state.CurrentIP)
    (if client.config.ECS.Enabled = true then
      (UpdateECSWhitelist S client state.LastIP state.CurrentIP
        (w.invoke Kind.ecs client state)).2 else w)
  have h3 := kind_step state Kind.redis client client.config.Redis.Enabled
    (UpdateRedisWhitelist S client state.LastIP state.CurrentIP)
    (UpdateRedisWhitelist_extends S client state.LastIP state.CurrentIP)
    (if client.config.RDS.Enabled = true then
      (UpdateRDSWhitelist S client state.LastIP state.CurrentIP
        (World.invoke (if client.config.ECS.Enabled = true then
          (UpdateECSWhitelist S client state.LastIP state.CurrentIP
            (w.invoke Kind.ecs client state)).2 else w) Kind.rds client state)).2
     else (if client.config.ECS.Enabled = true then
      (UpdateECSWhitelist S client state.LastIP state.CurrentIP
        (w.invoke Kind.ecs client state)).2 else w))
  have h4 := kind_step state Kind.clb client client.config.CLB.Enabled
    (UpdateCLBWhitelist S client state.LastIP state.CurrentIP)
    (UpdateCLBWhitelist_extends S client state.LastIP state.CurrentIP)
    (if client.config.Redis.Enabled = true then
      (UpdateRedisWhitelist S client state.LastIP state.CurrentIP
        (World.invoke (if client.config.RDS.Enabled = true then
      (UpdateRDSWhitelist S client state.LastIP state.CurrentIP
        (World.invoke (if client.config.ECS.Enabled = true then
          (UpdateECSWhitelist S client state.LastIP state.CurrentIP
            (w.invoke Kind.ecs client state)).2 else w) Kind.rds client state)).2
     else (if client.config.ECS.Enabled = true then
      (UpdateECSWhitelist S client state.LastIP state.CurrentIP
        (w.invoke Kind.ecs client state)).2 else w)) Kind.redis client state)).2
     else (if client.config.RDS.Enabled = true then
      (UpdateRDSWhitelist S client state.LastIP state.CurrentIP
        (World.invoke (if client.config.ECS.Enabled = true then
          (UpdateECSWhitelist S client state.LastIP state.CurrentIP
            (w.invoke Kind.ecs client state)).2 else w) Kind.rds client state)).2
     else (if client.config.ECS.Enabled = true then
      (UpdateECSWhitelist S client state.LastIP state.CurrentIP
        (w.invoke Kind.ecs client state)).2 else w)))
  refine ⟨?_, ?_⟩
  · unfold updateAccount
    dsimp only
    rw [h4.1, h3.1, h2.1, h1.1]
    simp [enabledKinds, List.map_append, List.append_assoc]
    cases client.config.ECS.Enabled <;> cases client.config.RDS.Enabled <;>
      cases client.config.Redis.Enabled <;> cases client.config.CLB.Enabled <;> simp
  · unfold updateAccount
    dsimp only
    exact h1.2.trans (h2.2.trans (h3.2.trans h4.2))

theorem updateAccounts_spec (S : Sys σ) (state : State) (clients : List Client) (w : World σ) :
    invocations (updateAccounts S state clients w).trace
        = invocations w.trace ++ allUpdates clients state.LastIP state.CurrentIP
    ∧ Extends (fun e => state.LastIP = "" → e.isRevoke = false) w
        (updateAccounts S state clients w) := by
  induction clients generalizing w with
  | nil => exact ⟨by simp [updateAccounts, allUpdates], Extends.refl _ w⟩
  | cons client rest ih =>
    obtain ⟨h1, h2⟩ := updateAccount_spec S state client w
    obtain ⟨h3, h4⟩ := ih (updateAccount S state client w)
    refine ⟨?_, ?_⟩
    · rw [updateAccounts, h3, h1]
      simp [allUpdates]
    · rw [updateAccounts]
      exact h2.trans h4

theorem callUpdates_append (S : Sys σ) (a b : List (Kind × Client × String × String))
    (w : World σ) : callUpdates S (a ++ b) w = callUpdates S b (callUpdates S a w) := by
  induction a generalizing w with
  | nil => rfl
  | cons x rest ih =>
    obtain ⟨kind, client, oldIP, newIP⟩ := x
    rw [List.cons_append, callUpdates, callUpdates, ih]

/-- The body of the loop of `updateIP` calls the update function of every
enabled kind of the client, in the order ECS, RDS, Redis, CLB, with the two
IPs of the state. -/
theorem updateAccount_eq_callUpdates (S : Sys σ) (state : State) (client : Client)
    (w : World σ) :
    updateAccount S state client w
      = callUpdates S
          ((enabledKinds client).map
            (fun kind => (kind, client, state.LastIP, state.CurrentIP))) w := by
  unfold updateAccount enabledKinds
  cases client.config.ECS.Enabled <;> cases client.config.RDS.Enabled <;>
    cases client.config.Redis.Enabled <;> cases client.config.CLB.Enabled <;> rfl

/-- The loop of `updateIP` calls the update functions of all clients in order. -/
theorem updateAccounts_eq_callUpdates (S : Sys σ) (state : State) (clients : List Client)
    (w : World σ) :
    updateAccounts S state clients w
      = callUpdates S (allUpdates clients state.LastIP state.CurrentIP) w := by
  induction clients generalizing w with
  | nil => rfl
  | cons client rest ih =>
    rw [updateAccounts, ih, updateAccount_eq_callUpdates]
    unfold allUpdates
    rw [List.flatMap_cons, callUpdates_append]

/-- What `updateIP` does when the resolution fails. -/
theorem updateIP_of_error (S : Sys σ) (cfg : Config) (clients : List Client) (state : State)
    (w : World σ) (err : String) (h : (GetPublicIP S [cfg.IPSource] w).1.2 = some err) :
    updateIP S cfg clients state w
      = (some ("failed to get public IP: " ++ err), state, (GetPublicIP S [cfg.IPSource] w).2) := by
  unfold updateIP
  rcases hg : GetPublicIP S [cfg.IPSource] w with ⟨⟨ip, e⟩, w1⟩
  rw [hg] at h
  simp only at h
  subst h
  rfl

/-- What `updateIP` does when the resolution succeeds. -/
theorem updateIP_of_ok (S : Sys σ) (cfg : Config) (clients : List Client) (state : State)
    (w : World σ) (h : (GetPublicIP S [cfg.IPSource] w).1.2 = none) :
    updateIP S cfg clients state w
      = if (GetPublicIP S [cfg.IPSource] w).1.1 = state.CurrentIP then
          (none, state, (GetPublicIP S [cfg.IPSource] w).2)
        else
          (none, ⟨state.CurrentIP, (GetPublicIP S [cfg.IPSource] w).1.1⟩,
            updateAccounts S ⟨state.CurrentIP, (GetPublicIP S [cfg.IPSource] w).1.1⟩ clients
              (GetPublicIP S [cfg.IPSource] w).2) := by
  unfold updateIP
  rcases hg : GetPublicIP S [cfg.IPSource] w with ⟨⟨ip, e⟩, w1⟩
  rw [hg] at h
  simp only at h
  subst h
  rfl

end driverLemmas

/-! ## The reconciliation driver -/

section driverTheorems
variable {σ : Type}

/-- C2: when the resolution succeeds with the IP `r`: if `r` is the recorded
`CurrentIP`, `updateIP` returns no error, leaves `LastIP` and `CurrentIP` as
they were and ends in the world that the resolver call left, the trace having
gained that call only, so no adapter call is made; if `r` differs from
`CurrentIP = c`, afterwards `LastIP = c` and `CurrentIP = r`, and the world is
the one that results from calling, on top of the resolver call, the update
function of every enabled kind of every account with `(c, r)`, one after the
other.  In particular three triggers from the empty state that resolve
`1.2.3.4`, `1.2.3.4` and `5.6.7.8` call the updates with `(absent, 1.2.3.4)`,
then not at all, then with `(1.2.3.4, 5.6.7.8)`. -/
theorem updateIP_tracking (S : Sys σ) (cfg : Config) (clients : List Client) (state : State)
    (w : World σ) (r : String) (hres : (GetPublicIP S [cfg.IPSource] w).1 = (r, none)) :
    (r = state.CurrentIP →
        (updateIP S cfg clients state w).1 = none ∧
        (updateIP S cfg clients state w).2.1 = state ∧
        (updateIP S cfg clients state w).2.2 = (GetPublicIP S [cfg.IPSource] w).2 ∧
        (updateIP S cfg clients state w).2.2.trace
          = w.trace ++ [Event.getIPFromSource cfg.IPSource])
    ∧ (r ≠ state.CurrentIP →
        (updateIP S cfg clients state w).1 = none ∧
        (updateIP S cfg clients state w).2.1 = ⟨state.CurrentIP, r⟩ ∧
        (updateIP S cfg clients state w).2.2
          = callUpdates S (allUpdates clients state.CurrentIP r)
              (GetPublicIP S [cfg.IPSource] w).2 ∧
        invocations (updateIP S cfg clients state w).2.2.trace
          = invocations w.trace ++ allUpdates clients state.CurrentIP r)
    ∧ (∀ w0 : World σ,
        (GetPublicIP S [cfg.IPSource] w0).1 = ("1.2.3.4", none) →
        (GetPublicIP S [cfg.IPSource] (updateIP S cfg clients ⟨"", ""⟩ w0).2.2).1
          = ("1.2.3.4", none) →
        (GetPublicIP S [cfg.IPSource]
          (updateIP S cfg clients (updateIP S cfg clients ⟨"", ""⟩ w0).2.1
            (updateIP S cfg clients ⟨"", ""⟩ w0).2.2).2.2).1 = ("5.6.7.8", none) →
        invocations (updateIP S cfg clients ⟨"", ""⟩ w0).2.2.trace
          = invocations w0.trace ++ allUpdates clients "" "1.2.3.4"
        ∧ invocations (updateIP S cfg clients (updateIP S cfg clients ⟨"", ""⟩ w0).2.1
            (updateIP S cfg clients ⟨"", ""⟩ w0).2.2).2.2.trace
          = invocations (updateIP S cfg clients ⟨"", ""⟩ w0).2.2.trace
        ∧ invocations (updateIP S cfg clients
            (updateIP S cfg clients (updateIP S cfg clients ⟨"", ""⟩ w0).2.1
              (updateIP S cfg clients ⟨"", ""⟩ w0).2.2).2.1
            (updateIP S cfg clients (updateIP S cfg clients ⟨"", ""⟩ w0).2.1
              (updateIP S cfg clients ⟨"", ""⟩ w0).2.2).2.2).2.2.trace
          = invocations (updateIP S cfg clients (updateIP S cfg clients ⟨"", ""⟩ w0).2.1
              (updateIP S cfg clients ⟨"", ""⟩ w0).2.2).2.2.trace
            ++ allUpdates clients "1.2.3.4" "5.6.7.8"
        ∧ (updateIP S cfg clients ⟨"", ""⟩ w0).2.2
          = callUpdates S (allUpdates clients "" "1.2.3.4") (GetPublicIP S [cfg.IPSource] w0).2
        ∧ (updateIP S cfg clients (updateIP S cfg clients ⟨"", ""⟩ w0).2.1
            (updateIP S cfg clients ⟨"", ""⟩ w0).2.2).2.2
          = (GetPublicIP S [cfg.IPSource] (updateIP S cfg clients ⟨"", ""⟩ w0).2.2).2
        ∧ (updateIP S cfg clients
            (updateIP S cfg clients (updateIP S cfg clients ⟨"", ""⟩ w0).2.1
              (updateIP S cfg clients ⟨"", ""⟩ w0).2.2).2.1
            (updateIP S cfg clients (updateIP S cfg clients ⟨"", ""⟩ w0).2.1
              (updateIP S cfg clients ⟨"", ""⟩ w0).2.2).2.2).2.2
          = callUpdates S (allUpdates clients "1.2.3.4" "5.6.7.8")
              (GetPublicIP S [cfg.IPSource]
                (updateIP S cfg clients (updateIP S cfg clients ⟨"", ""⟩ w0).2.1
                  (updateIP S cfg clients ⟨"", ""⟩ w0).2.2).2.2).2) := by
  have same : ∀ (st : State) (v : World σ) (x : String),
      (GetPublicIP S [cfg.IPSource] v).1 = (x, none) → x = st.CurrentIP →
      updateIP S cfg clients st v = (none, st, (GetPublicIP S [cfg.IPSource] v).2) := by
    intro st v x hx hsame
    rw [updateIP_of_ok S cfg clients st v (by rw [hx]), hx, if_pos hsame]
  have changed : ∀ (st : State) (v : World σ) (x : String),
      (GetPublicIP S [cfg.IPSource] v).1 = (x, none) → x ≠ st.CurrentIP →
      updateIP S cfg clients st v = (none, ⟨st.CurrentIP, x⟩,
        callUpdates S (allUpdates clients st.CurrentIP x)
          (GetPublicIP S [cfg.IPSource] v).2) := by
    intro st v x hx hne
    rw [updateIP_of_ok S cfg clients st v (by rw [hx]), hx, if_neg hne]
    exact congrArg (fun v1 => ((none : Option String), (⟨st.CurrentIP, x⟩ : State), v1))
      (updateAccounts_eq_callUpdates S ⟨st.CurrentIP, x⟩ clients _)
  have inv_calls : ∀ (st : State) (v : World σ),
      invocations (callUpdates S (allUpdates clients st.LastIP st.CurrentIP)
          (GetPublicIP S [cfg.IPSource] v).2).trace
        = invocations v.trace ++ allUpdates clients st.LastIP st.CurrentIP := by
    intro st v
    rw [← updateAccounts_eq_callUpdates, (updateAccounts_spec S st clients _).1,
      GetPublicIP_single_trace, invocations_append]
    simp [invocations]
  have inv_res : ∀ v : World σ,
      invocations (GetPublicIP S [cfg.IPSource] v).2.trace = invocations v.trace := by
    intro v
    rw [GetPublicIP_single_trace, invocations_append]
    simp [invocations]
  refine ⟨?_, ?_, ?_⟩
  · intro hsame
    rw [same state w r hres hsame]
    exact ⟨rfl, rfl, rfl, GetPublicIP_single_trace S cfg.IPSource w⟩
  · intro hne
    rw [changed state w r hres hne]
    exact ⟨rfl, rfl, rfl, inv_calls ⟨state.CurrentIP, r⟩ w⟩
  · intro w0 h1 h2 h3
    have e1 := changed ⟨"", ""⟩ w0 "1.2.3.4" h1 (by decide)
    rw [e1] at h2 h3 ⊢
    simp only at h2 h3 ⊢
    have e2 := same ⟨"", "1.2.3.4"⟩ _ "1.2.3.4" h2 rfl
    rw [e2] at h3 ⊢
    simp only at h3 ⊢
    have e3 := changed ⟨"", "1.2.3.4"⟩ _ "5.6.7.8" h3 (by decide)
    rw [e3]
    simp only
    refine ⟨inv_calls ⟨"", "1.2.3.4"⟩ w0, inv_res _, inv_calls ⟨"1.2.3.4", "5.6.7.8"⟩ _,
      ?_, ?_, ?_⟩ <;> first | rfl | trivial

/-- Witness of C2: in the example environment the endpoint answers `1.2.3.4`,
`1.2.3.4`, `5.6.7.8`; the three triggers from the empty state call the updates
of both accounts first with the old IP absent, then not, then with
`(1.2.3.4, 5.6.7.8)`.  The trace of the first trigger holds the authorize call
for `1.2.3.4/32` on the first security group and no revoke call; the trace of
the third holds the revoke call for `1.2.3.4/32`, the authorize call for
`5.6.7.8/32` and the RDS modify call with `5.6.7.8` added to the list. -/
theorem updateIP_tracking_witness :
    invocations (updateIP exampleSys exampleConfig [goodClient, badClient] ⟨"", ""⟩
        (exampleWorld ["1.2.3.4", "1.2.3.4", "5.6.7.8"])).2.2.trace
      = allUpdates [goodClient, badClient] "" "1.2.3.4"
    ∧ invocations (updateIP exampleSys exampleConfig [goodClient, badClient]
        (updateIP exampleSys exampleConfig [goodClient, badClient] ⟨"", ""⟩
          (exampleWorld ["1.2.3.4", "1.2.3.4", "5.6.7.8"])).2.1
        (updateIP exampleSys exampleConfig [goodClient, badClient] ⟨"", ""⟩
          (exampleWorld ["1.2.3.4", "1.2.3.4", "5.6.7.8"])).2.2).2.2.trace
      = invocations (updateIP exampleSys exampleConfig [goodClient, badClient] ⟨"", ""⟩
          (exampleWorld ["1.2.3.4", "1.2.3.4", "5.6.7.8"])).2.2.trace
    ∧ (updateIP exampleSys exampleConfig [goodClient, badClient] ⟨"", ""⟩
        (exampleWorld ["1.2.3.4", "1.2.3.4", "5.6.7.8"])).2.2
      = callUpdates exampleSys (allUpdates [goodClient, badClient] "" "1.2.3.4")
          (GetPublicIP exampleSys [exampleConfig.IPSource]
            (exampleWorld ["1.2.3.4", "1.2.3.4", "5.6.7.8"])).2
    ∧ (Event.authorizeSecurityGroup goodClient (authorizeRequest "1.2.3.4" ⟨"sg-1", "22", 1⟩)
        ∈ (updateIP exampleSys exampleConfig [goodClient, badClient] ⟨"", ""⟩
            (exampleWorld ["1.2.3.4", "1.2.3.4", "5.6.7.8"])).2.2.trace
      ∧ (updateIP exampleSys exampleConfig [goodClient, badClient] ⟨"", ""⟩
            (exampleWorld ["1.2.3.4", "1.2.3.4", "5.6.7.8"])).2.2.trace.all
          (fun e => !e.isRevoke) = true)
    ∧ (Event.revokeSecurityGroup goodClient (revokeRequest "1.2.3.4" ⟨"sg-1", "22", 1⟩)
        ∈ (updateIP exampleSys exampleConfig [goodClient, badClient] ⟨"", "1.2.3.4"⟩
            (exampleWorld ["5.6.7.8"])).2.2.trace
      ∧ Event.authorizeSecurityGroup goodClient (authorizeRequest "5.6.7.8" ⟨"sg-1", "22", 1⟩)
        ∈ (updateIP exampleSys exampleConfig [goodClient, badClient] ⟨"", "1.2.3.4"⟩
            (exampleWorld ["5.6.7.8"])).2.2.trace
      ∧ Event.rdsModifySecurityIps goodClient
          ⟨"https", "rm-1", "10.0.0.1,5.6.7.8", "MIX", "default"⟩
        ∈ (updateIP exampleSys exampleConfig [goodClient, badClient] ⟨"", "1.2.3.4"⟩
            (exampleWorld ["5.6.7.8"])).2.2.trace) :=
  have h := (updateIP_tracking exampleSys exampleConfig [goodClient, badClient] ⟨"", ""⟩
    (exampleWorld ["1.2.3.4", "1.2.3.4", "5.6.7.8"]) "1.2.3.4" (by decide)).2.2
    (exampleWorld ["1.2.3.4", "1.2.3.4", "5.6.7.8"]) (by decide) (by decide) (by decide)
  ⟨h.1, h.2.1, h.2.2.2.1, by decide, by decide⟩

/-- C3 as stated fails: in the example environment the recorded IP is `1.2.3.4`,
the endpoint answers `5.6.7.8`, and the ECS update of the account returns an
error; `LastIP` and `CurrentIP` are changed all the same. -/
theorem updateIP_state_counterexample :
    (GetPublicIP exampleSys [exampleConfig.IPSource] (exampleWorld ["5.6.7.8"])).1
      = ("5.6.7.8", none)
    ∧ "5.6.7.8" ≠ (State.mk "" "1.2.3.4").CurrentIP
    ∧ (UpdateECSWhitelist exampleSys badClient "1.2.3.4" "5.6.7.8"
        (World.invoke (GetPublicIP exampleSys [exampleConfig.IPSource]
          (exampleWorld ["5.6.7.8"])).2 Kind.ecs badClient ⟨"1.2.3.4", "5.6.7.8"⟩)).1 ≠ none
    ∧ (updateIP exampleSys exampleConfig [badClient] ⟨"", "1.2.3.4"⟩
        (exampleWorld ["5.6.7.8"])).2.1 ≠ ⟨"", "1.2.3.4"⟩ := by
  decide

/-- C3, amended: `LastIP` and `CurrentIP` are changed as soon as the IP resolves
to a value other than `CurrentIP`, before the apply step and whatever the
adapter updates return: `LastIP` becomes the previous `CurrentIP` and
`CurrentIP` the resolved IP.  They are left as they were when the resolution
fails or gives the recorded `CurrentIP`.  The state after a trigger does not
depend on the accounts at all. -/
theorem updateIP_state (S : Sys σ) (cfg : Config) (clients : List Client) (state : State)
    (w : World σ) :
    (updateIP S cfg clients state w).2.1
        = (if (GetPublicIP S [cfg.IPSource] w).1.2 = none
              ∧ (GetPublicIP S [cfg.IPSource] w).1.1 ≠ state.CurrentIP
          then ⟨state.CurrentIP, (GetPublicIP S [cfg.IPSource] w).1.1⟩ else state)
    ∧ (updateIP S cfg clients state w).2.1 = (updateIP S cfg [] state w).2.1 := by
  have key : ∀ cs : List Client, (updateIP S cfg cs state w).2.1
        = (if (GetPublicIP S [cfg.IPSource] w).1.2 = none
              ∧ (GetPublicIP S [cfg.IPSource] w).1.1 ≠ state.CurrentIP
          then ⟨state.CurrentIP, (GetPublicIP S [cfg.IPSource] w).1.1⟩ else state) := by
    intro cs
    rcases hr : (GetPublicIP S [cfg.IPSource] w).1.2 with _ | err
    · rw [updateIP_of_ok S cfg cs state w hr]
      by_cases hsame : (GetPublicIP S [cfg.IPSource] w).1.1 = state.CurrentIP
      · simp [hsame]
      · simp [hsame]
    · rw [updateIP_of_error S cfg cs state w err hr]
      simp
  exact ⟨key clients, by rw [key clients, key []]⟩

theorem GetPublicIP_error_value (S : Sys σ) (sources : List IPSource) (w : World σ)
    (h : (GetPublicIP S sources w).1.2 ≠ none) :
    (GetPublicIP S sources w).1 = ("", some "failed to get IP from all configured sources") := by
  induction sources generalizing w with
  | nil => rfl
  | cons a rest ih =>
    rw [GetPublicIP_cons] at h ⊢
    split
    · rename_i hok
      rw [if_pos hok] at h
      exact absurd rfl h
    · rename_i hfail
      rw [if_neg hfail] at h
      exact ih _ h

/-- C4: for every driver state, when the resolution fails `updateIP` returns
an error, leaves `LastIP` and `CurrentIP` as they were, and adds nothing to the
trace but the resolver call: no update is invoked and no SDK call is made for
any account. -/
theorem updateIP_resolution_failure (S : Sys σ) (cfg : Config) (clients : List Client)
    (state : State) (w : World σ) (hfail : (GetPublicIP S [cfg.IPSource] w).1.2 ≠ none) :
    (updateIP S cfg clients state w).1
        = some "failed to get public IP: failed to get IP from all configured sources"
    ∧ (updateIP S cfg clients state w).2.1 = state
    ∧ (updateIP S cfg clients state w).2.2.trace
        = w.trace ++ [Event.getIPFromSource cfg.IPSource]
    ∧ invocations (updateIP S cfg clients state w).2.2.trace = invocations w.trace
    ∧ Extends (fun e => e.isSDKCall = false) w (updateIP S cfg clients state w).2.2 := by
  have hv := GetPublicIP_error_value S [cfg.IPSource] w hfail
  have he : (GetPublicIP S [cfg.IPSource] w).1.2
      = some "failed to get IP from all configured sources" := by rw [hv]
  rw [updateIP_of_error S cfg clients state w _ he]
  have ht := GetPublicIP_single_trace S cfg.IPSource w
  have hmsg : "failed to get public IP: " ++ "failed to get IP from all configured sources"
      = "failed to get public IP: failed to get IP from all configured sources" := by decide
  refine ⟨congrArg some hmsg, rfl, ht, ?_, ⟨_, ht, by simp [Event.isSDKCall]⟩⟩
  simp only
  rw [ht, invocations_append]
  simp [invocations]

/-- Witness of C4: the endpoint of the example environment has nothing to
answer, the resolution fails, and the trigger leaves the state alone. -/
theorem updateIP_resolution_failure_witness :
    (updateIP exampleSys exampleConfig [goodClient] ⟨"1.2.3.4", "5.6.7.8"⟩ (exampleWorld [])).2.1
      = ⟨"1.2.3.4", "5.6.7.8"⟩ :=
  (updateIP_resolution_failure exampleSys exampleConfig [goodClient] ⟨"1.2.3.4", "5.6.7.8"⟩
    (exampleWorld []) (by decide)).2.1

/-- C9: whenever the resolved IP differs from `CurrentIP`, for every list of
accounts and every behaviour of the provider, `updateIP` returns no error and
calls the update function of each enabled kind (ECS, RDS, Redis, CLB, in that
order) of every account (in configured order) exactly once, all with the pair
`(LastIP, CurrentIP)` of the new state: the world afterwards is the one that
results from running these update functions one after the other on top of the
resolver call, each starting where the one before ended, whether that one
returned an error or not. -/
theorem updateIP_all_updates (S : Sys σ) (cfg : Config) (clients : List Client) (state : State)
    (w : World σ) (hok : (GetPublicIP S [cfg.IPSource] w).1.2 = none)
    (hne : (GetPublicIP S [cfg.IPSource] w).1.1 ≠ state.CurrentIP) :
    (updateIP S cfg clients state w).1 = none
    ∧ invocations (updateIP S cfg clients state w).2.2.trace
        = invocations w.trace
          ++ allUpdates clients (updateIP S cfg clients state w).2.1.LastIP
              (updateIP S cfg clients state w).2.1.CurrentIP
    ∧ allUpdates clients (updateIP S cfg clients state w).2.1.LastIP
          (updateIP S cfg clients state w).2.1.CurrentIP
        = clients.flatMap (fun client =>
            (if client.config.ECS.Enabled = true then
              [(Kind.ecs, client, state.CurrentIP, (GetPublicIP S [cfg.IPSource] w).1.1)] else [])
            ++ (if client.config.RDS.Enabled = true then
              [(Kind.rds, client, state.CurrentIP, (GetPublicIP S [cfg.IPSource] w).1.1)] else [])
            ++ (if client.config.Redis.Enabled = true then
              [(Kind.redis, client, state.CurrentIP, (GetPublicIP S [cfg.IPSource] w).1.1)]
              else [])
            ++ (if client.config.CLB.Enabled = true then
              [(Kind.clb, client, state.CurrentIP, (GetPublicIP S [cfg.IPSource] w).1.1)]
              else []))
    ∧ (updateIP S cfg clients state w).2.2
        = callUpdates S
            (allUpdates clients (updateIP S cfg clients state w).2.1.LastIP
              (updateIP S cfg clients state w).2.1.CurrentIP)
            (GetPublicIP S [cfg.IPSource] w).2
    ∧ (∀ (kind : Kind) (client : Client) (oldIP newIP : String)
        (rest : List (Kind × Client × String × String)) (v : World σ),
        callUpdates S ((kind, client, oldIP, newIP) :: rest) v
          = callUpdates S rest
              (match kind with
                | .ecs => UpdateECSWhitelist S client oldIP newIP
                    (v.invoke kind client ⟨oldIP, newIP⟩)
                | .rds => UpdateRDSWhitelist S client oldIP newIP
                    (v.invoke kind client ⟨oldIP, newIP⟩)
                | .redis => UpdateRedisWhitelist S client oldIP newIP
                    (v.invoke kind client ⟨oldIP, newIP⟩)
                | .clb => UpdateCLBWhitelist S client oldIP newIP
                    (v.invoke kind client ⟨oldIP, newIP⟩)).2) := by
  rw [updateIP_of_ok S cfg clients state w hok, if_neg hne]
  refine ⟨rfl, ?_, ?_, ?_, ?_⟩
  · simp only
    rw [(updateAccounts_spec S _ clients _).1, GetPublicIP_single_trace, invocations_append]
    simp [invocations]
  · simp only [allUpdates, enabledKinds]
    congr 1
    funext client
    cases client.config.ECS.Enabled <;> cases client.config.RDS.Enabled <;>
      cases client.config.Redis.Enabled <;> cases client.config.CLB.Enabled <;> rfl
  · exact updateAccounts_eq_callUpdates S
      ⟨state.CurrentIP, (GetPublicIP S [cfg.IPSource] w).1.1⟩ clients _
  · intro kind client oldIP newIP rest v
    cases kind <;> rfl

/-- Witness of C9: in the example environment every update of the first account
fails at its first target; the four updates of both accounts are called all
the same, in order, and `updateIP` returns no error.  The trace holds the
failed revoke call of the first account on `sg-bad`, and after it the calls of
the second account: the revoke of `1.2.3.4/32`, the authorize of `5.6.7.8/32`
and the add of `5.6.7.8/32` to its ACL. -/
theorem updateIP_all_updates_witness :
    (UpdateECSWhitelist exampleSys badClient "1.2.3.4" "5.6.7.8"
        (exampleWorld [])).1 ≠ none
    ∧ (updateIP exampleSys exampleConfig [badClient, goodClient] ⟨"", "1.2.3.4"⟩
        (exampleWorld ["5.6.7.8"])).1 = none
    ∧ invocations (updateIP exampleSys exampleConfig [badClient, goodClient] ⟨"", "1.2.3.4"⟩
        (exampleWorld ["5.6.7.8"])).2.2.trace
      = [(Kind.ecs, badClient, "1.2.3.4", "5.6.7.8"), (Kind.rds, badClient, "1.2.3.4", "5.6.7.8"),
         (Kind.redis, badClient, "1.2.3.4", "5.6.7.8"), (Kind.clb, badClient, "1.2.3.4", "5.6.7.8"),
         (Kind.ecs, goodClient, "1.2.3.4", "5.6.7.8"), (Kind.rds, goodClient, "1.2.3.4", "5.6.7.8"),
         (Kind.redis, goodClient, "1.2.3.4", "5.6.7.8"),
         (Kind.clb, goodClient, "1.2.3.4", "5.6.7.8")]
    ∧ (updateIP exampleSys exampleConfig [badClient, goodClient] ⟨"", "1.2.3.4"⟩
        (exampleWorld ["5.6.7.8"])).2.2
      = callUpdates exampleSys (allUpdates [badClient, goodClient] "1.2.3.4" "5.6.7.8")
          (GetPublicIP exampleSys [exampleConfig.IPSource] (exampleWorld ["5.6.7.8"])).2
    ∧ (Event.revokeSecurityGroup badClient (revokeRequest "1.2.3.4" ⟨"sg-bad", "22", 1⟩)
        ∈ (updateIP exampleSys exampleConfig [badClient, goodClient] ⟨"", "1.2.3.4"⟩
            (exampleWorld ["5.6.7.8"])).2.2.trace
      ∧ Event.revokeSecurityGroup goodClient (revokeRequest "1.2.3.4" ⟨"sg-1", "22", 1⟩)
        ∈ (updateIP exampleSys exampleConfig [badClient, goodClient] ⟨"", "1.2.3.4"⟩
            (exampleWorld ["5.6.7.8"])).2.2.trace
      ∧ Event.authorizeSecurityGroup goodClient (authorizeRequest "5.6.7.8" ⟨"sg-1", "22", 1⟩)
        ∈ (updateIP exampleSys exampleConfig [badClient, goodClient] ⟨"", "1.2.3.4"⟩
            (exampleWorld ["5.6.7.8"])).2.2.trace
      ∧ Event.addAccessControlListEntry goodClient "acl-1"
          [⟨"10.0.0.1/32", autoComment⟩, ⟨"5.6.7.8/32", autoComment⟩]
        ∈ (updateIP exampleSys exampleConfig [badClient, goodClient] ⟨"", "1.2.3.4"⟩
            (exampleWorld ["5.6.7.8"])).2.2.trace) :=
  have h := updateIP_all_updates exampleSys exampleConfig [badClient, goodClient]
    ⟨"", "1.2.3.4"⟩ (exampleWorld ["5.6.7.8"]) (by decide) (by decide)
  ⟨by decide, h.1, h.2.1, h.2.2.2.1, by decide⟩

/-- C10: from the initial state, with `LastIP` and `CurrentIP` absent, the
first trigger whose resolution succeeds with `r` always reconciles: `r` is not
empty, `updateIP` returns no error, sets `CurrentIP = r`, leaves `LastIP`
absent and calls the update function of every enabled kind of every account
with `(absent, r)`, the world afterwards being the one these calls leave on
top of the resolver call; nothing that the trigger adds to the trace is a
revoke call, the ECS update with the old IP absent being the authorize pass
alone, and `updateIPList` with the old IP absent keeps every entry of the list
it is given.  `GetPublicIP` never succeeds with an empty IP. -/
theorem updateIP_first_trigger (S : Sys σ) (cfg : Config) (clients : List Client)
    (w : World σ) (r : String) (hres : (GetPublicIP S [cfg.IPSource] w).1 = (r, none)) :
    r ≠ ""
    ∧ (updateIP S cfg clients ⟨"", ""⟩ w).1 = none
    ∧ (updateIP S cfg clients ⟨"", ""⟩ w).2.1 = ⟨"", r⟩
    ∧ invocations (updateIP S cfg clients ⟨"", ""⟩ w).2.2.trace
        = invocations w.trace ++ allUpdates clients "" r
    ∧ Extends (fun e => e.isRevoke = false) w (updateIP S cfg clients ⟨"", ""⟩ w).2.2
    ∧ (∀ (order : MapOrder) (currentList x : String),
        x ∈ entries currentList → x ∈ entries (updateIPList order currentList "" r))
    ∧ (∀ (sources : List IPSource) (v : World σ),
        (GetPublicIP S sources v).1.2 = none → (GetPublicIP S sources v).1.1 ≠ "")
    ∧ (updateIP S cfg clients ⟨"", ""⟩ w).2.2
        = callUpdates S (allUpdates clients "" r) (GetPublicIP S [cfg.IPSource] w).2
    ∧ (∀ (client : Client) (v : World σ), client.config.ECS.Enabled = true →
        UpdateECSWhitelist S client "" r v
          = forEachTarget
              (fun sg v1 =>
                match addIPToECSSecurityGroup S client r sg v1 with
                | (some err, v2) =>
                  (some ("failed to add new IP to ECS security group " ++ sg.SecurityGroupID
                    ++ ": " ++ err), v2)
                | (none, v2) => (none, v2))
              client.config.ECS.SecurityGroupIDs v) := by
  have hok : (GetPublicIP S [cfg.IPSource] w).1.2 = none := by rw [hres]
  have hr : r ≠ "" := by
    have := GetPublicIP_ok_ne_empty S [cfg.IPSource] w hok
    rw [hres] at this
    exact this
  have hne : (GetPublicIP S [cfg.IPSource] w).1.1 ≠ (State.mk "" "").CurrentIP := by
    rw [hres]
    exact hr
  rw [updateIP_of_ok S cfg clients ⟨"", ""⟩ w hok, if_neg hne, hres]
  have hspec := updateAccounts_spec S ⟨"", r⟩ clients (GetPublicIP S [cfg.IPSource] w).2
  have ht := GetPublicIP_single_trace S cfg.IPSource w
  refine ⟨hr, rfl, rfl, ?_, ?_, ?_, ?_, ?_, ?_⟩
  · simp only
    rw [hspec.1, ht, invocations_append]
    simp [invocations]
  · have h1 : Extends (fun e => e.isRevoke = false) w (GetPublicIP S [cfg.IPSource] w).2 :=
      ⟨_, ht, by simp [Event.isRevoke]⟩
    exact h1.trans (hspec.2.mono (fun e he => he rfl))
  · intro order currentList x hx
    rw [mem_entries_updateIPList]
    exact Or.inl ⟨hx, fun h => absurd rfl h⟩
  · exact fun sources v h => GetPublicIP_ok_ne_empty S sources v h
  · exact updateAccounts_eq_callUpdates S ⟨"", r⟩ clients _
  · intro client v hen
    unfold UpdateECSWhitelist
    rw [if_neg (by simp [hen]), if_neg (by simp)]
    dsimp only
    rw [if_pos hr]
    rfl

/-- Witness of C10: the first trigger of the example environment, the endpoint
answering `1.2.3.4`: the state records the IP, and the trace is the resolver
call followed, for each kind, by the recorded call of its update and the SDK
calls this makes with the new IP: two authorize calls, the describe and modify
calls of the two RDS instances and of the Redis instance, and the describe,
remove and add calls of the ACL. -/
theorem updateIP_first_trigger_witness :
    (updateIP exampleSys exampleConfig [goodClient] ⟨"", ""⟩ (exampleWorld ["1.2.3.4"])).2.1
      = ⟨"", "1.2.3.4"⟩
    ∧ (updateIP exampleSys exampleConfig [goodClient] ⟨"", ""⟩ (exampleWorld ["1.2.3.4"])).2.2
      = callUpdates exampleSys (allUpdates [goodClient] "" "1.2.3.4")
          (GetPublicIP exampleSys [exampleConfig.IPSource] (exampleWorld ["1.2.3.4"])).2
    ∧ (updateIP exampleSys exampleConfig [goodClient] ⟨"", ""⟩
        (exampleWorld ["1.2.3.4"])).2.2.trace
      = [Event.getIPFromSource exampleHTTPSource,
         Event.update Kind.ecs goodClient "" "1.2.3.4",
         Event.authorizeSecurityGroup goodClient (authorizeRequest "1.2.3.4" ⟨"sg-1", "22", 1⟩),
         Event.authorizeSecurityGroup goodClient
           (authorizeRequest "1.2.3.4" ⟨"sg-2", "-1/-1", 1⟩),
         Event.update Kind.rds goodClient "" "1.2.3.4",
         Event.describeDBInstanceIPArrayList goodClient "rm-1",
         Event.rdsModifySecurityIps goodClient
           ⟨"https", "rm-1", "10.0.0.1,1.2.3.4", "MIX", "default"⟩,
         Event.describeDBInstanceIPArrayList goodClient "rm-2",
         Event.rdsModifySecurityIps goodClient
           ⟨"https", "rm-2", "10.0.0.1,1.2.3.4", "MIX", "default"⟩,
         Event.update Kind.redis goodClient "" "1.2.3.4",
         Event.describeSecurityIps goodClient "r-1",
         Event.redisModifySecurityIps goodClient ⟨"https", "r-1", "10.0.0.1,1.2.3.4", "default"⟩,
         Event.update Kind.clb goodClient "" "1.2.3.4",
         Event.describeAccessControlListAttribute goodClient "acl-1",
         Event.describeAccessControlListAttribute goodClient "acl-1",
         Event.removeAccessControlListEntry goodClient "acl-1" [⟨"10.0.0.1/32", "office"⟩],
         Event.addAccessControlListEntry goodClient "acl-1"
           [⟨"10.0.0.1/32", autoComment⟩, ⟨"1.2.3.4/32", autoComment⟩]] :=
  have h := updateIP_first_trigger exampleSys exampleConfig [goodClient]
    (exampleWorld ["1.2.3.4"]) "1.2.3.4" (by decide)
  ⟨h.2.2.1, h.2.2.2.2.2.2.2.1, by decide⟩

end driverTheorems

/-! ## The resource adapters -/

section adapters
variable {σ : Type}

theorem any_tails_singleton_prefix (a : Char) (l : List Char) :
    l.tails.any (fun t => [a].isPrefixOf t) = true ↔ a ∈ l := by
  induction l with
  | nil => simp [List.isPrefixOf]
  | cons c cs ih =>
    rw [List.tails, List.any_cons, Bool.or_eq_true, ih]
    simp [List.isPrefixOf]

theorem Contains_slash (s : String) : Contains s "/" = true ↔ '/' ∈ s.data :=
  any_tails_singleton_prefix '/' s.data

/-- C8: for every port string `p` of a security group, the revoke and the
authorize request carry the protocol `all` with the all-ports range if `p` is
the all-ports range (minus one, a slash, minus one), the pair `(tcp, p)` if `p`
holds a slash, and `tcp` with `p`, a slash and `p` again otherwise; and these
are the requests that `removeIPFromECSSecurityGroup` and
`addIPToECSSecurityGroup` send.  So the port 22 gives `tcp` with 22 to 22, the
all-ports range gives `all` with itself, and the range 1 to 65535 gives `tcp`
with itself. -/
theorem port_normalization (S : Sys σ) (c : Client) (ip : String) (sg : SecurityGroup)
    (w : World σ) :
    ((revokeRequest ip sg).IpProtocol, (revokeRequest ip sg).PortRange)
        = (if sg.Port = "-1/-1" then ("all", "-1/-1")
           else if '/' ∈ sg.Port.data then ("tcp", sg.Port)
           else ("tcp", sg.Port ++ "/" ++ sg.Port))
    ∧ ((authorizeRequest ip sg).IpProtocol, (authorizeRequest ip sg).PortRange)
        = (if sg.Port = "-1/-1" then ("all", "-1/-1")
           else if '/' ∈ sg.Port.data then ("tcp", sg.Port)
           else ("tcp", sg.Port ++ "/" ++ sg.Port))
    ∧ (removeIPFromECSSecurityGroup S c ip sg w).2.trace
        = w.trace ++ [Event.revokeSecurityGroup c (revokeRequest ip sg)]
    ∧ (addIPToECSSecurityGroup S c ip sg w).2.trace
        = w.trace ++ [Event.authorizeSecurityGroup c (authorizeRequest ip sg)]
    ∧ (∀ (id : String) (priority : Int),
        ((revokeRequest ip ⟨id, "22", priority⟩).IpProtocol,
          (revokeRequest ip ⟨id, "22", priority⟩).PortRange) = ("tcp", "22/22")
        ∧ ((authorizeRequest ip ⟨id, "22", priority⟩).IpProtocol,
          (authorizeRequest ip ⟨id, "22", priority⟩).PortRange) = ("tcp", "22/22")
        ∧ ((revokeRequest ip ⟨id, "-1/-1", priority⟩).IpProtocol,
          (revokeRequest ip ⟨id, "-1/-1", priority⟩).PortRange) = ("all", "-1/-1")
        ∧ ((authorizeRequest ip ⟨id, "-1/-1", priority⟩).IpProtocol,
          (authorizeRequest ip ⟨id, "-1/-1", priority⟩).PortRange) = ("all", "-1/-1")
        ∧ ((revokeRequest ip ⟨id, "1/65535", priority⟩).IpProtocol,
          (revokeRequest ip ⟨id, "1/65535", priority⟩).PortRange) = ("tcp", "1/65535")
        ∧ ((authorizeRequest ip ⟨id, "1/65535", priority⟩).IpProtocol,
          (authorizeRequest ip ⟨id, "1/65535", priority⟩).PortRange) = ("tcp", "1/65535")) := by
  have hrev : ∀ g : SecurityGroup,
      ((revokeRequest ip g).IpProtocol, (revokeRequest ip g).PortRange)
        = (if g.Port = "-1/-1" then ("all", "-1/-1")
           else if '/' ∈ g.Port.data then ("tcp", g.Port)
           else ("tcp", g.Port ++ "/" ++ g.Port)) := by
    intro g
    unfold revokeRequest
    by_cases h1 : g.Port = "-1/-1"
    · simp [h1]
    · by_cases h2 : '/' ∈ g.Port.data
      · simp [h1, h2, (Contains_slash g.Port).mpr h2]
      · have h3 : ¬ Contains g.Port "/" = true := fun h => h2 ((Contains_slash g.Port).mp h)
        simp [h1, h2, h3]
  have hauth : ∀ g : SecurityGroup,
      ((authorizeRequest ip g).IpProtocol, (authorizeRequest ip g).PortRange)
        = (if g.Port = "-1/-1" then ("all", "-1/-1")
           else if '/' ∈ g.Port.data then ("tcp", g.Port)
           else ("tcp", g.Port ++ "/" ++ g.Port)) := by
    intro g
    unfold authorizeRequest
    by_cases h1 : g.Port = "-1/-1"
    · simp [h1]
    · by_cases h2 : '/' ∈ g.Port.data
      · simp [h1, h2, (Contains_slash g.Port).mpr h2]
      · have h3 : ¬ Contains g.Port "/" = true := fun h => h2 ((Contains_slash g.Port).mp h)
        simp [h1, h2, h3]
  refine ⟨hrev sg, hauth sg, removeIPFromECSSecurityGroup_trace S c ip sg w,
    addIPToECSSecurityGroup_trace S c ip sg w, ?_⟩
  have single : (if "22" = "-1/-1" then ("all", "-1/-1")
      else if '/' ∈ "22".data then ("tcp", "22") else ("tcp", "22" ++ "/" ++ "22"))
      = ("tcp", "22/22") := by decide
  have every : (if "-1/-1" = "-1/-1" then ("all", "-1/-1")
      else if '/' ∈ "-1/-1".data then ("tcp", "-1/-1") else ("tcp", "-1/-1" ++ "/" ++ "-1/-1"))
      = ("all", "-1/-1") := by decide
  have range : (if "1/65535" = "-1/-1" then ("all", "-1/-1")
      else if '/' ∈ "1/65535".data then ("tcp", "1/65535")
      else ("tcp", "1/65535" ++ "/" ++ "1/65535"))
      = ("tcp", "1/65535") := by decide
  intro id priority
  refine ⟨?_, ?_, ?_, ?_, ?_, ?_⟩
  · rw [hrev]; exact single
  · rw [hauth]; exact single
  · rw [hrev]; exact every
  · rw [hauth]; exact every
  · rw [hrev]; exact range
  · rw [hauth]; exact range

/-- C1 as stated fails: the account `badClient` of the example environment has
the RDS targets `rm-bad` and `rm-1`; the describe call for `rm-bad` fails and
the update of `rm-1` would succeed, yet `UpdateRDSWhitelist` makes the failed
call only and returns its error: the second target is never attempted. -/
theorem update_abort_counterexample :
    badClient.config.RDS.InstanceWhitelists = [⟨"rm-bad", "default"⟩, ⟨"rm-1", "default"⟩]
    ∧ (getRDSWhitelist exampleSys badClient ⟨"rm-bad", "default"⟩ (exampleWorld [])).1.2 ≠ none
    ∧ (updateRDSInstance exampleSys badClient "1.2.3.4" "5.6.7.8" ⟨"rm-1", "default"⟩
        (getRDSWhitelist exampleSys badClient ⟨"rm-bad", "default"⟩ (exampleWorld [])).2).1 = none
    ∧ (UpdateRDSWhitelist exampleSys badClient "1.2.3.4" "5.6.7.8" (exampleWorld [])).1
        = some "failed to get RDS whitelist for instance rm-bad: InvalidDBInstanceId.NotFound"
    ∧ (UpdateRDSWhitelist exampleSys badClient "1.2.3.4" "5.6.7.8" (exampleWorld [])).2.trace
        = [Event.describeDBInstanceIPArrayList badClient "rm-bad"]
    ∧ Event.describeDBInstanceIPArrayList badClient "rm-1"
        ∉ (UpdateRDSWhitelist exampleSys badClient "1.2.3.4" "5.6.7.8" (exampleWorld [])).2.trace := by
  decide

/-- C1, amended: the update of a resource kind stops at the first target whose
adapter call fails.  When the get or the set call of the first RDS, Redis or
CLB target fails, or the revoke or authorize call of the first security group,
the update returns the error of that call, with the target named in the
message, and ends in the world right after the failed call: no call is made
for any later target. -/
theorem update_stops_at_first_failure (S : Sys σ) (c : Client) (oldIP newIP : String)
    (w : World σ) :
    (∀ sg rest err w1, c.config.ECS.Enabled = true →
        c.config.ECS.SecurityGroupIDs = sg :: rest → oldIP ≠ "" →
        removeIPFromECSSecurityGroup S c oldIP sg w = (some err, w1) →
        UpdateECSWhitelist S c oldIP newIP w
          = (some ("failed to remove old IP from ECS security group " ++ sg.SecurityGroupID
              ++ ": " ++ err), w1))
    ∧ (∀ sg rest err w1 w2, c.config.ECS.Enabled = true →
        c.config.ECS.SecurityGroupIDs = sg :: rest →
        (if oldIP ≠ "" then forEachTarget (removeOldIP S c oldIP) (sg :: rest) w else (none, w))
          = (none, w1) →
        newIP ≠ "" → addIPToECSSecurityGroup S c newIP sg w1 = (some err, w2) →
        UpdateECSWhitelist S c oldIP newIP w
          = (some ("failed to add new IP to ECS security group " ++ sg.SecurityGroupID
              ++ ": " ++ err), w2))
    ∧ (∀ iw rest cur err w1, c.config.RDS.Enabled = true →
        c.config.RDS.InstanceWhitelists = iw :: rest →
        getRDSWhitelist S c iw w = ((cur, some err), w1) →
        UpdateRDSWhitelist S c oldIP newIP w
          = (some ("failed to get RDS whitelist for instance " ++ iw.InstanceID ++ ": " ++ err),
              w1))
    ∧ (∀ iw rest cur err w1 w2, c.config.RDS.Enabled = true →
        c.config.RDS.InstanceWhitelists = iw :: rest →
        getRDSWhitelist S c iw w = ((cur, none), w1) →
        setRDSWhitelist S c (updateIPList (S.mapOrder w1.env) cur oldIP newIP) iw w1
          = (some err, w2) →
        UpdateRDSWhitelist S c oldIP newIP w
          = (some ("failed to update RDS whitelist for instance " ++ iw.InstanceID ++ ": "
              ++ err), w2))
    ∧ (∀ iw rest cur err w1, c.config.Redis.Enabled = true →
        c.config.Redis.InstanceWhitelists = iw :: rest →
        getRedisWhitelist S c iw w = ((cur, some err), w1) →
        UpdateRedisWhitelist S c oldIP newIP w
          = (some ("failed to get Redis whitelist for instance " ++ iw.InstanceID ++ ": "
              ++ err), w1))
    ∧ (∀ iw rest cur err w1 w2, c.config.Redis.Enabled = true →
        c.config.Redis.InstanceWhitelists = iw :: rest →
        getRedisWhitelist S c iw w = ((cur, none), w1) →
        setRedisWhitelist S c (updateIPList (S.mapOrder w1.env) cur oldIP newIP) iw w1
          = (some err, w2) →
        UpdateRedisWhitelist S c oldIP newIP w
          = (some ("failed to update Redis whitelist for instance " ++ iw.InstanceID ++ ": "
              ++ err), w2))
    ∧ (∀ lbw rest cur err w1, c.config.CLB.Enabled = true →
        c.config.CLB.LoadBalancerWhitelists = lbw :: rest →
        getCLBWhitelist S c lbw w = ((cur, some err), w1) →
        UpdateCLBWhitelist S c oldIP newIP w
          = (some ("failed to get CLB whitelist for ACL " ++ lbw.AclID ++ ": " ++ err), w1))
    ∧ (∀ lbw rest cur err w1 w2, c.config.CLB.Enabled = true →
        c.config.CLB.LoadBalancerWhitelists = lbw :: rest →
        getCLBWhitelist S c lbw w = ((cur, none), w1) →
        setCLBWhitelist S c (updateIPList (S.mapOrder w1.env) cur oldIP newIP) lbw w1
          = (some err, w2) →
        UpdateCLBWhitelist S c oldIP newIP w
          = (some ("failed to update CLB whitelist for ACL " ++ lbw.AclID ++ ": " ++ err),
              w2)) := by
  refine ⟨?_, ?_, ?_, ?_, ?_, ?_, ?_, ?_⟩
  · intro sg rest err w1 hen hsgs hold hfail
    have hbody : removeOldIP S c oldIP sg w
        = (some ("failed to remove old IP from ECS security group " ++ sg.SecurityGroupID
            ++ ": " ++ err), w1) := by
      rw [removeOldIP, hfail]
    unfold UpdateECSWhitelist
    rw [if_neg (by simp [hen]), if_pos hold, hsgs,
      forEachTarget_cons_fail _ sg rest w w1 _ hbody]
  · intro sg rest err w1 w2 hen hsgs hrevoke hnew hfail
    have hbody : addNewIP S c newIP sg w1
        = (some ("failed to add new IP to ECS security group " ++ sg.SecurityGroupID
            ++ ": " ++ err), w2) := by
      rw [addNewIP, hfail]
    unfold UpdateECSWhitelist
    rw [if_neg (by simp [hen]), hsgs, hrevoke]
    simp only
    rw [if_pos hnew, forEachTarget_cons_fail _ sg rest w1 w2 _ hbody]
  · intro iw rest cur err w1 hen htargets hfail
    unfold UpdateRDSWhitelist
    rw [if_neg (by simp [hen]), htargets]
    exact forEachTarget_cons_fail _ iw rest w w1 _ (by rw [updateRDSInstance, hfail])
  · intro iw rest cur err w1 w2 hen htargets hget hfail
    unfold UpdateRDSWhitelist
    rw [if_neg (by simp [hen]), htargets]
    refine forEachTarget_cons_fail _ iw rest w w2 _ ?_
    rw [updateRDSInstance, hget]
    simp only
    rw [hfail]
  · intro iw rest cur err w1 hen htargets hfail
    unfold UpdateRedisWhitelist
    rw [if_neg (by simp [hen]), htargets]
    exact forEachTarget_cons_fail _ iw rest w w1 _ (by rw [updateRedisInstance, hfail])
  · intro iw rest cur err w1 w2 hen htargets hget hfail
    unfold UpdateRedisWhitelist
    rw [if_neg (by simp [hen]), htargets]
    refine forEachTarget_cons_fail _ iw rest w w2 _ ?_
    rw [updateRedisInstance, hget]
    simp only
    rw [hfail]
  · intro lbw rest cur err w1 hen htargets hfail
    unfold UpdateCLBWhitelist
    rw [if_neg (by simp [hen]), htargets]
    exact forEachTarget_cons_fail _ lbw rest w w1 _ (by rw [updateCLBAcl, hfail])
  · intro lbw rest cur err w1 w2 hen htargets hget hfail
    unfold UpdateCLBWhitelist
    rw [if_neg (by simp [hen]), htargets]
    refine forEachTarget_cons_fail _ lbw rest w w2 _ ?_
    rw [updateCLBAcl, hget]
    simp only
    rw [hfail]

/-- Witness of the amended C1: the updates of `badClient` in the example
environment end right after the failed call for the first target. -/
theorem update_stops_at_first_failure_witness :
    UpdateRDSWhitelist exampleSys badClient "1.2.3.4" "5.6.7.8" (exampleWorld [])
        = (some ("failed to get RDS whitelist for instance "
              ++ (InstanceWhitelist.mk "rm-bad" "default").InstanceID ++ ": "
              ++ "InvalidDBInstanceId.NotFound"),
            (getRDSWhitelist exampleSys badClient ⟨"rm-bad", "default"⟩ (exampleWorld [])).2)
    ∧ UpdateECSWhitelist exampleSys badClient "1.2.3.4" "5.6.7.8" (exampleWorld [])
        = (some ("failed to remove old IP from ECS security group "
              ++ (SecurityGroup.mk "sg-bad" "22" 1).SecurityGroupID ++ ": "
              ++ "InvalidSecurityGroupId.NotFound"),
            (removeIPFromECSSecurityGroup exampleSys badClient "1.2.3.4" ⟨"sg-bad", "22", 1⟩
              (exampleWorld [])).2) :=
  have h := update_stops_at_first_failure exampleSys badClient "1.2.3.4" "5.6.7.8"
    (exampleWorld [])
  ⟨h.2.2.1 ⟨"rm-bad", "default"⟩ [⟨"rm-1", "default"⟩] "" "InvalidDBInstanceId.NotFound" _
      rfl rfl rfl,
    h.1 ⟨"sg-bad", "22", 1⟩ [⟨"sg-1", "22", 1⟩] "InvalidSecurityGroupId.NotFound" _
      rfl rfl (by decide) rfl⟩

end adapters

/-! ## Validation of the configuration -/

theorem accountSecurityGroups_none (i j : Nat) (l : List SecurityGroup)
    (h : accountSecurityGroups i j l = none) :
    ∀ sg ∈ l, sg.SecurityGroupID ≠ "" ∧ sg.Port ≠ "" ∧ 0 < sg.Priority := by
  induction l generalizing j with
  | nil => simp
  | cons sg rest ih =>
    rw [accountSecurityGroups] at h
    split at h
    · exact absurd h (by simp)
    · split at h
      · exact absurd h (by simp)
      · split at h
        · exact absurd h (by simp)
        · rename_i h1 h2 h3
          intro x hx
          rcases List.mem_cons.mp hx with rfl | hx
          · exact ⟨h1, h2, not_le.mp h3⟩
          · exact ih (j + 1) h x hx

theorem accountRDSWhitelists_none (i j : Nat) (l : List InstanceWhitelist)
    (h : accountRDSWhitelists i j l = none) :
    ∀ iw ∈ l, iw.InstanceID ≠ "" ∧ iw.WhitelistName ≠ "" := by
  induction l generalizing j with
  | nil => simp
  | cons iw rest ih =>
    rw [accountRDSWhitelists] at h
    split at h
    · exact absurd h (by simp)
    · split at h
      · exact absurd h (by simp)
      · rename_i h1 h2
        intro x hx
        rcases List.mem_cons.mp hx with rfl | hx
        · exact ⟨h1, h2⟩
        · exact ih (j + 1) h x hx

theorem accountRedisWhitelists_none (i j : Nat) (l : List InstanceWhitelist)
    (h : accountRedisWhitelists i j l = none) :
    ∀ iw ∈ l, iw.InstanceID ≠ "" ∧ iw.WhitelistName ≠ "" := by
  induction l generalizing j with
  | nil => simp
  | cons iw rest ih =>
    rw [accountRedisWhitelists] at h
    split at h
    · exact absurd h (by simp)
    · split at h
      · exact absurd h (by simp)
      · rename_i h1 h2
        intro x hx
        rcases List.mem_cons.mp hx with rfl | hx
        · exact ⟨h1, h2⟩
        · exact ih (j + 1) h x hx

theorem accountCLBWhitelists_none (i j : Nat) (l : List LoadBalancerWhitelist)
    (h : accountCLBWhitelists i j l = none) : ∀ lbw ∈ l, lbw.AclID ≠ "" := by
  induction l generalizing j with
  | nil => simp
  | cons lbw rest ih =>
    rw [accountCLBWhitelists] at h
    split at h
    · exact absurd h (by simp)
    · rename_i h1
      intro x hx
      rcases List.mem_cons.mp hx with rfl | hx
      · exact h1
      · exact ih (j + 1) h x hx

theorem aliyunSecurityGroups_none (i : Nat) (l : List SecurityGroup)
    (h : aliyunSecurityGroups i l = none) :
    ∀ sg ∈ l, sg.SecurityGroupID ≠ "" ∧ sg.Port ≠ "" ∧ 0 < sg.Priority := by
  induction l generalizing i with
  | nil => simp
  | cons sg rest ih =>
    rw [aliyunSecurityGroups] at h
    split at h
    · exact absurd h (by simp)
    · split at h
      · exact absurd h (by simp)
      · split at h
        · exact absurd h (by simp)
        · rename_i h1 h2 h3
          intro x hx
          rcases List.mem_cons.mp hx with rfl | hx
          · exact ⟨h1, h2, not_le.mp h3⟩
          · exact ih (i + 1) h x hx

theorem aliyunRDSWhitelists_none (i : Nat) (l : List InstanceWhitelist)
    (h : aliyunRDSWhitelists i l = none) :
    ∀ iw ∈ l, iw.InstanceID ≠ "" ∧ iw.WhitelistName ≠ "" := by
  induction l generalizing i with
  | nil => simp
  | cons iw rest ih =>
    rw [aliyunRDSWhitelists] at h
    split at h
    · exact absurd h (by simp)
    · split at h
      · exact absurd h (by simp)
      · rename_i h1 h2
        intro x hx
        rcases List.mem_cons.mp hx with rfl | hx
        · exact ⟨h1, h2⟩
        · exact ih (i + 1) h x hx

theorem aliyunRedisWhitelists_none (i : Nat) (l : List InstanceWhitelist)
    (h : aliyunRedisWhitelists i l = none) :
    ∀ iw ∈ l, iw.InstanceID ≠ "" ∧ iw.WhitelistName ≠ "" := by
  induction l generalizing i with
  | nil => simp
  | cons iw rest ih =>
    rw [aliyunRedisWhitelists] at h
    split at h
    · exact absurd h (by simp)
    · split at h
      · exact absurd h (by simp)
      · rename_i h1 h2
        intro x hx
        rcases List.mem_cons.mp hx with rfl | hx
        · exact ⟨h1, h2⟩
        · exact ih (i + 1) h x hx

theorem aliyunCLBWhitelists_none (i : Nat) (l : List LoadBalancerWhitelist)
    (h : aliyunCLBWhitelists i l = none) : ∀ lbw ∈ l, lbw.AclID ≠ "" := by
  induction l generalizing i with
  | nil => simp
  | cons lbw rest ih =>
    rw [aliyunCLBWhitelists] at h
    split at h
    · exact absurd h (by simp)
    · rename_i h1
      intro x hx
      rcases List.mem_cons.mp hx with rfl | hx
      · exact h1
      · exact ih (i + 1) h x hx

/-- A guarded block of `Validate` that returns no error: when the kind is
enabled its list is not empty and its loop returned no error. -/
theorem guarded_none {α : Type} (enabled : Bool) (l : List α) (msg : String)
    (loop : Option String)
    (h : (if enabled = true then if l.length = 0 then some msg else loop else none) = none) :
    enabled = true → l ≠ [] ∧ loop = none := by
  intro hen
  rw [if_pos hen] at h
  split at h
  · exact absurd h (by simp)
  · rename_i hlen
    exact ⟨fun hnil => hlen (by rw [hnil]; rfl), h⟩

theorem match_none {β : Type} (a : Option String) (k : β) (f : String → β) (g : β)
    (h : (match a with | some err => f err | none => g) = k) (hf : ∀ err, f err ≠ k) :
    a = none ∧ g = k := by
  cases a with
  | none => exact ⟨rfl, h⟩
  | some err => exact absurd h (hf err)

theorem validateAccount_none (i : Nat) (account : Account)
    (h : validateAccount i account = none) : EnabledTargetsValid account.GetAliyun := by
  unfold validateAccount at h
  split at h
  · exact absurd h (by simp)
  · split at h
    · exact absurd h (by simp)
    · split at h
      · exact absurd h (by simp)
      · split at h
        · exact absurd h (by simp)
        · obtain ⟨hecs, h⟩ := match_none _ _ _ _ h (by simp)
          obtain ⟨hrds, h⟩ := match_none _ _ _ _ h (by simp)
          obtain ⟨hredis, hclb⟩ := match_none _ _ _ _ h (by simp)
          refine ⟨?_, ?_, ?_, ?_⟩
          · intro hen
            obtain ⟨h1, h2⟩ := guarded_none _ _ _ _ hecs hen
            exact ⟨h1, accountSecurityGroups_none i 0 _ h2⟩
          · intro hen
            obtain ⟨h1, h2⟩ := guarded_none _ _ _ _ hrds hen
            exact ⟨h1, accountRDSWhitelists_none i 0 _ h2⟩
          · intro hen
            obtain ⟨h1, h2⟩ := guarded_none _ _ _ _ hredis hen
            exact ⟨h1, accountRedisWhitelists_none i 0 _ h2⟩
          · intro hen
            obtain ⟨h1, h2⟩ := guarded_none _ _ _ _ hclb hen
            exact ⟨h1, accountCLBWhitelists_none i 0 _ h2⟩

theorem validateAccounts_none (i : Nat) (l : List Account) (h : validateAccounts i l = none) :
    ∀ account ∈ l, EnabledTargetsValid account.GetAliyun := by
  induction l generalizing i with
  | nil => simp
  | cons a rest ih =>
    rw [validateAccounts] at h
    obtain ⟨h1, h2⟩ := match_none _ _ _ _ h (by simp)
    intro x hx
    rcases List.mem_cons.mp hx with rfl | hx
    · exact validateAccount_none i x h1
    · exact ih (i + 1) h2 x hx

theorem validateAliyun_none (aliyun : Aliyun) (h : validateAliyun aliyun = none) :
    EnabledTargetsValid aliyun := by
  unfold validateAliyun at h
  split at h
  · exact absurd h (by simp)
  · split at h
    · exact absurd h (by simp)
    · split at h
      · exact absurd h (by simp)
      · obtain ⟨hecs, h⟩ := match_none _ _ _ _ h (by simp)
        obtain ⟨hrds, h⟩ := match_none _ _ _ _ h (by simp)
        obtain ⟨hredis, hclb⟩ := match_none _ _ _ _ h (by simp)
        refine ⟨?_, ?_, ?_, ?_⟩
        · intro hen
          obtain ⟨h1, h2⟩ := guarded_none _ _ _ _ hecs hen
          exact ⟨h1, aliyunSecurityGroups_none 0 _ h2⟩
        · intro hen
          obtain ⟨h1, h2⟩ := guarded_none _ _ _ _ hrds hen
          exact ⟨h1, aliyunRDSWhitelists_none 0 _ h2⟩
        · intro hen
          obtain ⟨h1, h2⟩ := guarded_none _ _ _ _ hredis hen
          exact ⟨h1, aliyunRedisWhitelists_none 0 _ h2⟩
        · intro hen
          obtain ⟨h1, h2⟩ := guarded_none _ _ _ _ hclb hen
          exact ⟨h1, aliyunCLBWhitelists_none 0 _ h2⟩

/-- What `Validate` returns once the interval and the IP source have passed. -/
theorem Validate_none (c : Config) (h : c.Validate = none) :
    0 < c.Interval ∧ validateIPSource c.IPSource = none ∧
    (if c.Accounts.length > 0 then validateAccounts 0 c.Accounts
      else validateAliyun c.Aliyun) = none := by
  unfold Config.Validate at h
  split at h
  · exact absurd h (by simp)
  · rename_i hi
    obtain ⟨h1, h2⟩ := match_none _ _ _ _ h (by simp)
    exact ⟨not_le.mp hi, h1, h2⟩

/-- C11 as stated fails: `Validate` returns no error on a configuration whose
only account has a disabled ECS block that lists a security group with an
empty identifier, an empty port and priority zero; the driver is given this
account. -/
theorem Validate_targets_counterexample :
    disabledECSConfig.Validate = none
    ∧ (∃ client ∈ newClients disabledECSConfig, ∃ sg ∈ client.config.ECS.SecurityGroupIDs,
        sg.SecurityGroupID = "" ∧ sg.Port = "" ∧ sg.Priority = 0)
    ∧ ¬ (∀ client ∈ newClients disabledECSConfig, AllTargetsValid client.config) := by
  refine ⟨by decide, by decide, ?_⟩
  intro h
  have h1 := (h ⟨(Account.mk "test_account" "test_key" "test_secret" "cn-hangzhou"
    ⟨false, [⟨"", "", 0⟩]⟩ ⟨true, [⟨"rm-test", "default"⟩]⟩ ⟨false, []⟩ ⟨false, []⟩).GetAliyun⟩
    (by decide)).2.2.2.2.1 ⟨"", "", 0⟩ (by decide)
  exact h1.1 rfl

/-- C11, amended: for every configuration on which `Validate` returns no error,
every account the driver is given (each entry of `Accounts` when there is one,
the legacy block otherwise) has, for each of its enabled kinds, at least one
target, and every target of an enabled kind has its fields in order: a
security group an identifier, a port and a priority above zero, an RDS or
Redis target an instance and a whitelist name, a CLB target an ACL identifier.
Nothing is promised of the targets of a kind that is not enabled. -/
theorem Validate_targets (c : Config) (h : c.Validate = none) :
    ∀ client ∈ newClients c, EnabledTargetsValid client.config := by
  obtain ⟨_, _, hacc⟩ := Validate_none c h
  intro client hclient
  unfold newClients at hclient
  by_cases hlen : c.Accounts.length > 0
  · rw [if_pos hlen] at hclient hacc
    obtain ⟨account, ha, rfl⟩ := List.mem_map.mp hclient
    exact validateAccounts_none 0 c.Accounts hacc account ha
  · rw [if_neg hlen] at hclient hacc
    rw [List.mem_singleton] at hclient
    subst hclient
    exact validateAliyun_none c.Aliyun hacc

/-- Witness of the amended C11: the account of the valid test configuration. -/
theorem Validate_targets_witness :
    EnabledTargetsValid (Client.mk (Account.GetAliyun
      (Account.mk "test_account" "test_key" "test_secret" "cn-hangzhou"
        ⟨true, [⟨"sg-test", "22", 100⟩]⟩ ⟨true, [⟨"rm-test", "default"⟩]⟩
        ⟨true, [⟨"r-test", "default"⟩]⟩ ⟨true, [⟨"acl-test"⟩]⟩))).config :=
  Validate_targets testConfig (by decide) _ (by decide)

/-- C12: `Validate` returns an error for every configuration whose interval is
not above zero, or whose IP source has an empty type, or a type other than
`http`, `command` and `interface`, or lacks the field its type requires (the
URL for `http`, the command for `command`, the interface for `interface`),
whatever its other fields are; and it returns no error for the valid
configuration of the test. -/
theorem Validate_rejects (c : Config)
    (hbad : c.Interval ≤ 0 ∨ c.IPSource.Type_ = ""
      ∨ (c.IPSource.Type_ ≠ "http" ∧ c.IPSource.Type_ ≠ "command"
          ∧ c.IPSource.Type_ ≠ "interface")
      ∨ (c.IPSource.Type_ = "http" ∧ c.IPSource.URL = "")
      ∨ (c.IPSource.Type_ = "command" ∧ c.IPSource.Cmd = "")
      ∨ (c.IPSource.Type_ = "interface" ∧ c.IPSource.Interface = "")) :
    c.Validate.isSome = true ∧ testConfig.Validate = none := by
  refine ⟨?_, by decide⟩
  by_contra hsome
  have hnone : c.Validate = none := by
    cases hv : c.Validate with
    | none => rfl
    | some err => rw [hv] at hsome; exact absurd rfl hsome
  obtain ⟨hi, hsrc, _⟩ := Validate_none c hnone
  unfold validateIPSource at hsrc
  rcases hbad with h | h | ⟨h1, h2, h3⟩ | ⟨h1, h2⟩ | ⟨h1, h2⟩ | ⟨h1, h2⟩
  · exact absurd hi (not_lt.mpr h)
  · have hn1 : c.IPSource.Type_ ≠ "http" := by rw [h]; decide
    have hn2 : c.IPSource.Type_ ≠ "command" := by rw [h]; decide
    have hn3 : c.IPSource.Type_ ≠ "interface" := by rw [h]; decide
    rw [if_neg hn1, if_neg hn2, if_neg hn3, if_pos h] at hsrc
    exact absurd hsrc (by simp)
  · rw [if_neg h1, if_neg h2, if_neg h3] at hsrc
    split at hsrc <;> exact absurd hsrc (by simp)
  · rw [if_pos h1, if_pos h2] at hsrc
    exact absurd hsrc (by simp)
  · have hn : c.IPSource.Type_ ≠ "http" := by rw [h1]; decide
    rw [if_neg hn, if_pos h1, if_pos h2] at hsrc
    exact absurd hsrc (by simp)
  · have hn1 : c.IPSource.Type_ ≠ "http" := by rw [h1]; decide
    have hn2 : c.IPSource.Type_ ≠ "command" := by rw [h1]; decide
    rw [if_neg hn1, if_neg hn2, if_pos h1, if_pos h2] at hsrc
    exact absurd hsrc (by simp)

/-- Witness of C12: the three invalid configurations of the test, with the
interval zero, with no IP source, and with an `http` source without URL. -/
theorem Validate_rejects_witness :
    (Config.Validate { testConfig with Interval := 0 }).isSome = true
    ∧ (Config.Validate { testConfig with
        IPSource := { Type_ := "", URL := "", Timeout := 0, Headers := [], Cmd := "",
                      Interface := "", IPv6 := false } }).isSome = true
    ∧ (Config.Validate { testConfig with
        IPSource := { Type_ := "http", URL := "", Timeout := 10, Headers := [], Cmd := "",
                      Interface := "", IPv6 := false } }).isSome = true :=
  ⟨(Validate_rejects _ (Or.inl (by decide))).1,
   (Validate_rejects _ (Or.inr (Or.inl rfl))).1,
   (Validate_rejects _ (Or.inr (Or.inr (Or.inr (Or.inl ⟨rfl, rfl⟩))))).1⟩

/-! ## Validation of the resolved IP -/

section parsing
variable {σ : Type}

theorem getIPFromSource_http (S : Sys σ) (source : IPSource) (w : World σ)
    (h : source.Type_ = "http") :
    (getIPFromSource S source w).1 = (getIPFromHTTP S source w.env).1 := by
  simp [getIPFromSource, h]

theorem getIPFromSource_command (S : Sys σ) (source : IPSource) (w : World σ)
    (h : source.Type_ = "command") :
    (getIPFromSource S source w).1 = (getIPFromCommand S source w.env).1 := by
  simp [getIPFromSource, h]

/-- What `getIPFromHTTP` makes of a response whose text does not parse. -/
theorem getIPFromHTTP_unparsed (S : Sys σ) (source : IPSource) (env env1 : σ) (status : Int)
    (body : String) (readErr : Option String)
    (hget : S.httpGet source env = (.response status body readErr, env1))
    (hparse : S.parseIP (TrimSpace body) = false) :
    (getIPFromHTTP S source env).1.2 ≠ none := by
  unfold getIPFromHTTP
  rw [hget]
  dsimp only
  split
  · simp
  · cases readErr with
    | none => simp [hparse]
    | some err =>
      dsimp only
      split
      · simp
      · simp [hparse]

/-- What `getIPFromHTTP` makes of a response with status 200, a read that gave
some bytes or no error, and a text that parses. -/
theorem getIPFromHTTP_parsed (S : Sys σ) (source : IPSource) (env env1 : σ)
    (body : String) (readErr : Option String)
    (hget : S.httpGet source env = (.response 200 body readErr, env1))
    (hread : readErr = none ∨ body.data.length ≠ 0)
    (hparse : S.parseIP (TrimSpace body) = true) :
    (getIPFromHTTP S source env).1 = (TrimSpace body, none) := by
  unfold getIPFromHTTP
  rw [hget]
  dsimp only
  rw [if_neg (by simp)]
  cases readErr with
  | none => simp [hparse]
  | some err =>
    have hlen : body.data.length ≠ 0 := by
      rcases hread with h | h
      · exact absurd h (by simp)
      · exact h
    dsimp only
    rw [if_neg hlen]
    simp [hparse]

/-- Every IP that `getIPFromHTTP` returns without error parses. -/
theorem getIPFromHTTP_ok (S : Sys σ) (source : IPSource) (env : σ)
    (h : (getIPFromHTTP S source env).1.2 = none) :
    S.parseIP (getIPFromHTTP S source env).1.1 = true := by
  unfold getIPFromHTTP at h ⊢
  rcases hget : S.httpGet source env with ⟨_ | _ | ⟨status, body, readErr⟩, env1⟩
  · rw [hget] at h; simp at h
  · rw [hget] at h; simp at h
  · rw [hget] at h
    dsimp only at h ⊢
    by_cases hs : status ≠ 200
    · rw [if_pos hs] at h; simp at h
    · rw [if_neg hs] at h ⊢
      cases readErr with
      | none =>
        dsimp only at h ⊢
        by_cases hp : S.parseIP (TrimSpace body) = false
        · rw [if_pos hp] at h; simp at h
        · rw [if_neg hp]; simpa using hp
      | some err =>
        dsimp only at h ⊢
        by_cases hl : body.data.length = 0
        · rw [if_pos hl] at h; simp at h
        · rw [if_neg hl] at h ⊢
          by_cases hp : S.parseIP (TrimSpace body) = false
          · rw [if_pos hp] at h; simp at h
          · rw [if_neg hp]; simpa using hp

/-- What `getIPFromCommand` makes of the output of a command that succeeded. -/
theorem getIPFromCommand_output (S : Sys σ) (source : IPSource) (env env1 : σ)
    (output : String) (hrun : S.runCommand source env = (.ok output, env1)) :
    (getIPFromCommand S source env).1 =
      if S.parseIP (TrimSpace output) = false then
        ("", some ("invalid IP address: " ++ TrimSpace output))
      else (TrimSpace output, none) := by
  unfold getIPFromCommand
  rw [hrun]
  dsimp only
  split <;> rfl

/-- Every IP that `getIPFromCommand` returns without error parses. -/
theorem getIPFromCommand_ok (S : Sys σ) (source : IPSource) (env : σ)
    (h : (getIPFromCommand S source env).1.2 = none) :
    S.parseIP (getIPFromCommand S source env).1.1 = true := by
  rcases hrun : S.runCommand source env with ⟨err | output, env1⟩
  · unfold getIPFromCommand at h
    rw [hrun] at h
    simp at h
  · rw [getIPFromCommand_output S source env env1 output hrun] at h ⊢
    by_cases hp : S.parseIP (TrimSpace output) = false
    · rw [if_pos hp] at h; simp at h
    · rw [if_neg hp]; simpa using hp

/-- A source that returns an error is passed over by `GetPublicIP`. -/
theorem GetPublicIP_skip (S : Sys σ) (source : IPSource) (rest : List IPSource) (w : World σ)
    (h : (getIPFromSource S source w).1.2 ≠ none) :
    GetPublicIP S (source :: rest) w = GetPublicIP S rest (getIPFromSource S source w).2 := by
  rw [GetPublicIP_cons, if_neg (fun hok => h hok.1)]

theorem GetPublicIP_parsed (S : Sys σ) (sources : List IPSource)
    (htypes : ∀ s ∈ sources, s.Type_ = "http" ∨ s.Type_ = "command") (w : World σ)
    (h : (GetPublicIP S sources w).1.2 = none) :
    S.parseIP (GetPublicIP S sources w).1.1 = true := by
  induction sources generalizing w with
  | nil => simp [GetPublicIP] at h
  | cons a rest ih =>
    rw [GetPublicIP_cons] at h ⊢
    by_cases hok : (getIPFromSource S a w).1.2 = none ∧ (getIPFromSource S a w).1.1 ≠ ""
    · rw [if_pos hok]
      dsimp only
      rcases htypes a (by simp) with ht | ht
      · rw [getIPFromSource_http S a w ht] at hok ⊢
        exact getIPFromHTTP_ok S a w.env hok.1
      · rw [getIPFromSource_command S a w ht] at hok ⊢
        exact getIPFromCommand_ok S a w.env hok.1
    · rw [if_neg hok] at h ⊢
      exact ih (fun s hs => htypes s (by simp [hs])) _ h

/-- C13: for an `http` source, whenever the trimmed text of the response does
not parse as an IP, `getIPFromSource` returns an error and `GetPublicIP` goes
on with the next source; when the response has status 200, its read gave some
bytes or no error, and the trimmed text parses, that text is returned.  The
same holds of the trimmed output of a `command` source whose command
succeeded.  Hence every IP that `GetPublicIP` returns from sources of these
two types parses. -/
theorem source_output_parsed (S : Sys σ) (source : IPSource) (w : World σ) :
    (source.Type_ = "http" → ∀ status body readErr env1,
        S.httpGet source w.env = (.response status body readErr, env1) →
        (S.parseIP (TrimSpace body) = false →
          (getIPFromSource S source w).1.2 ≠ none ∧
          ∀ rest, GetPublicIP S (source :: rest) w
            = GetPublicIP S rest (getIPFromSource S source w).2)
        ∧ (S.parseIP (TrimSpace body) = true → status = 200 →
            (readErr = none ∨ body.data.length ≠ 0) →
            (getIPFromSource S source w).1 = (TrimSpace body, none)))
    ∧ (source.Type_ = "command" → ∀ output env1,
        S.runCommand source w.env = (.ok output, env1) →
        (S.parseIP (TrimSpace output) = false →
          (getIPFromSource S source w).1.2 ≠ none ∧
          ∀ rest, GetPublicIP S (source :: rest) w
            = GetPublicIP S rest (getIPFromSource S source w).2)
        ∧ (S.parseIP (TrimSpace output) = true →
            (getIPFromSource S source w).1 = (TrimSpace output, none)))
    ∧ (∀ sources : List IPSource, (∀ s ∈ sources, s.Type_ = "http" ∨ s.Type_ = "command") →
        ∀ v : World σ, (GetPublicIP S sources v).1.2 = none →
          S.parseIP (GetPublicIP S sources v).1.1 = true) := by
  refine ⟨?_, ?_, fun sources htypes v h => GetPublicIP_parsed S sources htypes v h⟩
  · intro ht status body readErr env1 hget
    refine ⟨?_, ?_⟩
    · intro hparse
      have herr : (getIPFromSource S source w).1.2 ≠ none := by
        rw [getIPFromSource_http S source w ht]
        exact getIPFromHTTP_unparsed S source w.env env1 status body readErr hget hparse
      exact ⟨herr, fun rest => GetPublicIP_skip S source rest w herr⟩
    · intro hparse hstatus hread
      subst hstatus
      rw [getIPFromSource_http S source w ht]
      exact getIPFromHTTP_parsed S source w.env env1 body readErr hget hread hparse
  · intro ht output env1 hrun
    have hout := getIPFromCommand_output S source w.env env1 output hrun
    refine ⟨?_, ?_⟩
    · intro hparse
      have herr : (getIPFromSource S source w).1.2 ≠ none := by
        rw [getIPFromSource_command S source w ht, hout, if_pos hparse]
        simp
      exact ⟨herr, fun rest => GetPublicIP_skip S source rest w herr⟩
    · intro hparse
      rw [getIPFromSource_command S source w ht, hout, if_neg (by simp [hparse])]

/-- Witness of C13: in the example environment the endpoint answers
`not-an-ip` and then `192.168.1.1`; the first source is passed over and the
second gives the IP. -/
theorem source_output_parsed_witness :
    (getIPFromSource exampleSys exampleHTTPSource
        (exampleWorld ["not-an-ip", "192.168.1.1\n"])).1.2 ≠ none
    ∧ (GetPublicIP exampleSys [exampleHTTPSource, exampleHTTPSource]
        (exampleWorld ["not-an-ip", "192.168.1.1\n"])).1 = ("192.168.1.1", none) :=
  have h := ((source_output_parsed exampleSys exampleHTTPSource
    (exampleWorld ["not-an-ip", "192.168.1.1\n"])).1 rfl 200 "not-an-ip" none
    ["192.168.1.1\n"] rfl).1 (by decide)
  ⟨h.1, by rw [h.2 [exampleHTTPSource]]; decide⟩

end parsing

/-! ## Re-application of the synchronizer -/

/-- Applying `updateIPList` a second time with the same pair changes no entry. -/
theorem mem_entries_updateIPList_twice (order1 order2 : MapOrder) (M oldIP newIP x : String) :
    x ∈ entries (updateIPList order2 (updateIPList order1 M oldIP newIP) oldIP newIP)
      ↔ x ∈ entries (updateIPList order1 M oldIP newIP) := by
  rw [mem_entries_updateIPList order2, mem_entries_updateIPList order1]
  constructor
  · rintro (⟨h, _⟩ | h)
    · exact h
    · exact Or.inr h
  · rintro (⟨hx, hxo⟩ | h)
    · exact Or.inl ⟨Or.inl ⟨hx, hxo⟩, hxo⟩
    · exact Or.inr h

/-- C14 as stated fails: there are no iteration orders, list and IPs for which
a second application of `updateIPList` with the same pair changes the entry
set. -/
theorem updateIPList_twice_counterexample :
    ¬ ∃ (order1 order2 : MapOrder) (M oldIP newIP : String),
      ¬ (∀ x, x ∈ entries (updateIPList order2 (updateIPList order1 M oldIP newIP) oldIP newIP)
            ↔ x ∈ entries (updateIPList order1 M oldIP newIP)) := by
  rintro ⟨order1, order2, M, oldIP, newIP, h⟩
  exact h (fun x => mem_entries_updateIPList_twice order1 order2 M oldIP newIP x)

/-- C14, amended: full re-application of the synchronizer is idempotent on
entry sets: for every list `M` and all `oldIP`, `newIP`, whatever the order
in which the map is ranged over, the entries of
`updateIPList (updateIPList M oldIP newIP) oldIP newIP` are those of
`updateIPList M oldIP newIP`; the old IP, once removed, is simply absent at the
second removal.  Re-applying the additive half only, with the old IP absent,
changes no entry either. -/
theorem updateIPList_idempotent (order1 order2 : MapOrder) (M oldIP newIP : String) :
    (∀ x, x ∈ entries (updateIPList order2 (updateIPList order1 M oldIP newIP) oldIP newIP)
        ↔ x ∈ entries (updateIPList order1 M oldIP newIP))
    ∧ (∀ x, x ∈ entries (updateIPList order2 (updateIPList order1 M oldIP newIP) "" newIP)
        ↔ x ∈ entries (updateIPList order1 M oldIP newIP)) := by
  refine ⟨?_, ?_⟩
  · intro x
    rw [mem_entries_updateIPList order2, mem_entries_updateIPList order1]
    constructor
    · rintro (⟨h, _⟩ | h)
      · exact h
      · exact Or.inr h
    · rintro (⟨hx, hxo⟩ | h)
      · exact Or.inl ⟨Or.inl ⟨hx, hxo⟩, hxo⟩
      · exact Or.inr h
  · intro x
    rw [mem_entries_updateIPList order2, mem_entries_updateIPList order1]
    constructor
    · rintro (⟨h, _⟩ | h)
      · exact h
      · exact Or.inr h
    · rintro (⟨hx, hxo⟩ | h)
      · exact Or.inl ⟨Or.inl ⟨hx, hxo⟩, fun hne => absurd rfl hne⟩
      · exact Or.inr h

/-! ## The whitelist groups of RDS and Redis instances -/

section groups
variable {σ : Type}

theorem findRDSGroup_error_iff (iw : InstanceWhitelist) (items : List DBInstanceIPArray) :
    (findRDSGroup iw items).2 ≠ none ↔
      ∀ g ∈ items, g.DBInstanceIPArrayName ≠ iw.WhitelistName := by
  induction items with
  | nil => simp [findRDSGroup]
  | cons g rest ih =>
    rw [findRDSGroup]
    by_cases hg : g.DBInstanceIPArrayName = iw.WhitelistName
    · simp [hg]
    · rw [if_neg hg, ih]
      simp [hg]

theorem findRDSGroup_first (iw : InstanceWhitelist) (pre : List DBInstanceIPArray)
    (g : DBInstanceIPArray) (post : List DBInstanceIPArray)
    (hpre : ∀ x ∈ pre, x.DBInstanceIPArrayName ≠ iw.WhitelistName)
    (hg : g.DBInstanceIPArrayName = iw.WhitelistName) :
    findRDSGroup iw (pre ++ g :: post) = (g.SecurityIPList, none) := by
  induction pre with
  | nil => simp [findRDSGroup, hg]
  | cons a rest ih =>
    rw [List.cons_append, findRDSGroup, if_neg (hpre a (by simp))]
    exact ih (fun x hx => hpre x (by simp [hx]))

theorem findRedisGroup_error_iff (iw : InstanceWhitelist) (groups : List SecurityIpGroup) :
    (findRedisGroup iw groups).2 ≠ none ↔
      ∀ g ∈ groups, g.SecurityIpGroupName ≠ iw.WhitelistName := by
  induction groups with
  | nil => simp [findRedisGroup]
  | cons g rest ih =>
    rw [findRedisGroup]
    by_cases hg : g.SecurityIpGroupName = iw.WhitelistName
    · simp [hg]
    · rw [if_neg hg, ih]
      simp [hg]

theorem findRedisGroup_first (iw : InstanceWhitelist) (pre : List SecurityIpGroup)
    (g : SecurityIpGroup) (post : List SecurityIpGroup)
    (hpre : ∀ x ∈ pre, x.SecurityIpGroupName ≠ iw.WhitelistName)
    (hg : g.SecurityIpGroupName = iw.WhitelistName) :
    findRedisGroup iw (pre ++ g :: post) = (g.SecurityIpList, none) := by
  induction pre with
  | nil => simp [findRedisGroup, hg]
  | cons a rest ih =>
    rw [List.cons_append, findRedisGroup, if_neg (hpre a (by simp))]
    exact ih (fun x hx => hpre x (by simp [hx]))

theorem getRDSWhitelist_trace (S : Sys σ) (c : Client) (iw : InstanceWhitelist) (w : World σ) :
    (getRDSWhitelist S c iw w).2.trace
      = w.trace ++ [Event.describeDBInstanceIPArrayList c iw.InstanceID] := by
  unfold getRDSWhitelist
  split <;> rfl

theorem getRedisWhitelist_trace (S : Sys σ) (c : Client) (iw : InstanceWhitelist)
    (w : World σ) :
    (getRedisWhitelist S c iw w).2.trace
      = w.trace ++ [Event.describeSecurityIps c iw.InstanceID] := by
  unfold getRedisWhitelist
  split <;> rfl

theorem getRDSWhitelist_of_response (S : Sys σ) (c : Client) (iw : InstanceWhitelist)
    (w : World σ) (items : List DBInstanceIPArray) (env1 : σ)
    (h : S.describeDBInstanceIPArrayList c iw.InstanceID w.env = (.ok items, env1)) :
    (getRDSWhitelist S c iw w).1 = findRDSGroup iw items := by
  unfold getRDSWhitelist
  rw [h]

theorem getRedisWhitelist_of_response (S : Sys σ) (c : Client) (iw : InstanceWhitelist)
    (w : World σ) (groups : List SecurityIpGroup) (env1 : σ)
    (h : S.describeSecurityIps c iw.InstanceID w.env = (.ok groups, env1)) :
    (getRedisWhitelist S c iw w).1 = findRedisGroup iw groups := by
  unfold getRedisWhitelist
  rw [h]

/-- When the get call fails, the body of the RDS loop returns right after it. -/
theorem updateRDSInstance_of_get_error (S : Sys σ) (c : Client) (oldIP newIP : String)
    (iw : InstanceWhitelist) (w : World σ) (h : (getRDSWhitelist S c iw w).1.2 ≠ none) :
    ∃ err, updateRDSInstance S c oldIP newIP iw w = (some err, (getRDSWhitelist S c iw w).2) := by
  unfold updateRDSInstance
  rcases hg : getRDSWhitelist S c iw w with ⟨⟨cur, _ | err⟩, w1⟩
  · rw [hg] at h
    exact absurd rfl h
  · exact ⟨_, rfl⟩

/-- When the get call fails, the body of the Redis loop returns right after it. -/
theorem updateRedisInstance_of_get_error (S : Sys σ) (c : Client) (oldIP newIP : String)
    (iw : InstanceWhitelist) (w : World σ) (h : (getRedisWhitelist S c iw w).1.2 ≠ none) :
    ∃ err, updateRedisInstance S c oldIP newIP iw w
      = (some err, (getRedisWhitelist S c iw w).2) := by
  unfold updateRedisInstance
  rcases hg : getRedisWhitelist S c iw w with ⟨⟨cur, _ | err⟩, w1⟩
  · rw [hg] at h
    exact absurd rfl h
  · exact ⟨_, rfl⟩

/-- A loop over targets whose first targets pass stops at the first failure. -/
theorem forEachTarget_append_fail {α : Type} (body : α → World σ → Option String × World σ)
    (pre : List α) (x : α) (post : List α) (w0 w w1 : World σ) (err : String)
    (hpre : forEachTarget body pre w0 = (none, w)) (h : body x w = (some err, w1)) :
    forEachTarget body (pre ++ x :: post) w0 = (some err, w1) := by
  induction pre generalizing w0 with
  | nil =>
    simp only [forEachTarget, Prod.mk.injEq, true_and] at hpre
    subst hpre
    exact forEachTarget_cons_fail body x post w0 w1 err h
  | cons a rest ih =>
    rw [forEachTarget] at hpre
    rw [List.cons_append, forEachTarget]
    rcases hb : body a w0 with ⟨_ | e, wa⟩
    · rw [hb] at hpre
      exact ih wa hpre
    · rw [hb] at hpre
      exact absurd hpre (by simp)

/-- C15: for every response of the provider to the describe call of an RDS
(resp. Redis) instance, `getRDSWhitelist` (resp. `getRedisWhitelist`) returns
an error exactly when no group of the response bears the configured whitelist
name, and otherwise returns the IP list of the first group that bears it.
Whenever the get call of a target returns an error, the update returns an
error and adds to the trace nothing after the describe call: no modify call is
issued for that target. -/
theorem whitelist_group_lookup (S : Sys σ) (c : Client) (iw : InstanceWhitelist)
    (w : World σ) :
    (∀ items env1, S.describeDBInstanceIPArrayList c iw.InstanceID w.env = (.ok items, env1) →
        ((getRDSWhitelist S c iw w).1.2 ≠ none ↔
          ∀ g ∈ items, g.DBInstanceIPArrayName ≠ iw.WhitelistName)
        ∧ (∀ pre g post, items = pre ++ g :: post →
            (∀ x ∈ pre, x.DBInstanceIPArrayName ≠ iw.WhitelistName) →
            g.DBInstanceIPArrayName = iw.WhitelistName →
            (getRDSWhitelist S c iw w).1 = (g.SecurityIPList, none)))
    ∧ (∀ groups env1, S.describeSecurityIps c iw.InstanceID w.env = (.ok groups, env1) →
        ((getRedisWhitelist S c iw w).1.2 ≠ none ↔
          ∀ g ∈ groups, g.SecurityIpGroupName ≠ iw.WhitelistName)
        ∧ (∀ pre g post, groups = pre ++ g :: post →
            (∀ x ∈ pre, x.SecurityIpGroupName ≠ iw.WhitelistName) →
            g.SecurityIpGroupName = iw.WhitelistName →
            (getRedisWhitelist S c iw w).1 = (g.SecurityIpList, none)))
    ∧ (∀ oldIP newIP pre post w0, (getRDSWhitelist S c iw w).1.2 ≠ none →
        c.config.RDS.Enabled = true → c.config.RDS.InstanceWhitelists = pre ++ iw :: post →
        forEachTarget (updateRDSInstance S c oldIP newIP) pre w0 = (none, w) →
        (UpdateRDSWhitelist S c oldIP newIP w0).1 ≠ none
        ∧ (UpdateRDSWhitelist S c oldIP newIP w0).2.trace
            = w.trace ++ [Event.describeDBInstanceIPArrayList c iw.InstanceID])
    ∧ (∀ oldIP newIP pre post w0, (getRedisWhitelist S c iw w).1.2 ≠ none →
        c.config.Redis.Enabled = true → c.config.Redis.InstanceWhitelists = pre ++ iw :: post →
        forEachTarget (updateRedisInstance S c oldIP newIP) pre w0 = (none, w) →
        (UpdateRedisWhitelist S c oldIP newIP w0).1 ≠ none
        ∧ (UpdateRedisWhitelist S c oldIP newIP w0).2.trace
            = w.trace ++ [Event.describeSecurityIps c iw.InstanceID]) := by
  refine ⟨?_, ?_, ?_, ?_⟩
  · intro items env1 hresp
    rw [getRDSWhitelist_of_response S c iw w items env1 hresp]
    refine ⟨findRDSGroup_error_iff iw items, ?_⟩
    intro pre g post hitems hpre hg
    rw [hitems]
    exact findRDSGroup_first iw pre g post hpre hg
  · intro groups env1 hresp
    rw [getRedisWhitelist_of_response S c iw w groups env1 hresp]
    refine ⟨findRedisGroup_error_iff iw groups, ?_⟩
    intro pre g post hgroups hpre hg
    rw [hgroups]
    exact findRedisGroup_first iw pre g post hpre hg
  · intro oldIP newIP pre post w0 herr hen htargets hpre
    obtain ⟨err, hbody⟩ := updateRDSInstance_of_get_error S c oldIP newIP iw w herr
    have hrun : UpdateRDSWhitelist S c oldIP newIP w0
        = (some err, (getRDSWhitelist S c iw w).2) := by
      unfold UpdateRDSWhitelist
      rw [if_neg (by simp [hen]), htargets]
      exact forEachTarget_append_fail _ pre iw post w0 w _ err hpre hbody
    rw [hrun]
    exact ⟨by simp, getRDSWhitelist_trace S c iw w⟩
  · intro oldIP newIP pre post w0 herr hen htargets hpre
    obtain ⟨err, hbody⟩ := updateRedisInstance_of_get_error S c oldIP newIP iw w herr
    have hrun : UpdateRedisWhitelist S c oldIP newIP w0
        = (some err, (getRedisWhitelist S c iw w).2) := by
      unfold UpdateRedisWhitelist
      rw [if_neg (by simp [hen]), htargets]
      exact forEachTarget_append_fail _ pre iw post w0 w _ err hpre hbody
    rw [hrun]
    exact ⟨by simp, getRedisWhitelist_trace S c iw w⟩

/-- Witness of C15: in the example environment every instance has the single
group `default`; for an account whose only RDS target names the group
`missing`, the update makes the describe call and nothing else. -/
theorem whitelist_group_lookup_witness :
    (UpdateRDSWhitelist exampleSys
        ⟨{ goodClient.config with RDS := ⟨true, [⟨"rm-1", "missing"⟩]⟩ }⟩
        "1.2.3.4" "5.6.7.8" (exampleWorld [])).2.trace
      = [Event.describeDBInstanceIPArrayList
          ⟨{ goodClient.config with RDS := ⟨true, [⟨"rm-1", "missing"⟩]⟩ }⟩ "rm-1"] :=
  ((whitelist_group_lookup exampleSys
      ⟨{ goodClient.config with RDS := ⟨true, [⟨"rm-1", "missing"⟩]⟩ }⟩ ⟨"rm-1", "missing"⟩
      (exampleWorld [])).2.2.1 "1.2.3.4" "5.6.7.8" [] [] (exampleWorld [])
    (by decide) rfl rfl rfl).2

end groups

/-! ## The access-control lists of load balancers -/

section acl
variable {σ : Type}

theorem TrimSuffix_append (e suffix : String) :
    TrimSuffix ⟨e.data ++ suffix.data⟩ suffix = e := by
  unfold TrimSuffix
  have h1 : suffix.data.isSuffixOf (e.data ++ suffix.data) = true := by
    rw [List.isSuffixOf_iff_suffix]
    exact List.suffix_append _ _
  simp only [h1, if_true, List.length_append, Nat.add_sub_cancel]
  rw [List.take_left]

theorem TrimSuffix_slash32 (e : String) : TrimSuffix (e ++ "/32") "/32" = e :=
  TrimSuffix_append e "/32"

theorem entriesToAdd_fold (l : List String) (acc : List EntryMap) :
    l.foldl
      (fun acc ip =>
        let ip := TrimSpace ip
        if ip ≠ "" then
          acc ++ [{ entry := ip ++ "/32", comment := "Auto added by cloud-whitelist-manager" }]
        else acc) acc
      = acc ++ ((l.map TrimSpace).filter (fun ip => ip ≠ "")).map
          (fun e => (⟨e ++ "/32", autoComment⟩ : EntryMap)) := by
  induction l generalizing acc with
  | nil => simp
  | cons a rest ih =>
    rw [List.foldl_cons, ih]
    by_cases ha : TrimSpace a = ""
    · simp [ha]
    · simp [ha, autoComment]

/-- The add request of `setCLBWhitelist` holds one entry for every entry of the
membership string, in order, with `/32` appended. -/
theorem entriesToAdd_eq (whitelist : String) :
    entriesToAdd whitelist
      = (entries whitelist).map (fun e => (⟨e ++ "/32", autoComment⟩ : EntryMap)) := by
  unfold entriesToAdd entries
  rw [entriesToAdd_fold]
  simp

theorem entries_JoinComma_entries (whitelist : String) :
    entries (JoinComma (entries whitelist)) = entries whitelist := by
  rw [entries_JoinComma]
  have h : ∀ l : List String, (∀ k ∈ l, entries k = [k]) → l.flatMap entries = l := by
    intro l
    induction l with
    | nil => intro _; rfl
    | cons a rest ih =>
      intro hl
      rw [List.flatMap_cons, hl a (by simp), ih (fun k hk => hl k (by simp [hk]))]
      rfl
  apply h
  intro k hk
  obtain ⟨h0, hc, ht⟩ := entry_wellformed _ _ hk
  exact entries_single k h0 hc ht

theorem getCLBWhitelist_of_response (S : Sys σ) (c : Client) (lbw : LoadBalancerWhitelist)
    (w : World σ) (current : List AclEntry) (env1 : σ)
    (h : S.describeAccessControlListAttribute c lbw.AclID w.env = (.ok current, env1)) :
    getCLBWhitelist S c lbw w
      = ((JoinComma (current.map (fun entry => TrimSuffix entry.AclEntryIP "/32")), none),
          w.step (.describeAccessControlListAttribute c lbw.AclID) env1) := by
  unfold getCLBWhitelist
  rw [h]

theorem addCLBEntries_of_success (S : Sys σ) (c : Client) (whitelist : String)
    (lbw : LoadBalancerWhitelist) (w : World σ) (env1 : σ)
    (hadd : entries whitelist ≠ [] →
      S.addAccessControlListEntry c lbw.AclID
        ((entries whitelist).map (fun e => (⟨e ++ "/32", autoComment⟩ : EntryMap))) w.env
        = (none, env1))
    (hnone : entries whitelist = [] → env1 = w.env) :
    addCLBEntries S c whitelist lbw w
      = (none, ⟨env1, w.trace ++
          (if entries whitelist ≠ [] then
            [Event.addAccessControlListEntry c lbw.AclID
              ((entries whitelist).map (fun e => (⟨e ++ "/32", autoComment⟩ : EntryMap)))]
          else [])⟩) := by
  unfold addCLBEntries
  rw [entriesToAdd_eq]
  by_cases he : entries whitelist = []
  · have henv := hnone he
    subst henv
    simp [he]
  · have hw : whitelist ≠ "" := by
      intro h0
      rw [h0] at he
      exact he entries_nil
    have hlen : ((entries whitelist).map
        (fun e => (⟨e ++ "/32", autoComment⟩ : EntryMap))).length > 0 := by
      rw [List.length_map]
      exact List.length_pos.mpr he
    rw [if_pos hw, if_pos hlen, hadd he, if_pos he]
    rfl

/-- C16: for every list `old` of entries that the ACL holds and every
membership string, when the describe, remove and add calls succeed,
`setCLBWhitelist` returns no error and makes, in this order, the describe
call, a remove call naming every entry of `old` (none when `old` is empty) and
an add call with exactly one entry `e/32` for every trimmed non-empty
comma-separated entry `e` of the string (none when there is no entry);
`getCLBWhitelist` returns the entries of the provider, joined, each with a
trailing `/32` stripped; so when the provider then holds what was added,
`getCLBWhitelist` returns the entries of the string, joined in order. -/
theorem setCLBWhitelist_replaces (S : Sys σ) (c : Client) (whitelist : String)
    (lbw : LoadBalancerWhitelist) (w : World σ) (old : List AclEntry) (env1 env2 env3 : σ)
    (hdescribe : S.describeAccessControlListAttribute c lbw.AclID w.env = (.ok old, env1))
    (hremove : old ≠ [] →
      S.removeAccessControlListEntry c lbw.AclID
        (old.map (fun entry => ⟨entry.AclEntryIP, entry.AclEntryComment⟩)) env1 = (none, env2))
    (hkeep : old = [] → env2 = env1)
    (hadd : entries whitelist ≠ [] →
      S.addAccessControlListEntry c lbw.AclID
        ((entries whitelist).map (fun e => (⟨e ++ "/32", autoComment⟩ : EntryMap))) env2
        = (none, env3))
    (hnone : entries whitelist = [] → env3 = env2) :
    setCLBWhitelist S c whitelist lbw w
        = (none, ⟨env3, w.trace
            ++ [Event.describeAccessControlListAttribute c lbw.AclID]
            ++ (if old ≠ [] then
                [Event.removeAccessControlListEntry c lbw.AclID
                  (old.map (fun entry => ⟨entry.AclEntryIP, entry.AclEntryComment⟩))]
              else [])
            ++ (if entries whitelist ≠ [] then
                [Event.addAccessControlListEntry c lbw.AclID
                  ((entries whitelist).map (fun e => (⟨e ++ "/32", autoComment⟩ : EntryMap)))]
              else [])⟩)
    ∧ (∀ (v : World σ) (current : List AclEntry) (env4 : σ),
        S.describeAccessControlListAttribute c lbw.AclID v.env = (.ok current, env4) →
        (getCLBWhitelist S c lbw v).1
          = (JoinComma (current.map (fun entry => TrimSuffix entry.AclEntryIP "/32")), none))
    ∧ (∀ (trace : List Event) (env4 : σ),
        S.describeAccessControlListAttribute c lbw.AclID env3
          = (.ok (((entries whitelist).map
              (fun e => (⟨e ++ "/32", autoComment⟩ : EntryMap))).map EntryMap.toAclEntry), env4) →
        (getCLBWhitelist S c lbw ⟨env3, trace⟩).1 = (JoinComma (entries whitelist), none))
    ∧ entries (JoinComma (entries whitelist)) = entries whitelist := by
  refine ⟨?_, ?_, ?_, entries_JoinComma_entries whitelist⟩
  · unfold setCLBWhitelist
    rw [hdescribe]
    dsimp only
    by_cases hold : old = []
    · have henv := hkeep hold
      subst henv
      subst hold
      rw [if_neg (by simp)]
      rw [addCLBEntries_of_success S c whitelist lbw _ env3 hadd hnone]
      simp [World.step]
    · have hlen : old.length > 0 := List.length_pos.mpr hold
      rw [if_pos hlen]
      have hrem := hremove hold
      simp only [World.step] at hrem ⊢
      rw [hrem]
      dsimp only
      rw [addCLBEntries_of_success S c whitelist lbw _ env3 hadd hnone]
      simp [hold]
  · intro v current env4 hresp
    rw [getCLBWhitelist_of_response S c lbw v current env4 hresp]
  · intro trace env4 hresp
    rw [getCLBWhitelist_of_response S c lbw ⟨env3, trace⟩ _ env4 hresp]
    simp only [List.map_map]
    have hmap : (entries whitelist).map
        ((fun entry : AclEntry => TrimSuffix entry.AclEntryIP "/32") ∘ EntryMap.toAclEntry
          ∘ fun e => (⟨e ++ "/32", autoComment⟩ : EntryMap)) = entries whitelist := by
      have : ((fun entry : AclEntry => TrimSuffix entry.AclEntryIP "/32") ∘ EntryMap.toAclEntry
          ∘ fun e => (⟨e ++ "/32", autoComment⟩ : EntryMap)) = id := by
        funext e
        exact TrimSuffix_slash32 e
      rw [this, List.map_id]
    rw [hmap]

/-- Witness of C16: in the reference model of the ACLs the list `acl-1` holds
two entries; setting the membership ` 2.2.2.2 ,10.0.0.5` describes the list,
removes both and adds `2.2.2.2/32` and `10.0.0.5/32`. -/
theorem setCLBWhitelist_replaces_witness :
    (setCLBWhitelist aclSys aclClient " 2.2.2.2 ,10.0.0.5" ⟨"acl-1"⟩ ⟨officeAcl, []⟩).2.trace
      = [Event.describeAccessControlListAttribute aclClient "acl-1",
         Event.removeAccessControlListEntry aclClient "acl-1"
           [⟨"1.1.1.1/32", "home"⟩, ⟨"10.0.0.0/8", "office"⟩],
         Event.addAccessControlListEntry aclClient "acl-1"
           [⟨"2.2.2.2/32", autoComment⟩, ⟨"10.0.0.5/32", autoComment⟩]] :=
  have h := (setCLBWhitelist_replaces aclSys aclClient " 2.2.2.2 ,10.0.0.5" ⟨"acl-1"⟩
    ⟨officeAcl, []⟩ [⟨"1.1.1.1/32", "home"⟩, ⟨"10.0.0.0/8", "office"⟩] officeAcl _ _
    rfl (fun _ => rfl) (fun h => absurd h (by decide)) (fun _ => rfl)
    (fun h => absurd h (by decide))).1
  (congrArg (fun r => r.2.trace) h).trans (by decide)

/-- The defect that C19 meets: in the reference model the list `acl-1` holds
the host entry `1.1.1.1/32` and the network entry `10.0.0.0/8`.  Updating from
`1.1.1.1` to `2.2.2.2` succeeds, and afterwards the list holds
`10.0.0.0/8/32` and `2.2.2.2/32`: the network entry itself is gone. -/
theorem UpdateCLBWhitelist_network_entry_lost :
    (UpdateCLBWhitelist aclSys aclClient "1.1.1.1" "2.2.2.2" ⟨officeAcl, []⟩).1 = none
    ∧ (UpdateCLBWhitelist aclSys aclClient "1.1.1.1" "2.2.2.2" ⟨officeAcl, []⟩).2.env "acl-1"
        = [⟨"10.0.0.0/8/32", autoComment⟩, ⟨"2.2.2.2/32", autoComment⟩]
    ∧ "10.0.0.0/8" ∈ (officeAcl "acl-1").map (fun entry => entry.AclEntryIP)
    ∧ "10.0.0.0/8" ∉
        ((UpdateCLBWhitelist aclSys aclClient "1.1.1.1" "2.2.2.2" ⟨officeAcl, []⟩).2.env
          "acl-1").map (fun entry => entry.AclEntryIP) := by
  decide

end acl

/-! ## Revoke and authorize on security groups -/

section rules
variable {σ : Type}

/-- The model of `strings.Contains` holds exactly when the second text occurs
in the first as a block of consecutive characters. -/
theorem Contains_iff_block (s substr : String) :
    Contains s substr = true ↔ substr.data <:+: s.data := by
  unfold Contains
  rw [List.any_eq_true, List.infix_iff_prefix_suffix]
  constructor
  · rintro ⟨t, ht, hp⟩
    exact ⟨t, List.isPrefixOf_iff_prefix.mp hp, (List.mem_tails t s.data).mp ht⟩
  · rintro ⟨t, hp, ht⟩
    exact ⟨t, (List.mem_tails t s.data).mpr ht, List.isPrefixOf_iff_prefix.mpr hp⟩

/-- C17: `removeIPFromECSSecurityGroup` returns no error when the revoke call
of the provider succeeds, and also when it fails with an error whose message
holds the text `InvalidParam.SourceCidrIp`, by which the code recognises a rule
that does not exist; every other error of the provider is returned as it is.
In each case the one revoke call is made. -/
theorem revoke_missing_rule (S : Sys σ) (c : Client) (ip : String) (sg : SecurityGroup)
    (w : World σ) :
    ((S.revokeSecurityGroup c (revokeRequest ip sg) w.env).1 = none →
        (removeIPFromECSSecurityGroup S c ip sg w).1 = none)
    ∧ (∀ err, (S.revokeSecurityGroup c (revokeRequest ip sg) w.env).1 = some err →
        "InvalidParam.SourceCidrIp".data <:+: err.data →
        (removeIPFromECSSecurityGroup S c ip sg w).1 = none)
    ∧ (∀ err, (S.revokeSecurityGroup c (revokeRequest ip sg) w.env).1 = some err →
        ¬ "InvalidParam.SourceCidrIp".data <:+: err.data →
        (removeIPFromECSSecurityGroup S c ip sg w).1 = some err)
    ∧ (removeIPFromECSSecurityGroup S c ip sg w).2
        = w.step (Event.revokeSecurityGroup c (revokeRequest ip sg))
            (S.revokeSecurityGroup c (revokeRequest ip sg) w.env).2 := by
  unfold removeIPFromECSSecurityGroup
  dsimp only
  rcases hr : S.revokeSecurityGroup c (revokeRequest ip sg) w.env with ⟨_ | e, env1⟩
  · refine ⟨fun _ => rfl, ?_, ?_, rfl⟩
    · intro err herr
      exact absurd herr (by simp)
    · intro err herr
      exact absurd herr (by simp)
  · dsimp only
    by_cases hc : Contains e "InvalidParam.SourceCidrIp" = true
    · rw [if_pos hc]
      refine ⟨fun _ => rfl, fun _ _ _ => rfl, ?_, rfl⟩
      intro err herr hnot
      have he : e = err := by simpa using herr
      subst he
      exact absurd ((Contains_iff_block e _).mp hc) hnot
    · rw [if_neg hc]
      refine ⟨fun h => absurd h (by simp), ?_, ?_, rfl⟩
      · intro err herr hin
        have he : e = err := by simpa using herr
        subst he
        exact absurd ((Contains_iff_block e _).mpr hin) hc
      · intro err herr _
        have he : e = err := by simpa using herr
        subst he
        rfl

/-- C18: for every security group and every IP, the revoke request of
`removeIPFromECSSecurityGroup` and the authorize request of
`addIPToECSSecurityGroup` carry the same security group, protocol, port range,
source (the IP followed by `/32`) and priority, and these are the requests
that the two functions send: a revoke of an IP names the rule that an
authorize of the same IP on the same group asks for. -/
theorem revoke_matches_authorize (S : Sys σ) (c : Client) (ip : String) (sg : SecurityGroup)
    (w : World σ) :
    (revokeRequest ip sg).SecurityGroupId = (authorizeRequest ip sg).SecurityGroupId
    ∧ (revokeRequest ip sg).IpProtocol = (authorizeRequest ip sg).IpProtocol
    ∧ (revokeRequest ip sg).PortRange = (authorizeRequest ip sg).PortRange
    ∧ (revokeRequest ip sg).SourceCidrIp = (authorizeRequest ip sg).SourceCidrIp
    ∧ (revokeRequest ip sg).Priority = (authorizeRequest ip sg).Priority
    ∧ (revokeRequest ip sg).SecurityGroupId = sg.SecurityGroupID
    ∧ (revokeRequest ip sg).SourceCidrIp = ip ++ "/32"
    ∧ (revokeRequest ip sg).Priority = fmtInt sg.Priority
    ∧ (removeIPFromECSSecurityGroup S c ip sg w).2.trace
        = w.trace ++ [Event.revokeSecurityGroup c (revokeRequest ip sg)]
    ∧ (addIPToECSSecurityGroup S c ip sg w).2.trace
        = w.trace ++ [Event.authorizeSecurityGroup c (authorizeRequest ip sg)] := by
  refine ⟨rfl, ?_, ?_, rfl, rfl, rfl, rfl, rfl,
    removeIPFromECSSecurityGroup_trace S c ip sg w, addIPToECSSecurityGroup_trace S c ip sg w⟩
  · unfold revokeRequest authorizeRequest
    dsimp only
  · unfold revokeRequest authorizeRequest
    dsimp only

end rules

/-! ## The driver over time -/

section invariant
variable {σ : Type}

/-- One trigger keeps the driver state within: both IPs absent, or a current
IP that is not empty and differs from the last one. -/
theorem updateIP_keeps (S : Sys σ) (cfg : Config) (clients : List Client) (state : State)
    (w : World σ)
    (h : (state.LastIP = "" ∧ state.CurrentIP = "")
      ∨ (state.CurrentIP ≠ "" ∧ state.LastIP ≠ state.CurrentIP)) :
    (((updateIP S cfg clients state w).2.1.LastIP = ""
        ∧ (updateIP S cfg clients state w).2.1.CurrentIP = "")
      ∨ ((updateIP S cfg clients state w).2.1.CurrentIP ≠ ""
        ∧ (updateIP S cfg clients state w).2.1.LastIP
            ≠ (updateIP S cfg clients state w).2.1.CurrentIP))
    ∧ (state.CurrentIP ≠ "" → (updateIP S cfg clients state w).2.1.CurrentIP ≠ "") := by
  rcases hr : (GetPublicIP S [cfg.IPSource] w).1.2 with _ | err
  · have hne := GetPublicIP_ok_ne_empty S [cfg.IPSource] w hr
    rw [updateIP_of_ok S cfg clients state w hr]
    by_cases hsame : (GetPublicIP S [cfg.IPSource] w).1.1 = state.CurrentIP
    · rw [if_pos hsame]
      exact ⟨h, fun hc => hc⟩
    · rw [if_neg hsame]
      exact ⟨Or.inr ⟨hne, fun heq => hsame heq.symm⟩, fun _ => hne⟩
  · rw [updateIP_of_error S cfg clients state w err hr]
    exact ⟨h, fun hc => hc⟩

theorem runTriggers_append (S : Sys σ) (cfg : Config) (clients : List Client)
    (worlds : List (World σ)) (w : World σ) :
    runTriggers S cfg clients (worlds ++ [w])
      = (updateIP S cfg clients (runTriggers S cfg clients worlds) w).2.1 := by
  simp [runTriggers, List.foldl_append]

/-- C20: in every driver state reached from the initial state of `main` by a
sequence of triggers, whatever world each trigger finds and whether its
resolution fails or succeeds, either `LastIP` and `CurrentIP` are both absent,
or `CurrentIP` is not empty and differs from `LastIP`.  Once a `CurrentIP` is
recorded, it is never absent after any further triggers. -/
theorem driver_invariant (S : Sys σ) (cfg : Config) (clients : List Client)
    (worlds : List (World σ)) :
    (((runTriggers S cfg clients worlds).LastIP = ""
        ∧ (runTriggers S cfg clients worlds).CurrentIP = "")
      ∨ ((runTriggers S cfg clients worlds).CurrentIP ≠ ""
        ∧ (runTriggers S cfg clients worlds).LastIP
            ≠ (runTriggers S cfg clients worlds).CurrentIP))
    ∧ (∀ more : List (World σ), (runTriggers S cfg clients worlds).CurrentIP ≠ "" →
        (runTriggers S cfg clients (worlds ++ more)).CurrentIP ≠ "") := by
  have inv : ∀ ws : List (World σ),
      ((runTriggers S cfg clients ws).LastIP = "" ∧ (runTriggers S cfg clients ws).CurrentIP = "")
      ∨ ((runTriggers S cfg clients ws).CurrentIP ≠ ""
        ∧ (runTriggers S cfg clients ws).LastIP ≠ (runTriggers S cfg clients ws).CurrentIP) := by
    intro ws
    induction ws using List.reverseRecOn with
    | nil => exact Or.inl ⟨rfl, rfl⟩
    | append_singleton ws w ih =>
      rw [runTriggers_append]
      exact (updateIP_keeps S cfg clients _ w ih).1
  refine ⟨inv worlds, ?_⟩
  intro more
  induction more using List.reverseRecOn with
  | nil => simp
  | append_singleton ws w ih =>
    intro hrec
    rw [← List.append_assoc, runTriggers_append]
    exact (updateIP_keeps S cfg clients _ w (inv (worlds ++ ws))).2 (ih hrec)

end invariant

/-! ## Agreement of the two branches of validation -/

theorem securityGroups_agree (i j k : Nat) (l : List SecurityGroup) :
    (accountSecurityGroups i j l).isSome = (aliyunSecurityGroups k l).isSome := by
  induction l generalizing j k with
  | nil => rfl
  | cons sg rest ih =>
    rw [accountSecurityGroups, aliyunSecurityGroups]
    by_cases h1 : sg.SecurityGroupID = ""
    · rw [if_pos h1, if_pos h1]; rfl
    · rw [if_neg h1, if_neg h1]
      by_cases h2 : sg.Port = ""
      · rw [if_pos h2, if_pos h2]; rfl
      · rw [if_neg h2, if_neg h2]
        by_cases h3 : sg.Priority ≤ 0
        · rw [if_pos h3, if_pos h3]; rfl
        · rw [if_neg h3, if_neg h3]
          exact ih (j + 1) (k + 1)

theorem rdsWhitelists_agree (i j k : Nat) (l : List InstanceWhitelist) :
    (accountRDSWhitelists i j l).isSome = (aliyunRDSWhitelists k l).isSome := by
  induction l generalizing j k with
  | nil => rfl
  | cons iw rest ih =>
    rw [accountRDSWhitelists, aliyunRDSWhitelists]
    by_cases h1 : iw.InstanceID = ""
    · rw [if_pos h1, if_pos h1]; rfl
    · rw [if_neg h1, if_neg h1]
      by_cases h2 : iw.WhitelistName = ""
      · rw [if_pos h2, if_pos h2]; rfl
      · rw [if_neg h2, if_neg h2]
        exact ih (j + 1) (k + 1)

theorem redisWhitelists_agree (i j k : Nat) (l : List InstanceWhitelist) :
    (accountRedisWhitelists i j l).isSome = (aliyunRedisWhitelists k l).isSome := by
  induction l generalizing j k with
  | nil => rfl
  | cons iw rest ih =>
    rw [accountRedisWhitelists, aliyunRedisWhitelists]
    by_cases h1 : iw.InstanceID = ""
    · rw [if_pos h1, if_pos h1]; rfl
    · rw [if_neg h1, if_neg h1]
      by_cases h2 : iw.WhitelistName = ""
      · rw [if_pos h2, if_pos h2]; rfl
      · rw [if_neg h2, if_neg h2]
        exact ih (j + 1) (k + 1)

theorem clbWhitelists_agree (i j k : Nat) (l : List LoadBalancerWhitelist) :
    (accountCLBWhitelists i j l).isSome = (aliyunCLBWhitelists k l).isSome := by
  induction l generalizing j k with
  | nil => rfl
  | cons lbw rest ih =>
    rw [accountCLBWhitelists, aliyunCLBWhitelists]
    by_cases h1 : lbw.AclID = ""
    · rw [if_pos h1, if_pos h1]; rfl
    · rw [if_neg h1, if_neg h1]
      exact ih (j + 1) (k + 1)

/-- Whether a guarded block of `Validate` returns an error. -/
theorem guarded_isSome {α : Type} (enabled : Bool) (l : List α) (msg : String)
    (loop : Option String) :
    (if enabled = true then if l.length = 0 then some msg else loop else none).isSome
      = (enabled && (decide (l.length = 0) || loop.isSome)) := by
  cases enabled with
  | false => rfl
  | true =>
    by_cases hl : l.length = 0
    · simp [hl]
    · simp [hl]

/-- Whether a block followed by the rest of `Validate` returns an error. -/
theorem match_isSome (a g : Option String) :
    (match a with | some err => some err | none => g).isSome = (a.isSome || g.isSome) := by
  cases a <;> rfl

theorem validateAccount_isSome (i : Nat) (a : Account) :
    (validateAccount i a).isSome
      = (decide (a.Name = "") || decide (a.AccessKeyID = "") || decide (a.AccessKeySecret = "")
        || decide (a.RegionID = "")
        || (a.ECS.Enabled && (decide (a.ECS.SecurityGroupIDs.length = 0)
              || (accountSecurityGroups i 0 a.ECS.SecurityGroupIDs).isSome))
        || (a.RDS.Enabled && (decide (a.RDS.InstanceWhitelists.length = 0)
              || (accountRDSWhitelists i 0 a.RDS.InstanceWhitelists).isSome))
        || (a.Redis.Enabled && (decide (a.Redis.InstanceWhitelists.length = 0)
              || (accountRedisWhitelists i 0 a.Redis.InstanceWhitelists).isSome))
        || (a.CLB.Enabled && (decide (a.CLB.LoadBalancerWhitelists.length = 0)
              || (accountCLBWhitelists i 0 a.CLB.LoadBalancerWhitelists).isSome))) := by
  unfold validateAccount
  by_cases h1 : a.Name = ""
  · simp [h1]
  · by_cases h2 : a.AccessKeyID = ""
    · simp [h1, h2]
    · by_cases h3 : a.AccessKeySecret = ""
      · simp [h1, h2, h3]
      · by_cases h4 : a.RegionID = ""
        · simp [h1, h2, h3, h4]
        · rw [if_neg h1, if_neg h2, if_neg h3, if_neg h4, match_isSome, match_isSome,
            match_isSome, guarded_isSome, guarded_isSome, guarded_isSome, guarded_isSome]
          simp [h1, h2, h3, h4, Bool.or_assoc]

theorem validateAliyun_isSome (a : Aliyun) :
    (validateAliyun a).isSome
      = (decide (a.AccessKeyID = "") || decide (a.AccessKeySecret = "")
        || decide (a.RegionID = "")
        || (a.ECS.Enabled && (decide (a.ECS.SecurityGroupIDs.length = 0)
              || (aliyunSecurityGroups 0 a.ECS.SecurityGroupIDs).isSome))
        || (a.RDS.Enabled && (decide (a.RDS.InstanceWhitelists.length = 0)
              || (aliyunRDSWhitelists 0 a.RDS.InstanceWhitelists).isSome))
        || (a.Redis.Enabled && (decide (a.Redis.InstanceWhitelists.length = 0)
              || (aliyunRedisWhitelists 0 a.Redis.InstanceWhitelists).isSome))
        || (a.CLB.Enabled && (decide (a.CLB.LoadBalancerWhitelists.length = 0)
              || (aliyunCLBWhitelists 0 a.CLB.LoadBalancerWhitelists).isSome))) := by
  unfold validateAliyun
  by_cases h2 : a.AccessKeyID = ""
  · simp [h2]
  · by_cases h3 : a.AccessKeySecret = ""
    · simp [h2, h3]
    · by_cases h4 : a.RegionID = ""
      · simp [h2, h3, h4]
      · rw [if_neg h2, if_neg h3, if_neg h4, match_isSome, match_isSome,
          match_isSome, guarded_isSome, guarded_isSome, guarded_isSome, guarded_isSome]
        simp [h2, h3, h4, Bool.or_assoc]

/-- Whether `Validate` returns an error, by its three stages. -/
theorem Validate_isSome (c : Config) :
    c.Validate.isSome
      = (decide (c.Interval ≤ 0) || (validateIPSource c.IPSource).isSome
        || (if c.Accounts.length > 0 then validateAccounts 0 c.Accounts
            else validateAliyun c.Aliyun).isSome) := by
  unfold Config.Validate
  by_cases hi : c.Interval ≤ 0
  · simp [hi]
  · rw [if_neg hi, match_isSome]
    simp [hi]

theorem validateAccounts_single (i : Nat) (a : Account) :
    (validateAccounts i [a]).isSome = (validateAccount i a).isSome := by
  rw [validateAccounts]
  cases validateAccount i a <;> rfl

theorem eq_none_iff_isSome_eq {x y : Option String} (h : x.isSome = y.isSome) :
    x = none ↔ y = none := by
  cases x <;> cases y <;> simp at h ⊢

/-- C21: the branch of `Validate` for configured accounts and the branch for
the legacy block agree: for every interval, every IP source and every account
`a` with a name, `Validate` returns no error on the configuration whose only
account is `a` (whatever its legacy block holds) exactly when it returns no
error on the configuration without accounts whose legacy block is
`a.GetAliyun()`; and `GetAliyun` copies the credentials, the region and the
ECS, RDS, Redis and CLB blocks of `a` as they are. -/
theorem Validate_branches_agree (interval : Int) (source : IPSource) (a : Account)
    (legacy : Aliyun) (hname : a.Name ≠ "") :
    (Config.Validate { Interval := interval, IPSource := source, Accounts := [a],
                       Aliyun := legacy } = none
      ↔ Config.Validate { Interval := interval, IPSource := source, Accounts := [],
                          Aliyun := a.GetAliyun } = none)
    ∧ a.GetAliyun.AccessKeyID = a.AccessKeyID
    ∧ a.GetAliyun.AccessKeySecret = a.AccessKeySecret
    ∧ a.GetAliyun.RegionID = a.RegionID
    ∧ a.GetAliyun.ECS = a.ECS
    ∧ a.GetAliyun.RDS = a.RDS
    ∧ a.GetAliyun.Redis = a.Redis
    ∧ a.GetAliyun.CLB = a.CLB := by
  refine ⟨?_, rfl, rfl, rfl, rfl, rfl, rfl, rfl⟩
  apply eq_none_iff_isSome_eq
  rw [Validate_isSome, Validate_isSome]
  have hacc : (if (([a] : List Account).length > 0) then validateAccounts 0 [a]
        else validateAliyun legacy).isSome
      = (if (([] : List Account).length > 0) then validateAccounts 0 []
        else validateAliyun a.GetAliyun).isSome := by
    rw [if_pos (by simp), if_neg (by simp), validateAccounts_single, validateAccount_isSome,
      validateAliyun_isSome]
    have h1 : decide (a.Name = "") = false := by simpa using hname
    rw [h1, Bool.false_or]
    show _ = (decide (a.AccessKeyID = "") || decide (a.AccessKeySecret = "")
        || decide (a.RegionID = "")
        || (a.ECS.Enabled && (decide (a.ECS.SecurityGroupIDs.length = 0)
              || (aliyunSecurityGroups 0 a.ECS.SecurityGroupIDs).isSome))
        || (a.RDS.Enabled && (decide (a.RDS.InstanceWhitelists.length = 0)
              || (aliyunRDSWhitelists 0 a.RDS.InstanceWhitelists).isSome))
        || (a.Redis.Enabled && (decide (a.Redis.InstanceWhitelists.length = 0)
              || (aliyunRedisWhitelists 0 a.Redis.InstanceWhitelists).isSome))
        || (a.CLB.Enabled && (decide (a.CLB.LoadBalancerWhitelists.length = 0)
              || (aliyunCLBWhitelists 0 a.CLB.LoadBalancerWhitelists).isSome)))
    rw [securityGroups_agree 0 0 0, rdsWhitelists_agree 0 0 0, redisWhitelists_agree 0 0 0,
      clbWhitelists_agree 0 0 0]
  exact congrArg _ hacc

/-- Witness of C21: the account of the valid test configuration, moved to the
legacy block of a configuration without accounts, is accepted as well. -/
theorem Validate_branches_agree_witness :
    Config.Validate (Config.mk 300 testConfig.IPSource []
      (Account.GetAliyun
        (Account.mk "test_account" "test_key" "test_secret" "cn-hangzhou"
          ⟨true, [⟨"sg-test", "22", 100⟩]⟩ ⟨true, [⟨"rm-test", "default"⟩]⟩
          ⟨true, [⟨"r-test", "default"⟩]⟩ ⟨true, [⟨"acl-test"⟩]⟩))) = none :=
  (Validate_branches_agree 300 testConfig.IPSource
    (Account.mk "test_account" "test_key" "test_secret" "cn-hangzhou"
      ⟨true, [⟨"sg-test", "22", 100⟩]⟩ ⟨true, [⟨"rm-test", "default"⟩]⟩
      ⟨true, [⟨"r-test", "default"⟩]⟩ ⟨true, [⟨"acl-test"⟩]⟩)
    testConfig.Aliyun (by decide)).1.mp (by decide)

end CloudWhitelistManager
